import Mathlib

/-!
# yasm front end (`frontends/yasm/yasm.c`): module resolution and pipeline orchestration

A shallow embedding of `main`, the command-line option handlers,
`apply_preproc_saved_options` and `replace_extension`.

* The file-scope variables of `yasm.c` are the fields of `State`.
* Everything `main` calls outside `yasm.c` (module loaders, module hooks, the
  diagnostics sink, the C library) is a field of `Env`, an oracle for the
  outside world; each call that matters is logged as an `Event`.
* A run of `main` is a `Run`: how the process ended and the log of events.
* C strings are `String`s (no embedded NUL); `int` flags are `Nat`s.
-/

namespace Yasm

/-! ## Constants -/

/-- C library exit status for success. -/
def EXIT_SUCCESS : Nat := 0

/-- C library exit status for failure. -/
def EXIT_FAILURE : Nat := 1

/-- Value of `special_options` asking for the help text. -/
def SPECIAL_SHOW_HELP : Nat := 1

/-- Value of `special_options` asking for the version text. -/
def SPECIAL_SHOW_VERSION : Nat := 2

/-- Value of `special_options` once a module list was printed. -/
def SPECIAL_LISTED : Nat := 4

/-! ## Module descriptors -/

/-- Architecture module (`yasm_arch`). `init_hook m` is true when the module's
`initialize(m)` hook returns nonzero, that is, rejects machine `m`. -/
structure Arch where
  keyword : String
  version : Nat
  default_machine_keyword : String
  machines : List (String × String)
  init_hook : String → Bool

/-- Parser module (`yasm_parser`). `preproc_keywords` is the NULL-terminated
allow-list of preprocessor keywords. -/
structure Parser where
  keyword : String
  version : Nat
  preproc_keywords : List String
  default_preproc_keyword : String
deriving DecidableEq, Repr

/-- Preprocessor module (`yasm_preproc`). `add_include_path` and
`add_include_file` tell whether the hook of that name is non-null. `input` is
the sequence of nonempty chunks the `input` hook delivers before it returns 0
(the hook is taken to reach end of input). -/
structure Preproc where
  keyword : String
  version : Nat
  add_include_path : Bool
  add_include_file : Bool
  input : List String
deriving DecidableEq, Repr

/-- Debug format module (`yasm_dbgfmt`). -/
structure Dbgfmt where
  keyword : String
  version : Nat
deriving DecidableEq, Repr

/-- Object format module (`yasm_objfmt`). `extension` is `none` for a NULL
extension; `dbgfmt_keywords` is the NULL-terminated allow-list of debug
formats; `init_hook` is `none` for a null `initialize` hook, otherwise
`h in_filename obj_filename dbgfmt_keyword arch_keyword machine_name` is true
when the hook returns nonzero. -/
structure Objfmt where
  keyword : String
  version : Nat
  extension : Option String
  default_x86_mode_bits : Nat
  dbgfmt_keywords : List String
  init_hook : Option (String → String → String → String → String → Bool)

/-- Optimizer module (`yasm_optimizer`). -/
structure Optimizer where
  keyword : String
  version : Nat
deriving DecidableEq, Repr

/-- Contents of the diagnostics sink: `error_count` and `warning_count`. -/
structure Diag where
  error_count : Nat
  warning_count : Nat
deriving DecidableEq, Repr

/-- The world outside `yasm.c`. The `YASM_*_VERSION` macros, the module
loaders of `yasm-module.c`, libltdl, `BitVector_Boot`, `fopen`, and the state
of the diagnostics sink at each of the four places `main` consults it. -/
structure Env where
  YASM_ARCH_VERSION : Nat
  YASM_PARSER_VERSION : Nat
  YASM_PREPROC_VERSION : Nat
  YASM_OBJFMT_VERSION : Nat
  YASM_DBGFMT_VERSION : Nat
  YASM_OPTIMIZER_VERSION : Nat
  load_arch : String → Option Arch
  loadParser : String → Option Parser
  load_preproc : String → Option Preproc
  load_objfmt : String → Option Objfmt
  load_dbgfmt : String → Option Dbgfmt
  load_optimizer : String → Option Optimizer
  /-- return value of `lt_dlinit()` -/
  lt_dlinit : Nat
  /-- value of `getenv(YASM_MODULE_PATH_ENV)` -/
  module_path : Option String
  /-- return value of `lt_dladdsearchdir(dir)` -/
  lt_dladdsearchdir : String → Nat
  /-- the `YASM_MODULEDIR` macro, when defined -/
  YASM_MODULEDIR : Option String
  /-- whether `BitVector_Boot()` returns `ErrCode_Ok` -/
  BitVector_Boot : Bool
  /-- whether `fopen(name, mode)` returns a stream -/
  fopen : String → String → Bool
  /-- whether `get_module_data(MODULE_ARCH, "x86", "mode_bits")` is non-null -/
  x86_mode_bits : Bool
  /-- sink contents after the preprocess-only loop -/
  diag_after_preproc : Diag
  /-- sink contents after `do_parse` returned -/
  diag_after_parse : Diag
  /-- sink contents after `optimize` returned -/
  diag_after_optimize : Diag
  /-- sink contents after the object format's `output` hook returned -/
  diag_after_output : Diag

/-! ## Events and results -/

/-- The messages `print_error` is called with, by format string. -/
inductive Msg
  | module_loader_init_failed
  | could_not_init_BitVector
  | fatal_could_not_open_file (name : String)
  | could_not_open_file (name : String)
  | could_not_load_default (what : String)
  | version_mismatch (desc keyword : String) (need have_ : Nat)
  | not_valid (value what for_what for_keyword : String)
  | objfmt_unsupported (objfmt arch machine : String)
  | unrecognized (what param : String)
  | warn_one_input_file
  | warn_one_object_file
  | already_ends_in (ext deflt : String)
  | already_no_extension (deflt : String)
  | option_rejected
  | warn_unrecognized_option
deriving DecidableEq, Repr

/-- The calls `main` and its helpers make that are visible outside `yasm.c`. -/
inductive Event
  | print_error (m : Msg)
  | help_msg
  | version_msg
  /-- The call `printf("Available yasm %s:")` followed by `list_<category>s` -/
  | list_modules (what : String)
  /-- the machine list printed for `-m help` -/
  | list_machines (arch : String) (machines : List (String × String))
  | warn_disable_all
  | warn_enable_unrec_char
  | warn_disable_unrec_char
  /-- The call `fopen(in_filename, "rt")` and whether it returned a stream -/
  | fopen_in (name : String) (ok : Bool)
  /-- The call `open_obj(mode)`: `fopen(obj_filename, mode)` and whether it returned a
  stream -/
  | open_obj (name mode : String) (ok : Bool)
  | fclose_in
  | fclose_obj
  | fwrite (chunk : String)
  | remove (name : String)
  /-- library set-up calls without a result `main` looks at -/
  | call (fn : String)
  | arch_init (arch machine : String)
  | objfmt_init (objfmt in_filename obj_filename dbgfmt arch machine : String)
  | add_include_path (param : String)
  | add_include_file (param : String)
  /-- The call `yasm_xfree(cp)` of the queue element holding `param` -/
  | xfree_param (param : String)
  | set_x86_mode_bits (bits : Nat)
  | preproc_init (pp : Preproc) (in_filename : String)
  | do_parse (pp : Preproc) (psr arch objfmt in_filename : String)
  | optimize (optimizer : String)
  /-- the object format's `output` hook: whether it writes to `obj` (else to
  `stderr`), and its third argument `strcmp(cur_dbgfmt->keyword, "null")` as a
  truth value -/
  | objfmt_output (objfmt : String) (to_obj : Bool) (all_syms : Bool)
  | errwarn_output_all (warning_error : Nat)
  /-- the call `cleanup(sections)`; `sections` tells whether the argument is
  non-null -/
  | cleanup (sections : Bool)
deriving DecidableEq, Repr

/-- How the process ended: `main` returned a status, or `exit` was called. -/
inductive Outcome
  | returned (status : Nat)
  | exited (status : Nat)
deriving DecidableEq, Repr

/-- The exit status of the process. -/
def Outcome.status : Outcome → Nat
  | .returned s => s
  | .exited s => s

/-- A complete run: how it ended and what it did, in order. -/
structure Run where
  outcome : Outcome
  trace : List Event
deriving DecidableEq, Repr

/-- Run `r` preceded by the events `evs`. -/
def emit (evs : List Event) (r : Run) : Run :=
  ⟨r.outcome, evs ++ r.trace⟩

/-- A stretch of `main`: either it falls through with a value, or it ends the
run. -/
inductive Step (α : Type)
  | ok (a : α) (evs : List Event)
  | stop (o : Outcome) (evs : List Event)

/-- Sequencing: the rest of `main` runs only when the stretch falls through. -/
def Step.andThen {α : Type} : Step α → (α → Run) → Run
  | .ok a evs, k => emit evs (k a)
  | .stop o evs, _ => ⟨o, evs⟩

/-- The events of a stretch. -/
def Step.events {α : Type} : Step α → List Event
  | .ok _ evs => evs
  | .stop _ evs => evs

/-! ## File-scope variables -/

/-- The file-scope variables of `yasm.c`. `curParser` is the source's
`cur_parser`. `includepaths` and `includefiles` are the two `STAILQ`s, as the
lists of the `param` fields of their elements, head first. -/
structure State where
  obj_filename : Option String
  in_filename : Option String
  machine_name : Option String
  special_options : Nat
  cur_arch : Option Arch
  curParser : Option Parser
  cur_preproc : Option Preproc
  cur_objfmt : Option Objfmt
  cur_dbgfmt : Option Dbgfmt
  preproc_only : Nat
  warning_error : Nat
  includepaths : List String
  includefiles : List String

/-- The initial values of the file-scope variables, with the two queues as
`STAILQ_INIT` leaves them. -/
def State.initial : State where
  obj_filename := none
  in_filename := none
  machine_name := none
  special_options := 0
  cur_arch := none
  curParser := none
  cur_preproc := none
  cur_objfmt := none
  cur_dbgfmt := none
  preproc_only := 0
  warning_error := 0
  includepaths := []
  includefiles := []

/-! ## Command line option handlers -/

/-- What a handler does: return an `int`, leaving the variables as `st`, or
call `exit`. -/
inductive Handled
  | ret (code : Nat) (st : State) (evs : List Event)
  | exit (status : Nat) (evs : List Event)

/-- Source function `not_an_option_handler`. -/
def not_an_option_handler (st : State) (param : String) : Handled :=
  .ret 0 { st with in_filename := some param }
    (if st.in_filename.isSome then [.print_error .warn_one_input_file] else [])

/-- Source function `opt_special_handler`. -/
def opt_special_handler (st : State) (extra : Nat) : Handled :=
  if st.special_options = 0 then .ret 0 { st with special_options := extra } []
  else .ret 0 st []

/-- Source function `opt_arch_handler`. -/
def opt_arch_handler (env : Env) (st : State) (param : String) : Handled :=
  let st := { st with cur_arch := env.load_arch param }
  match st.cur_arch with
  | none =>
    if param = "help" then
      .ret 0 { st with special_options := SPECIAL_LISTED } [.list_modules "architectures"]
    else .exit EXIT_FAILURE [.print_error (.unrecognized "architecture" param)]
  | some _ => .ret 0 st []

/-- Source function `opt_parser_handler`. -/
def opt_parser_handler (env : Env) (st : State) (param : String) : Handled :=
  let st := { st with curParser := env.loadParser param }
  match st.curParser with
  | none =>
    if param = "help" then
      .ret 0 { st with special_options := SPECIAL_LISTED } [.list_modules "parsers"]
    else .exit EXIT_FAILURE [.print_error (.unrecognized "parser" param)]
  | some _ => .ret 0 st []

/-- Source function `opt_preproc_handler`. -/
def opt_preproc_handler (env : Env) (st : State) (param : String) : Handled :=
  let st := { st with cur_preproc := env.load_preproc param }
  match st.cur_preproc with
  | none =>
    if param = "help" then
      .ret 0 { st with special_options := SPECIAL_LISTED } [.list_modules "preprocessors"]
    else .exit EXIT_FAILURE [.print_error (.unrecognized "preprocessor" param)]
  | some _ => .ret 0 st []

/-- Source function `opt_objfmt_handler`. -/
def opt_objfmt_handler (env : Env) (st : State) (param : String) : Handled :=
  let st := { st with cur_objfmt := env.load_objfmt param }
  match st.cur_objfmt with
  | none =>
    if param = "help" then
      .ret 0 { st with special_options := SPECIAL_LISTED } [.list_modules "object formats"]
    else .exit EXIT_FAILURE [.print_error (.unrecognized "object format" param)]
  | some _ => .ret 0 st []

/-- Source function `opt_dbgfmt_handler`. -/
def opt_dbgfmt_handler (env : Env) (st : State) (param : String) : Handled :=
  let st := { st with cur_dbgfmt := env.load_dbgfmt param }
  match st.cur_dbgfmt with
  | none =>
    if param = "help" then
      .ret 0 { st with special_options := SPECIAL_LISTED } [.list_modules "debug formats"]
    else .exit EXIT_FAILURE [.print_error (.unrecognized "debug format" param)]
  | some _ => .ret 0 st []

/-- Source function `opt_objfile_handler`. -/
def opt_objfile_handler (st : State) (param : String) : Handled :=
  .ret 0 { st with obj_filename := some param }
    (if st.obj_filename.isSome then [.print_error .warn_one_object_file] else [])

/-- Source function `opt_machine_handler`. -/
def opt_machine_handler (st : State) (param : String) : Handled :=
  .ret 0 { st with machine_name := some param } []

/-- Source function `opt_warning_handler`; `cmd` is the option text after the dash (`w`,
`Werror`, `Wno-error`, ...). -/
def opt_warning_handler (st : State) (cmd : String) (extra : Nat) : Handled :=
  if extra = 1 then .ret 0 st [.warn_disable_all]
  else
    let cmd1 := cmd.data.drop 1
    let no := decide (cmd1.take 3 = ['n', 'o', '-'])
    let enable : Nat := if no then 0 else 1
    let cmd2 := if no then cmd1.drop 3 else cmd1
    if cmd2 = [] then .ret 1 st []
    else if cmd2 = "error".data then .ret 0 { st with warning_error := enable } []
    else if cmd2 = "unrecognized-char".data then
      .ret 0 st [if enable ≠ 0 then .warn_enable_unrec_char else .warn_disable_unrec_char]
    else .ret 1 st []

/-- Source function `preproc_only_handler`. -/
def preproc_only_handler (st : State) : Handled :=
  .ret 0 { st with preproc_only := 1 } []

/-- Source function `opt_preproc_include_path`: `STAILQ_INSERT_TAIL(&includepaths, cp, link)`. -/
def opt_preproc_include_path (st : State) (param : String) : Handled :=
  .ret 0 { st with includepaths := st.includepaths ++ [param] } []

/-- Source function `opt_preproc_include_file`: `STAILQ_INSERT_TAIL(&includefiles, cp, link)`. -/
def opt_preproc_include_file (st : State) (param : String) : Handled :=
  .ret 0 { st with includefiles := st.includefiles ++ [param] } []

/-! ## Command line -/

/-- One decoded command-line argument: a row of the `options` table with its
parameter, an input file name, or something the decoder does not hand to any
handler. -/
inductive Arg
  | version
  | help
  | arch (param : String)
  | parser (param : String)
  | preproc (param : String)
  | oformat (param : String)
  | dformat (param : String)
  | objfile (param : String)
  | machine (param : String)
  | w
  | W (cmd : String)
  | preproc_only
  | I (param : String)
  | P (param : String)
  | file (param : String)
  /-- an option the decoder rejects itself (a missing parameter): an error -/
  | rejected
  /-- an option matching no row of the table: a warning -/
  | unknown
deriving DecidableEq, Repr

/-- The handler and `extra` value the `options` table gives each argument. -/
def dispatch (env : Env) (st : State) : Arg → Handled
  | .version => opt_special_handler st SPECIAL_SHOW_VERSION
  | .help => opt_special_handler st SPECIAL_SHOW_HELP
  | .arch p => opt_arch_handler env st p
  | .parser p => opt_parser_handler env st p
  | .preproc p => opt_preproc_handler env st p
  | .oformat p => opt_objfmt_handler env st p
  | .dformat p => opt_dbgfmt_handler env st p
  | .objfile p => opt_objfile_handler st p
  | .machine p => opt_machine_handler st p
  | .w => opt_warning_handler st "w" 1
  | .W cmd => opt_warning_handler st cmd 0
  | .preproc_only => preproc_only_handler st
  | .I p => opt_preproc_include_path st p
  | .P p => opt_preproc_include_file st p
  | .file p => not_an_option_handler st p
  | .rejected => .ret 0 st []
  | .unknown => .ret 0 st []

/-- Result of `parse_cmdline`: it returned its error count, or a handler called
`exit`. -/
inductive Cmdline
  | done (st : State) (errors : Nat) (evs : List Event)
  | exited (status : Nat) (evs : List Event)

/-- Cmdline result preceded by the events `evs`. -/
def Cmdline.emit (evs : List Event) : Cmdline → Cmdline
  | .done st errors evs2 => .done st errors (evs ++ evs2)
  | .exited status evs2 => .exited status (evs ++ evs2)

/-- The decoder's own error count for an argument. -/
def decoder_errors : Arg → Nat
  | .rejected => 1
  | _ => 0

/-- What the decoder itself prints for an argument. -/
def decoder_events : Arg → List Event
  | .rejected => [.print_error .option_rejected]
  | .unknown => [.print_error .warn_unrecognized_option]
  | _ => []

/-- Modelled from the spec: `parse_cmdline` (yasm-options.c, not part of the
sources at hand). The command line is consumed as already decoded arguments,
each handed to its handler in command-line order; an argument the decoder
rejects counts as an error, an unknown option or a handler returning nonzero
is warned about, and a handler that calls `exit` ends the process there. -/
def parse_cmdline (env : Env) : List Arg → State → Nat → Cmdline
  | [], st, errors => .done st errors []
  | a :: rest, st, errors =>
    match dispatch env st a with
    | .exit status evs => .exited status evs
    | .ret code st2 evs =>
      Cmdline.emit
        (decoder_events a ++ evs ++
          if code ≠ 0 then [.print_error .warn_unrecognized_option] else [])
        (parse_cmdline env rest st2 (errors + decoder_errors a))


/-! ## Helpers of `main` -/

/-- Modelled from the spec: `yasm__strcasecmp` (libyasm, not part of the
sources at hand), a case-insensitive comparison; 0 exactly when the two
strings are equal up to the case of their letters. -/
def yasm__strcasecmp (a b : String) : Nat :=
  if a.data.map Char.toLower = b.data.map Char.toLower then 0 else 1

/-- Modelled from the spec: `yasm_get_num_errors` (libyasm, not part of the
sources at hand); the count includes the warnings when warnings are treated
as errors. -/
def yasm_get_num_errors (d : Diag) (warning_as_error : Nat) : Nat :=
  if warning_as_error ≠ 0 then d.error_count + d.warning_count else d.error_count

/-- The `check_module_version` macro for a non-null descriptor with the given
`version` and `keyword`; `need` is `YASM_<TYPE>_VERSION`. -/
def check_module_version {α : Type} (version need : Nat) (desc keyword : String)
    (d : α) : Step α :=
  if version ≠ need then
    .stop (.exited EXIT_FAILURE) [.print_error (.version_mismatch desc keyword need version)]
  else .ok d []

/-- The call `open_obj(mode)` on `obj_filename`: the events, and whether a stream came
back. -/
def open_obj (env : Env) (obj_filename mode : String) : Bool × List Event :=
  if env.fopen obj_filename mode then (true, [.open_obj obj_filename mode true])
  else (false, [.open_obj obj_filename mode false,
                .print_error (.could_not_open_file obj_filename)])

/-- The call `cleanup(sections)`, kept as one event: none of its effects is
looked at by `main` afterwards. -/
def cleanup (sections : Bool) : List Event :=
  [.cleanup sections]

/-- The call `strrchr(s, c)` as the index of the last `c` in `s`. -/
def strrchr : List Char → Char → Option Nat
  | [], _ => none
  | x :: xs, c =>
    match strrchr xs c with
    | some i => some (i + 1)
    | none => if x = c then some 0 else none

/-- The size `replace_extension` allocates for `out`. -/
def replace_extension_size (orig : String) (ext : Option String) : Nat :=
  orig.data.length + (match ext with
    | some e => e.data.length + 2
    | none => 1)

/-- The call `replace_extension(orig, ext, def)`: the string returned and the warnings
printed. `outext` is an index into `out`, `none` for NULL. -/
def replace_extension (orig : String) (ext : Option String) (deflt : String) :
    String × List Event :=
  let out := orig.data
  -- first `if`: find or make the place of the extension
  let found : List Char × Option Nat × List Event :=
    match strrchr out '.' with
    | some i =>
      let outext := i + 1
      match ext with
      | some e =>
        if out.drop outext = e.data then
          (out, none, [.print_error (.already_ends_in e deflt)])
        else (out, some outext, [])
      | none => (out, some outext, [])
    | none =>
      match ext with
      | none => (out, none, [.print_error (.already_no_extension deflt)])
      | some _ => (out ++ ['.'], some (out.length + 1), [])
  -- second `if`: replace extension or use default name
  match found with
  | (out, some outext, evs) =>
    match ext with
    | none => (⟨out.take (outext - 1)⟩, evs)
    | some e => (⟨out.take outext ++ e.data⟩, evs)
  | (_, none, evs) => (deflt, evs)

/-- Source function `apply_preproc_saved_options` with `cur_preproc = pp`: the two queues
afterwards and the calls made. Both release loops of the source walk
`includepaths`. -/
def apply_preproc_saved_options (pp : Preproc) (st : State) : State × List Event :=
  let evs1 := if pp.add_include_path then st.includepaths.map Event.add_include_path else []
  let evs2 := st.includepaths.map Event.xfree_param
  let st := { st with includepaths := [] }
  let evs3 := if pp.add_include_file then st.includefiles.map Event.add_include_file else []
  let evs4 := st.includepaths.map Event.xfree_param
  let st := { st with includepaths := [] }
  (st, evs1 ++ evs2 ++ evs3 ++ evs4)

/-! ## `main`, stretch by stretch -/

/-- The value of `errors` after libltdl was set up (lines 248-259). -/
def loader_errors (env : Env) : Nat :=
  let errors := env.lt_dlinit
  if errors = 0 then
    let errors := match env.module_path with
      | some path => env.lt_dladdsearchdir path
      | none => errors
    match env.YASM_MODULEDIR with
    | some dir => if errors = 0 then env.lt_dladdsearchdir dir else errors
    | none => errors
  else errors

/-- Lines 293-309: open the input. Falls through with whether `in` is a file
of its own (`in != stdin`) and the value of `in_filename`. -/
def main_open_input (env : Env) (st : State) : Step (Bool × String) :=
  match st.in_filename with
  | some f =>
    if f ≠ "-" then
      if env.fopen f "rt" then .ok (true, f) [.fopen_in f true]
      else .stop (.returned EXIT_FAILURE)
        [.fopen_in f false, .print_error (.fatal_could_not_open_file f)]
    else .ok (false, f) []
  | none => .ok (false, "-") []

/-- Lines 327-337: the output stream of preprocess-only mode. Falls through
with the name of the file opened, `none` when `obj` is `stdout`. -/
def preproc_only_open (env : Env) (obj_filename : Option String) : Step (Option String) :=
  match obj_filename with
  | none => .ok none []
  | some f =>
    if (open_obj env f "wt").1 then .ok (some f) (open_obj env f "wt").2
    else .stop (.returned EXIT_FAILURE) (open_obj env f "wt").2

/-- Lines 339-349: the preprocessor of preprocess-only mode. -/
def preproc_only_preproc (env : Env) (cur_preproc : Option Preproc) : Step Preproc :=
  let cur_preproc := match cur_preproc with
    | none => env.load_preproc "nasm"
    | some p => some p
  match cur_preproc with
  | none => .stop (.returned EXIT_FAILURE)
      ([.print_error (.could_not_load_default "preprocessor")] ++ cleanup false)
  | some p => check_module_version p.version env.YASM_PREPROC_VERSION "preproc" p.keyword p

/-- Lines 322-376: the preprocess-only case. -/
def main_preproc_only (env : Env) (st : State) (in_file : Bool) (in_filename : String) : Run :=
  (preproc_only_open env st.obj_filename).andThen fun obj =>
  (preproc_only_preproc env st.cur_preproc).andThen fun pp =>
  emit ((apply_preproc_saved_options pp st).2
        ++ [.preproc_init pp in_filename]
        ++ pp.input.map Event.fwrite
        ++ (if in_file then [.fclose_in] else [])
        ++ (if obj.isSome then [.fclose_obj] else [])) <|
  if yasm_get_num_errors env.diag_after_preproc st.warning_error > 0 then
    ⟨.returned EXIT_FAILURE,
      [.errwarn_output_all st.warning_error]
        ++ (match obj with
            | some f => [.remove f]
            | none => [])
        ++ cleanup false⟩
  else ⟨.returned EXIT_SUCCESS, cleanup false⟩

/-- Lines 378-387: the architecture. -/
def main_arch (env : Env) (cur_arch : Option Arch) : Step Arch :=
  let cur_arch := match cur_arch with
    | none => env.load_arch "x86"
    | some a => some a
  match cur_arch with
  | none => .stop (.returned EXIT_FAILURE)
      [.print_error (.could_not_load_default "architecture")]
  | some a => check_module_version a.version env.YASM_ARCH_VERSION "arch" a.keyword a

/-- Lines 389-409: the machine. -/
def main_machine (arch : Arch) (machine_name : Option String) : Step String :=
  let machine_name := match machine_name with
    | none => arch.default_machine_keyword
    | some m => m
  if arch.init_hook machine_name then
    if machine_name = "help" then
      .stop (.returned EXIT_SUCCESS)
        [.arch_init arch.keyword machine_name, .list_machines arch.keyword arch.machines]
    else
      .stop (.returned EXIT_FAILURE)
        [.arch_init arch.keyword machine_name,
         .print_error (.not_valid machine_name "machine" "architecture" arch.keyword)]
  else .ok machine_name [.arch_init arch.keyword machine_name]

/-- Lines 411-419: the optimizer. -/
def main_optimizer (env : Env) : Step Optimizer :=
  match env.load_optimizer "basic" with
  | none => .stop (.returned EXIT_FAILURE)
      [.print_error (.could_not_load_default "optimizer")]
  | some o =>
    check_module_version o.version env.YASM_OPTIMIZER_VERSION "optimizer" o.keyword o

/-- Lines 425-434: the object format. -/
def main_objfmt (env : Env) (cur_objfmt : Option Objfmt) : Step Objfmt :=
  let cur_objfmt := match cur_objfmt with
    | none => env.load_objfmt "bin"
    | some o => some o
  match cur_objfmt with
  | none => .stop (.returned EXIT_FAILURE)
      [.print_error (.could_not_load_default "object format")]
  | some o => check_module_version o.version env.YASM_OBJFMT_VERSION "objfmt" o.keyword o

/-- Lines 436-464: the debug format. -/
def main_dbgfmt (env : Env) (in_file : Bool) (objfmt : Objfmt)
    (cur_dbgfmt : Option Dbgfmt) : Step Dbgfmt :=
  match cur_dbgfmt with
  | none =>
    match env.load_dbgfmt "null" with
    | none => .stop (.returned EXIT_FAILURE)
        [.print_error (.could_not_load_default "debug format")]
    | some d => check_module_version d.version env.YASM_DBGFMT_VERSION "dbgfmt" d.keyword d
  | some d =>
    let matched_dbgfmt := objfmt.dbgfmt_keywords.any fun k => yasm__strcasecmp k d.keyword = 0
    if !matched_dbgfmt then
      .stop (.returned EXIT_FAILURE)
        ([.print_error (.not_valid d.keyword "debug format" "object format" objfmt.keyword)]
          ++ (if in_file then [.fclose_in] else []))
    else check_module_version d.version env.YASM_DBGFMT_VERSION "dbgfmt" d.keyword d

/-- Lines 466-476: the object file name. -/
def main_obj_filename (obj_filename : Option String) (in_file : Bool) (in_filename : String)
    (objfmt : Objfmt) : String × List Event :=
  match obj_filename with
  | some f => (f, [])
  | none =>
    if !in_file then ("yasm.out", [])
    else replace_extension in_filename objfmt.extension "yasm.out"

/-- Lines 478-490: the object format's `initialize` hook. -/
def main_objfmt_init (in_file : Bool) (in_filename obj_filename : String) (objfmt : Objfmt)
    (dbgfmt : Dbgfmt) (arch : Arch) (machine_name : String) : Step Unit :=
  match objfmt.init_hook with
  | none => .ok () []
  | some h =>
    if h in_filename obj_filename dbgfmt.keyword arch.keyword machine_name then
      .stop (.returned EXIT_FAILURE)
        ([.objfmt_init objfmt.keyword in_filename obj_filename dbgfmt.keyword arch.keyword
            machine_name,
          .print_error (.objfmt_unsupported objfmt.keyword arch.keyword machine_name)]
          ++ (if in_file then [.fclose_in] else []))
    else
      .ok () [.objfmt_init objfmt.keyword in_filename obj_filename dbgfmt.keyword
                arch.keyword machine_name]

/-- Lines 492-502: the parser (the source's `cur_parser`). -/
def main_psr (env : Env) (curParser : Option Parser) : Step Parser :=
  let curParser := match curParser with
    | none => env.loadParser "nasm"
    | some p => some p
  match curParser with
  | none => .stop (.returned EXIT_FAILURE)
      ([.print_error (.could_not_load_default "parser")] ++ cleanup false)
  | some p => check_module_version p.version env.YASM_PARSER_VERSION "parser" p.keyword p

/-- Lines 504-533: the preprocessor. -/
def main_preproc (env : Env) (in_file : Bool) (psr : Parser)
    (cur_preproc : Option Preproc) : Step Preproc :=
  match cur_preproc with
  | none =>
    match env.load_preproc psr.default_preproc_keyword with
    | none => .stop (.returned EXIT_FAILURE)
        ([.print_error (.could_not_load_default "preprocessor")] ++ cleanup false)
    | some p => check_module_version p.version env.YASM_PREPROC_VERSION "preproc" p.keyword p
  | some p =>
    let matched_preproc := psr.preproc_keywords.any fun k => yasm__strcasecmp k p.keyword = 0
    if !matched_preproc then
      .stop (.returned EXIT_FAILURE)
        ([.print_error (.not_valid p.keyword "preprocessor" "parser" psr.keyword)]
          ++ (if in_file then [.fclose_in] else [])
          ++ cleanup false)
    else check_module_version p.version env.YASM_PREPROC_VERSION "preproc" p.keyword p

/-- Lines 537-544: the initial x86 BITS setting. -/
def main_mode_bits (env : Env) (arch : Arch) (objfmt : Objfmt) : List Event :=
  if arch.keyword = "x86" then
    if env.x86_mode_bits then [.set_x86_mode_bits objfmt.default_x86_mode_bits] else []
  else []

/-- Lines 571-578: open the object file. Falls through with whether `obj` is
non-null. -/
def main_open_obj (env : Env) (objfmt : Objfmt) (obj_filename : String) : Step Bool :=
  if objfmt.keyword ≠ "dbg" then
    if (open_obj env obj_filename "wb").1 then .ok true (open_obj env obj_filename "wb").2
    else .stop (.returned EXIT_FAILURE) ((open_obj env obj_filename "wb").2 ++ cleanup true)
  else .ok false []

/-- Lines 546-604: parse, optimize, write the object file. -/
def main_pipeline (env : Env) (st : State) (in_file : Bool) (in_filename : String)
    (arch : Arch) (optimizer : Optimizer) (objfmt : Objfmt) (dbgfmt : Dbgfmt)
    (obj_filename : String) (psr : Parser) (pp : Preproc) : Run :=
  emit ([.do_parse pp psr.keyword arch.keyword objfmt.keyword in_filename]
        ++ (if in_file then [.fclose_in] else [])) <|
  if yasm_get_num_errors env.diag_after_parse st.warning_error > 0 then
    ⟨.returned EXIT_FAILURE, [.errwarn_output_all st.warning_error] ++ cleanup true⟩
  else
  emit [.call "yasm_symrec_parser_finalize", .optimize optimizer.keyword] <|
  if yasm_get_num_errors env.diag_after_optimize st.warning_error > 0 then
    ⟨.returned EXIT_FAILURE, [.errwarn_output_all st.warning_error] ++ cleanup true⟩
  else
  (main_open_obj env objfmt obj_filename).andThen fun obj =>
  emit ([.objfmt_output objfmt.keyword obj (decide (dbgfmt.keyword ≠ "null"))]
        ++ (if obj then [.fclose_obj] else [])) <|
  if yasm_get_num_errors env.diag_after_output st.warning_error > 0 then
    ⟨.returned EXIT_FAILURE,
      [.errwarn_output_all st.warning_error, .remove obj_filename] ++ cleanup true⟩
  else
    ⟨.returned EXIT_SUCCESS, [.errwarn_output_all st.warning_error] ++ cleanup true⟩

/-- Lines 378-604: full assembly. -/
def main_assemble (env : Env) (st : State) (in_file : Bool) (in_filename : String) : Run :=
  (main_arch env st.cur_arch).andThen fun arch =>
  (main_machine arch st.machine_name).andThen fun machine_name =>
  (main_optimizer env).andThen fun optimizer =>
  emit [.call "yasm_arch_common_initialize", .call "yasm_expr_initialize",
        .call "yasm_bc_initialize"] <|
  (main_objfmt env st.cur_objfmt).andThen fun objfmt =>
  (main_dbgfmt env in_file objfmt st.cur_dbgfmt).andThen fun dbgfmt =>
  emit (main_obj_filename st.obj_filename in_file in_filename objfmt).2 <|
  (main_objfmt_init in_file in_filename
      (main_obj_filename st.obj_filename in_file in_filename objfmt).1
      objfmt dbgfmt arch machine_name).andThen fun _ =>
  (main_psr env st.curParser).andThen fun psr =>
  (main_preproc env in_file psr st.cur_preproc).andThen fun pp =>
  emit ((apply_preproc_saved_options pp st).2 ++ main_mode_bits env arch objfmt) <|
  main_pipeline env st in_file in_filename arch optimizer objfmt dbgfmt
    (main_obj_filename st.obj_filename in_file in_filename objfmt).1 psr pp

/-- Lines 273-604: `main` after `parse_cmdline` returned 0, with the file-scope
variables as the handlers left them. -/
def main_after_cmdline (env : Env) (st : State) : Run :=
  if st.special_options = SPECIAL_SHOW_HELP then ⟨.returned EXIT_SUCCESS, [.help_msg]⟩
  else if st.special_options = SPECIAL_SHOW_VERSION then
    ⟨.returned EXIT_SUCCESS, [.version_msg]⟩
  else if st.special_options = SPECIAL_LISTED then ⟨.returned EXIT_SUCCESS, []⟩
  else if !env.BitVector_Boot then
    ⟨.returned EXIT_FAILURE, [.print_error .could_not_init_BitVector]⟩
  else
  (main_open_input env st).andThen fun inp =>
  emit [.call "yasm_std_linemgr.initialize", .call "yasm_std_linemgr.set",
        .call "yasm_intnum_initialize", .call "yasm_floatnum_initialize",
        .call "yasm_symrec_initialize"] <|
  if st.preproc_only ≠ 0 then main_preproc_only env st inp.1 inp.2
  else main_assemble env st inp.1 inp.2

/-- The function `main`, on the decoded command line `argv`, from the set-up of
libltdl on (line 234); the locale and error-hook set-up before it has no
effect `main` looks at. -/
def main (env : Env) (argv : List Arg) : Run :=
  if loader_errors env ≠ 0 then
    ⟨.returned EXIT_FAILURE, [.print_error .module_loader_init_failed]⟩
  else
  match parse_cmdline env argv State.initial 0 with
  | .exited status evs => ⟨.exited status, evs⟩
  | .done st errors evs =>
    emit evs <|
    if errors ≠ 0 then ⟨.returned EXIT_FAILURE, []⟩
    else main_after_cmdline env st


/-! ## A sample installation -/

/-- The x86 architecture of the sample installation: machines `x86` and
`amd64`, anything else is rejected. -/
def sample_x86 : Arch where
  keyword := "x86"
  version := 1
  default_machine_keyword := "x86"
  machines := [("x86", "IA-32 and derivatives"), ("amd64", "AMD64")]
  init_hook := fun m => !(m = "x86" || m = "amd64")

/-- The nasm parser of the sample installation. -/
def sample_nasm : Parser where
  keyword := "nasm"
  version := 1
  preproc_keywords := ["raw", "nasm"]
  default_preproc_keyword := "nasm"

/-- A second parser, whose default preprocessor is `raw` and which allows no
other. -/
def sample_gas : Parser where
  keyword := "gas"
  version := 1
  preproc_keywords := ["raw"]
  default_preproc_keyword := "raw"

/-- The nasm preprocessor of the sample installation. -/
def sample_nasm_pp : Preproc where
  keyword := "nasm"
  version := 1
  add_include_path := true
  add_include_file := true
  input := ["mov eax, 1\n"]

/-- The raw preprocessor of the sample installation. -/
def sample_raw_pp : Preproc where
  keyword := "raw"
  version := 1
  add_include_path := false
  add_include_file := false
  input := ["mov eax, 1\n"]

/-- A preprocessor module built against another interface version. -/
def sample_oldpp : Preproc where
  keyword := "oldpp"
  version := 0
  add_include_path := false
  add_include_file := false
  input := []

/-- The flat binary object format: only the `null` debug format. -/
def sample_bin : Objfmt where
  keyword := "bin"
  version := 1
  extension := none
  default_x86_mode_bits := 16
  dbgfmt_keywords := ["null"]
  init_hook := none

/-- An ELF object format allowing the `null` and `stabs` debug formats. -/
def sample_elf : Objfmt where
  keyword := "elf"
  version := 1
  extension := some "o"
  default_x86_mode_bits := 32
  dbgfmt_keywords := ["null", "stabs"]
  init_hook := some fun _ _ _ arch _ => !(arch = "x86")

/-- An object format whose allow-list of debug formats is empty. -/
def sample_noallow : Objfmt where
  keyword := "noallow"
  version := 1
  extension := some "obj"
  default_x86_mode_bits := 32
  dbgfmt_keywords := []
  init_hook := none

/-- The `null` debug format. -/
def sample_null : Dbgfmt where
  keyword := "null"
  version := 1

/-- The `dwarf2` debug format. -/
def sample_dwarf2 : Dbgfmt where
  keyword := "dwarf2"
  version := 1

/-- An architecture module built against another interface version. -/
def sample_oldarch : Arch where
  keyword := "oldarch"
  version := 0
  default_machine_keyword := "old"
  machines := [("old", "old machine")]
  init_hook := fun _ => false

/-- The `basic` optimizer. -/
def sample_basic : Optimizer where
  keyword := "basic"
  version := 1

/-- A sample installation: every expected version is 1, the modules above are
registered under their keywords, every file opens, and no stage reports a
diagnostic. -/
def sample_env : Env where
  YASM_ARCH_VERSION := 1
  YASM_PARSER_VERSION := 1
  YASM_PREPROC_VERSION := 1
  YASM_OBJFMT_VERSION := 1
  YASM_DBGFMT_VERSION := 1
  YASM_OPTIMIZER_VERSION := 1
  load_arch := fun k =>
    if k = "x86" then some sample_x86 else if k = "oldarch" then some sample_oldarch else none
  loadParser := fun k =>
    if k = "nasm" then some sample_nasm else if k = "gas" then some sample_gas else none
  load_preproc := fun k =>
    if k = "nasm" then some sample_nasm_pp else if k = "raw" then some sample_raw_pp
    else if k = "oldpp" then some sample_oldpp else none
  load_objfmt := fun k =>
    if k = "bin" then some sample_bin else if k = "elf" then some sample_elf
    else if k = "noallow" then some sample_noallow else none
  load_dbgfmt := fun k =>
    if k = "null" then some sample_null else if k = "dwarf2" then some sample_dwarf2 else none
  load_optimizer := fun k => if k = "basic" then some sample_basic else none
  lt_dlinit := 0
  module_path := none
  lt_dladdsearchdir := fun _ => 0
  YASM_MODULEDIR := none
  BitVector_Boot := true
  fopen := fun _ _ => true
  x86_mode_bits := true
  diag_after_preproc := ⟨0, 0⟩
  diag_after_parse := ⟨0, 0⟩
  diag_after_optimize := ⟨0, 0⟩
  diag_after_output := ⟨0, 0⟩


/-! ## Vocabulary of the properties -/

/-- The event is a call of the parser's `do_parse`. -/
def Event.is_do_parse : Event → Bool
  | .do_parse _ _ _ _ _ => true
  | _ => false

/-- The event is a call of `open_obj`, successful or not. -/
def Event.is_open_obj : Event → Bool
  | .open_obj _ _ _ => true
  | _ => false

/-- The event is a call of the optimizer's `optimize`. -/
def Event.is_optimize : Event → Bool
  | .optimize _ => true
  | _ => false

/-- The event is a call of the object format's `output` hook. -/
def Event.is_objfmt_output : Event → Bool
  | .objfmt_output _ _ _ => true
  | _ => false

/-- The event is a call of `remove`. -/
def Event.is_remove : Event → Bool
  | .remove _ => true
  | _ => false

/-- Events of the stretch of `main` between `parse_cmdline` and `do_parse`, in
both modes short of opening the output: messages, lists, the input stream,
set-up calls, hooks of module set-up, the include queues, and `cleanup`. -/
def Event.is_setup : Event → Bool
  | .open_obj _ _ _ => false
  | .fclose_obj => false
  | .fwrite _ => false
  | .remove _ => false
  | .preproc_init _ _ => false
  | .do_parse _ _ _ _ _ => false
  | .optimize _ => false
  | .objfmt_output _ _ _ => false
  | .errwarn_output_all _ => false
  | _ => true

/-- The messages command-line processing prints: from the handlers and from
the decoder. -/
def Msg.is_cmdline : Msg → Bool
  | .unrecognized _ _ => true
  | .warn_one_input_file => true
  | .warn_one_object_file => true
  | .option_rejected => true
  | .warn_unrecognized_option => true
  | _ => false

/-- Events of command-line processing: its messages, the module lists and the
warning switches. Everything else belongs to a later stage of the pipeline. -/
def Event.is_cmdline : Event → Bool
  | .print_error m => m.is_cmdline
  | .list_modules _ => true
  | .warn_disable_all => true
  | .warn_enable_unrec_char => true
  | .warn_disable_unrec_char => true
  | _ => false

/-- The event only prints (a message, a help or version text, a list) or
switches warnings: no file is opened, read, written or removed and no module
hook is called. -/
def Event.is_message : Event → Bool
  | .print_error _ => true
  | .help_msg => true
  | .version_msg => true
  | .list_modules _ => true
  | .list_machines _ _ => true
  | .warn_disable_all => true
  | .warn_enable_unrec_char => true
  | .warn_disable_unrec_char => true
  | _ => false

/-- A message by which debug-format validation (lines 436-464) fails. -/
def Msg.is_dbgfmt_failure : Msg → Bool
  | .could_not_load_default what => what = "debug format"
  | .not_valid _ what _ _ => what = "debug format"
  | .version_mismatch desc _ _ _ => desc = "dbgfmt"
  | _ => false

/-- The event reports a failure of debug-format validation. -/
def Event.is_dbgfmt_failure : Event → Bool
  | .print_error m => m.is_dbgfmt_failure
  | _ => false

/-- The event reports a preprocessor turned down by the parser's allow-list. -/
def Event.is_preproc_rejection : Event → Bool
  | .print_error (.not_valid _ what _ _) => what = "preprocessor"
  | _ => false

/-- The architecture `main` settles on: the one selected, else `x86`. -/
def resolve_arch (env : Env) (st : State) : Option Arch :=
  match st.cur_arch with
  | none => env.load_arch "x86"
  | some a => some a

/-- The object format `main` settles on: the one selected, else `bin`. -/
def resolve_objfmt (env : Env) (st : State) : Option Objfmt :=
  match st.cur_objfmt with
  | none => env.load_objfmt "bin"
  | some o => some o

/-- The debug format `main` settles on: the one selected, else `null`. -/
def resolve_dbgfmt (env : Env) (st : State) : Option Dbgfmt :=
  match st.cur_dbgfmt with
  | none => env.load_dbgfmt "null"
  | some d => some d

/-- The parser `main` settles on: the one selected, else `nasm`. -/
def resolve_psr (env : Env) (st : State) : Option Parser :=
  match st.curParser with
  | none => env.loadParser "nasm"
  | some p => some p

/-- The preprocessor full assembly settles on: the one selected, else the
default of the resolved parser. -/
def resolve_preproc (env : Env) (st : State) : Option Preproc :=
  match st.cur_preproc with
  | none =>
    match resolve_psr env st with
    | none => none
    | some q => env.load_preproc q.default_preproc_keyword
  | some p => some p

/-- The preprocessor preprocess-only mode settles on: the one selected, else
`nasm`. -/
def resolve_preproc_only (env : Env) (st : State) : Option Preproc :=
  match st.cur_preproc with
  | none => env.load_preproc "nasm"
  | some p => some p

/-- The events of preprocess-only mode once its output stream is open: the
`open_obj` call if an output file was named. -/
def preproc_only_opened (st : State) : List Event :=
  match st.obj_filename with
  | some f => [.open_obj f "wt" true]
  | none => []

/-- The events of preprocess-only mode from the include queues to the closing
of the streams (lines 351-362). -/
def preproc_only_body (st : State) (pp : Preproc) (in_file : Bool) (in_filename : String) :
    List Event :=
  (apply_preproc_saved_options pp st).2
    ++ [.preproc_init pp in_filename]
    ++ pp.input.map Event.fwrite
    ++ (if in_file then [.fclose_in] else [])
    ++ (if st.obj_filename.isSome then [.fclose_obj] else [])

/-- A debug format was selected and its keyword equals, ignoring case, no entry
of the resolved object format's allow-list. -/
def dbgfmt_rejected (env : Env) (st : State) : Bool :=
  match st.cur_dbgfmt, resolve_objfmt env st with
  | some d, some o => !(o.dbgfmt_keywords.any fun k => yasm__strcasecmp k d.keyword = 0)
  | _, _ => false

/-- A preprocessor was selected and its keyword equals, ignoring case, no entry
of the resolved parser's allow-list. -/
def preproc_rejected (env : Env) (st : State) : Bool :=
  match st.cur_preproc, resolve_psr env st with
  | some p, some q => !(q.preproc_keywords.any fun k => yasm__strcasecmp k p.keyword = 0)
  | _, _ => false

/-- The machine name is `help` and the resolved architecture turns it down, so
that `main` lists the machines (lines 394-403). -/
def machine_listing (env : Env) (st : State) : Bool :=
  match resolve_arch env st with
  | none => false
  | some a =>
    let m := match st.machine_name with
      | none => a.default_machine_keyword
      | some m => m
    a.init_hook m && decide (m = "help")

/-- Some module full assembly settles on (architecture, optimizer, object
format, debug format, parser, preprocessor) has a version other than the one
expected of its category. -/
def version_mismatch (env : Env) (st : State) : Bool :=
  (match resolve_arch env st with
    | some a => decide (a.version ≠ env.YASM_ARCH_VERSION)
    | none => false)
  || (match env.load_optimizer "basic" with
    | some o => decide (o.version ≠ env.YASM_OPTIMIZER_VERSION)
    | none => false)
  || (match resolve_objfmt env st with
    | some o => decide (o.version ≠ env.YASM_OBJFMT_VERSION)
    | none => false)
  || (match resolve_dbgfmt env st with
    | some d => decide (d.version ≠ env.YASM_DBGFMT_VERSION)
    | none => false)
  || (match resolve_psr env st with
    | some q => decide (q.version ≠ env.YASM_PARSER_VERSION)
    | none => false)
  || (match resolve_preproc env st with
    | some p => decide (p.version ≠ env.YASM_PREPROC_VERSION)
    | none => false)

/-- The argument is a category selector whose keyword is not `help` and which
the loader of its category does not resolve. -/
def Arg.unresolved (env : Env) : Arg → Bool
  | .arch p => decide (p ≠ "help") && (env.load_arch p).isNone
  | .parser p => decide (p ≠ "help") && (env.loadParser p).isNone
  | .preproc p => decide (p ≠ "help") && (env.load_preproc p).isNone
  | .oformat p => decide (p ≠ "help") && (env.load_objfmt p).isNone
  | .dformat p => decide (p ≠ "help") && (env.load_dbgfmt p).isNone
  | _ => false

/-- The list a category selector given `help` prints, when the loader of the
category does not resolve `help`; `none` for every other argument. -/
def Arg.help_listing (env : Env) : Arg → Option String
  | .arch p =>
    if p = "help" ∧ (env.load_arch p).isNone then some "architectures" else none
  | .parser p =>
    if p = "help" ∧ (env.loadParser p).isNone then some "parsers" else none
  | .preproc p =>
    if p = "help" ∧ (env.load_preproc p).isNone then some "preprocessors" else none
  | .oformat p =>
    if p = "help" ∧ (env.load_objfmt p).isNone then some "object formats" else none
  | .dformat p =>
    if p = "help" ∧ (env.load_dbgfmt p).isNone then some "debug formats" else none
  | _ => none

/-- The pair of a condition on how a run ends and a condition on each of its
events. -/
def Run.Sat (Q : Event → Prop) (G : Outcome → Prop) (r : Run) : Prop :=
  G r.outcome ∧ ∀ e ∈ r.trace, Q e

/-- Debug-format validation has a way to fail: a debug format was selected, or
the `null` module is missing or has an unexpected version. -/
def dbgfmt_can_fail (env : Env) (st : State) : Prop :=
  ¬ (st.cur_dbgfmt = none ∧
      ∃ d, env.load_dbgfmt "null" = some d ∧ d.version = env.YASM_DBGFMT_VERSION)

/-- What an event before `do_parse` can be: a set-up event; a failure of
debug-format validation only when that validation can fail; a preprocessor
turned down only when one was selected. -/
def Event.early (env : Env) (st : State) (e : Event) : Prop :=
  e.is_setup = true ∧ (e.is_dbgfmt_failure = true → dbgfmt_can_fail env st) ∧
    (e.is_preproc_rejection = true → st.cur_preproc ≠ none)

/-- Every module of full assembly is settled, has the version expected of its
category and passed the allow-lists, and the machine was accepted: what holds
when `main` gets to `do_parse`. -/
structure Resolved (env : Env) (st : State) (arch : Arch) (optimizer : Optimizer)
    (objfmt : Objfmt) (dbgfmt : Dbgfmt) (psr : Parser) (pp : Preproc) : Prop where
  arch_eq : resolve_arch env st = some arch
  arch_version : arch.version = env.YASM_ARCH_VERSION
  no_listing : machine_listing env st = false
  optimizer_eq : env.load_optimizer "basic" = some optimizer
  optimizer_version : optimizer.version = env.YASM_OPTIMIZER_VERSION
  objfmt_eq : resolve_objfmt env st = some objfmt
  objfmt_version : objfmt.version = env.YASM_OBJFMT_VERSION
  dbgfmt_eq : resolve_dbgfmt env st = some dbgfmt
  dbgfmt_version : dbgfmt.version = env.YASM_DBGFMT_VERSION
  dbgfmt_allowed : dbgfmt_rejected env st = false
  psr_eq : resolve_psr env st = some psr
  psr_version : psr.version = env.YASM_PARSER_VERSION
  preproc_eq : resolve_preproc env st = some pp
  preproc_version : pp.version = env.YASM_PREPROC_VERSION
  preproc_allowed : preproc_rejected env st = false

/-- The two ways full assembly can go: it ends before `do_parse`, in failure or
in the machine list, having done set-up only; or every module is settled and
it continues with `main_pipeline` after set-up events. -/
def Run.EarlyOrPipeline (env : Env) (st : State) (in_file : Bool) (in_filename : String)
    (r : Run) : Prop :=
  r.Sat (Event.early env st)
      (fun o => o.status = EXIT_FAILURE ∨ machine_listing env st = true) ∨
  ∃ arch optimizer objfmt dbgfmt psr pp evs,
    Resolved env st arch optimizer objfmt dbgfmt psr pp ∧ (∀ e ∈ evs, e.early env st) ∧
    r = emit evs (main_pipeline env st in_file in_filename arch optimizer objfmt dbgfmt
          (main_obj_filename st.obj_filename in_file in_filename objfmt).1 psr pp)

/-- The sample installation without its `nasm` preprocessor module. -/
def sample_env_no_nasm_pp : Env :=
  { sample_env with
    load_preproc := fun k => if k = "raw" then some sample_raw_pp else none }

/-- The sample installation when the output hook of the object format reports
one error. -/
def sample_env_output_error : Env :=
  { sample_env with diag_after_output := ⟨1, 0⟩ }

/-- The sample installation when the preprocessor reports one error. -/
def sample_env_preproc_error : Env :=
  { sample_env with diag_after_preproc := ⟨1, 0⟩ }

/-- The sample installation when `do_parse` reports one error. -/
def sample_env_parse_error : Env :=
  { sample_env with diag_after_parse := ⟨1, 0⟩, diag_after_optimize := ⟨1, 0⟩,
                    diag_after_output := ⟨1, 0⟩ }

/-- The event is a call of `yasm_errwarn_output_all`. -/
def Event.is_errwarn_output_all : Event → Bool
  | .errwarn_output_all _ => true
  | _ => false

/-- The event is the call of the preprocessor's `initialize` hook in
preprocess-only mode. -/
def Event.is_preproc_init : Event → Bool
  | .preproc_init _ _ => true
  | _ => false

/-- The event is a failed call of `open_obj`. -/
def Event.is_open_obj_failure : Event → Bool
  | .open_obj _ _ ok => !ok
  | _ => false

/-- How many times a run calls `yasm_errwarn_output_all`. -/
def Run.errwarn_output_all_calls (r : Run) : Nat :=
  r.trace.countP Event.is_errwarn_output_all

/-- An object format whose extension is `out`. -/
def sample_outfmt : Objfmt where
  keyword := "outfmt"
  version := 1
  extension := some "out"
  default_x86_mode_bits := 32
  dbgfmt_keywords := ["null"]
  init_hook := none

/-- The sample installation with the object format `outfmt` added. -/
def sample_env_outfmt : Env :=
  { sample_env with
    load_objfmt := fun k => if k = "outfmt" then some sample_outfmt else none }

/-! ## Lemmas -/

@[simp] theorem emit_outcome (evs : List Event) (r : Run) : (emit evs r).outcome = r.outcome := rfl

@[simp] theorem emit_trace (evs : List Event) (r : Run) :
    (emit evs r).trace = evs ++ r.trace := rfl

theorem emit_emit (a b : List Event) (r : Run) : emit a (emit b r) = emit (a ++ b) r := by
  simp [emit, List.append_assoc]

theorem emit_nil (r : Run) : emit [] r = r := by
  cases r; rfl

theorem sat_emit {Q : Event → Prop} {G : Outcome → Prop} {evs : List Event} {r : Run}
    (hevs : ∀ e ∈ evs, Q e) (hr : r.Sat Q G) : (emit evs r).Sat Q G := by
  refine ⟨hr.1, ?_⟩
  intro e he
  rcases List.mem_append.mp he with h | h
  · exact hevs e h
  · exact hr.2 e h

theorem sat_andThen {α : Type} {Q : Event → Prop} {G : Outcome → Prop} (s : Step α)
    (k : α → Run)
    (hstop : ∀ o evs, s = .stop o evs → G o ∧ ∀ e ∈ evs, Q e)
    (hok : ∀ a evs, s = .ok a evs → (∀ e ∈ evs, Q e) ∧ (k a).Sat Q G) :
    (s.andThen k).Sat Q G := by
  cases s with
  | ok a evs =>
    obtain ⟨h1, h2⟩ := hok a evs rfl
    exact sat_emit h1 h2
  | stop o evs => exact hstop o evs rfl

theorem sat_mono {Q Q2 : Event → Prop} {G G2 : Outcome → Prop} {r : Run}
    (h : r.Sat Q G) (hQ : ∀ e, Q e → Q2 e) (hG : ∀ o, G o → G2 o) : r.Sat Q2 G2 :=
  ⟨hG _ h.1, fun e he => hQ e (h.2 e he)⟩




theorem check_module_version_stop {α : Type} {v need : Nat} {desc kw : String} {d : α}
    {o : Outcome} {evs : List Event}
    (h : check_module_version v need desc kw d = .stop o evs) :
    o = .exited EXIT_FAILURE ∧ evs = [.print_error (.version_mismatch desc kw need v)] ∧
      v ≠ need := by
  unfold check_module_version at h
  split at h
  · rename_i hv
    injection h with h1 h2
    exact ⟨h1.symm, h2.symm, hv⟩
  · cases h

theorem check_module_version_ok {α : Type} {v need : Nat} {desc kw : String} {d a : α}
    {evs : List Event}
    (h : check_module_version v need desc kw d = .ok a evs) :
    a = d ∧ evs = [] ∧ v = need := by
  unfold check_module_version at h
  split at h
  · cases h
  · rename_i hv
    injection h with h1 h2
    exact ⟨h1.symm, h2.symm, not_not.mp hv⟩

theorem early_version_mismatch (env : Env) (st : State) (desc kw : String) (n v : Nat)
    (h : desc ≠ "dbgfmt") : Event.early env st (.print_error (.version_mismatch desc kw n v)) := by
  simp [Event.early, Event.is_setup, Event.is_dbgfmt_failure, Event.is_preproc_rejection,
    Msg.is_dbgfmt_failure, h]

theorem early_could_not_load (env : Env) (st : State) (what : String)
    (h : what ≠ "debug format") :
    Event.early env st (.print_error (.could_not_load_default what)) := by
  simp [Event.early, Event.is_setup, Event.is_dbgfmt_failure, Event.is_preproc_rejection,
    Msg.is_dbgfmt_failure, h]

theorem main_arch_stop (env : Env) (st : State) (o : Outcome) (evs : List Event)
    (h : main_arch env st.cur_arch = .stop o evs) :
    o.status = EXIT_FAILURE ∧ ∀ e ∈ evs, e.early env st := by
  unfold main_arch at h
  cases h1 : resolve_arch env st with
  | none =>
    unfold resolve_arch at h1
    simp only [h1] at h
    injection h with h2 h3
    subst h2 h3
    refine ⟨rfl, ?_⟩
    intro e he
    simp at he
    subst he
    exact early_could_not_load env st _ (by decide)
  | some a =>
    unfold resolve_arch at h1
    simp only [h1] at h
    obtain ⟨rfl, rfl, -⟩ := check_module_version_stop h
    refine ⟨rfl, ?_⟩
    intro e he
    simp at he
    subst he
    exact early_version_mismatch env st _ _ _ _ (by decide)

theorem main_arch_ok (env : Env) (st : State) (a : Arch) (evs : List Event)
    (h : main_arch env st.cur_arch = .ok a evs) :
    evs = [] ∧ resolve_arch env st = some a ∧ a.version = env.YASM_ARCH_VERSION := by
  unfold main_arch at h
  cases h1 : resolve_arch env st with
  | none =>
    unfold resolve_arch at h1
    simp only [h1] at h
    cases h
  | some a2 =>
    unfold resolve_arch at h1
    simp only [h1] at h
    obtain ⟨rfl, rfl, hv⟩ := check_module_version_ok h
    exact ⟨rfl, rfl, hv⟩


theorem early_of_not_print (env : Env) (st : State) (e : Event) (h1 : e.is_setup = true)
    (h2 : ∀ m, e ≠ .print_error m) : e.early env st := by
  refine ⟨h1, ?_, ?_⟩
  · intro h
    cases e <;> simp [Event.is_dbgfmt_failure] at h
    exact absurd rfl (h2 _)
  · intro h
    cases e <;> simp [Event.is_preproc_rejection] at h
    exact absurd rfl (h2 _)

theorem early_fclose_in (env : Env) (st : State) (b : Bool) :
    ∀ e ∈ (if b then [Event.fclose_in] else []), e.early env st := by
  intro e he
  cases b <;> simp at he
  subst he
  exact early_of_not_print env st _ rfl (by intro m h; cases h)

theorem early_cleanup (env : Env) (st : State) (b : Bool) :
    ∀ e ∈ cleanup b, e.early env st := by
  intro e he
  simp [cleanup] at he
  subst he
  exact early_of_not_print env st _ rfl (by intro m h; cases h)

theorem main_machine_stop (env : Env) (st : State) (arch : Arch) (o : Outcome)
    (evs : List Event) (ha : resolve_arch env st = some arch)
    (h : main_machine arch st.machine_name = .stop o evs) :
    (o.status = EXIT_FAILURE ∨ machine_listing env st = true) ∧ ∀ e ∈ evs, e.early env st := by
  unfold main_machine at h
  simp only at h
  split at h
  · rename_i hi
    split at h
    · rename_i hm
      injection h with h2 h3
      subst h2 h3
      refine ⟨Or.inr ?_, ?_⟩
      · unfold machine_listing
        simp only [ha]
        rw [hm] at hi
        simp [hi, hm]
      · intro e he
        simp at he
        rcases he with rfl | rfl <;>
          exact early_of_not_print env st _ rfl (by intro m h; cases h)
    · injection h with h2 h3
      subst h2 h3
      refine ⟨Or.inl rfl, ?_⟩
      intro e he
      simp at he
      rcases he with rfl | rfl
      · exact early_of_not_print env st _ rfl (by intro m h; cases h)
      · simp [Event.early, Event.is_setup, Event.is_dbgfmt_failure, Event.is_preproc_rejection,
          Msg.is_dbgfmt_failure]
  · cases h

theorem main_machine_ok (env : Env) (st : State) (arch : Arch) (m : String)
    (evs : List Event) (ha : resolve_arch env st = some arch)
    (h : main_machine arch st.machine_name = .ok m evs) :
    machine_listing env st = false ∧ ∀ e ∈ evs, e.early env st := by
  unfold main_machine at h
  simp only at h
  split at h
  · split at h <;> cases h
  · rename_i hi
    injection h with h2 h3
    subst h2 h3
    refine ⟨?_, ?_⟩
    · unfold machine_listing
      simp only [ha]
      simp at hi
      simp [hi]
    · intro e he
      simp at he
      subst he
      exact early_of_not_print env st _ rfl (by intro m h; cases h)

theorem main_optimizer_stop (env : Env) (st : State) (o : Outcome) (evs : List Event)
    (h : main_optimizer env = .stop o evs) :
    o.status = EXIT_FAILURE ∧ ∀ e ∈ evs, e.early env st := by
  unfold main_optimizer at h
  cases h1 : env.load_optimizer "basic" with
  | none =>
    simp only [h1] at h
    injection h with h2 h3
    subst h2 h3
    refine ⟨rfl, ?_⟩
    intro e he
    simp at he
    subst he
    exact early_could_not_load env st _ (by decide)
  | some a =>
    simp only [h1] at h
    obtain ⟨rfl, rfl, -⟩ := check_module_version_stop h
    refine ⟨rfl, ?_⟩
    intro e he
    simp at he
    subst he
    exact early_version_mismatch env st _ _ _ _ (by decide)

theorem main_optimizer_ok (env : Env) (a : Optimizer) (evs : List Event)
    (h : main_optimizer env = .ok a evs) :
    evs = [] ∧ env.load_optimizer "basic" = some a ∧
      a.version = env.YASM_OPTIMIZER_VERSION := by
  unfold main_optimizer at h
  cases h1 : env.load_optimizer "basic" with
  | none =>
    simp only [h1] at h
    cases h
  | some a2 =>
    simp only [h1] at h
    obtain ⟨rfl, rfl, hv⟩ := check_module_version_ok h
    exact ⟨rfl, rfl, hv⟩

theorem main_objfmt_stop (env : Env) (st : State) (o : Outcome) (evs : List Event)
    (h : main_objfmt env st.cur_objfmt = .stop o evs) :
    o.status = EXIT_FAILURE ∧ ∀ e ∈ evs, e.early env st := by
  unfold main_objfmt at h
  cases h1 : resolve_objfmt env st with
  | none =>
    unfold resolve_objfmt at h1
    simp only [h1] at h
    injection h with h2 h3
    subst h2 h3
    refine ⟨rfl, ?_⟩
    intro e he
    simp at he
    subst he
    exact early_could_not_load env st _ (by decide)
  | some a =>
    unfold resolve_objfmt at h1
    simp only [h1] at h
    obtain ⟨rfl, rfl, -⟩ := check_module_version_stop h
    refine ⟨rfl, ?_⟩
    intro e he
    simp at he
    subst he
    exact early_version_mismatch env st _ _ _ _ (by decide)

theorem main_objfmt_ok (env : Env) (st : State) (a : Objfmt) (evs : List Event)
    (h : main_objfmt env st.cur_objfmt = .ok a evs) :
    evs = [] ∧ resolve_objfmt env st = some a ∧ a.version = env.YASM_OBJFMT_VERSION := by
  unfold main_objfmt at h
  cases h1 : resolve_objfmt env st with
  | none =>
    unfold resolve_objfmt at h1
    simp only [h1] at h
    cases h
  | some a2 =>
    unfold resolve_objfmt at h1
    simp only [h1] at h
    obtain ⟨rfl, rfl, hv⟩ := check_module_version_ok h
    exact ⟨rfl, rfl, hv⟩

theorem main_psr_stop (env : Env) (st : State) (o : Outcome) (evs : List Event)
    (h : main_psr env st.curParser = .stop o evs) :
    o.status = EXIT_FAILURE ∧ ∀ e ∈ evs, e.early env st := by
  unfold main_psr at h
  cases h1 : resolve_psr env st with
  | none =>
    unfold resolve_psr at h1
    simp only [h1] at h
    injection h with h2 h3
    subst h2 h3
    refine ⟨rfl, ?_⟩
    intro e he
    rcases List.mem_append.mp he with he | he
    · simp at he
      subst he
      exact early_could_not_load env st _ (by decide)
    · exact early_cleanup env st _ e he
  | some a =>
    unfold resolve_psr at h1
    simp only [h1] at h
    obtain ⟨rfl, rfl, -⟩ := check_module_version_stop h
    refine ⟨rfl, ?_⟩
    intro e he
    simp at he
    subst he
    exact early_version_mismatch env st _ _ _ _ (by decide)

theorem main_psr_ok (env : Env) (st : State) (a : Parser) (evs : List Event)
    (h : main_psr env st.curParser = .ok a evs) :
    evs = [] ∧ resolve_psr env st = some a ∧ a.version = env.YASM_PARSER_VERSION := by
  unfold main_psr at h
  cases h1 : resolve_psr env st with
  | none =>
    unfold resolve_psr at h1
    simp only [h1] at h
    cases h
  | some a2 =>
    unfold resolve_psr at h1
    simp only [h1] at h
    obtain ⟨rfl, rfl, hv⟩ := check_module_version_ok h
    exact ⟨rfl, rfl, hv⟩

theorem main_dbgfmt_stop (env : Env) (st : State) (in_file : Bool) (objfmt : Objfmt)
    (o : Outcome) (evs : List Event)
    (h : main_dbgfmt env in_file objfmt st.cur_dbgfmt = .stop o evs) :
    o.status = EXIT_FAILURE ∧ ∀ e ∈ evs, e.early env st := by
  unfold main_dbgfmt at h
  cases h1 : st.cur_dbgfmt with
  | none =>
    simp only [h1] at h
    cases h2 : env.load_dbgfmt "null" with
    | none =>
      simp only [h2] at h
      injection h with h3 h4
      subst h3 h4
      refine ⟨rfl, ?_⟩
      intro e he
      simp at he
      subst he
      refine ⟨rfl, ?_, ?_⟩
      · intro _ hc
        obtain ⟨-, d, hd, -⟩ := hc
        rw [h2] at hd
        cases hd
      · intro hc
        simp [Event.is_preproc_rejection] at hc
    | some d =>
      simp only [h2] at h
      obtain ⟨rfl, rfl, hv⟩ := check_module_version_stop h
      refine ⟨rfl, ?_⟩
      intro e he
      simp at he
      subst he
      refine ⟨rfl, ?_, ?_⟩
      · intro _ hc
        obtain ⟨-, d2, hd, hv2⟩ := hc
        rw [h2] at hd
        cases hd
        exact hv hv2
      · intro hc
        simp [Event.is_preproc_rejection] at hc
  | some d =>
    have hcf : dbgfmt_can_fail env st := by
      intro hc
      rw [h1] at hc
      cases hc.1
    simp only [h1] at h
    split at h
    · injection h with h3 h4
      subst h3 h4
      refine ⟨rfl, ?_⟩
      intro e he
      rcases List.mem_append.mp he with he | he
      · simp at he
        subst he
        refine ⟨rfl, fun _ => hcf, ?_⟩
        intro hc
        simp [Event.is_preproc_rejection] at hc
      · exact early_fclose_in env st _ e he
    · obtain ⟨rfl, rfl, hv⟩ := check_module_version_stop h
      refine ⟨rfl, ?_⟩
      intro e he
      simp at he
      subst he
      refine ⟨rfl, fun _ => hcf, ?_⟩
      intro hc
      simp [Event.is_preproc_rejection] at hc

theorem main_dbgfmt_ok (env : Env) (st : State) (in_file : Bool) (objfmt : Objfmt)
    (d : Dbgfmt) (evs : List Event) (ho : resolve_objfmt env st = some objfmt)
    (h : main_dbgfmt env in_file objfmt st.cur_dbgfmt = .ok d evs) :
    evs = [] ∧ resolve_dbgfmt env st = some d ∧ d.version = env.YASM_DBGFMT_VERSION ∧
      dbgfmt_rejected env st = false := by
  unfold main_dbgfmt at h
  unfold resolve_dbgfmt dbgfmt_rejected
  cases h1 : st.cur_dbgfmt with
  | none =>
    simp only [h1] at h
    cases h2 : env.load_dbgfmt "null" with
    | none =>
      simp only [h2] at h
      cases h
    | some d2 =>
      simp only [h2] at h
      obtain ⟨rfl, rfl, hv⟩ := check_module_version_ok h
      exact ⟨rfl, rfl, hv, rfl⟩
  | some d2 =>
    simp only [h1, ho] at h ⊢
    split at h
    · cases h
    · rename_i hm
      obtain ⟨rfl, rfl, hv⟩ := check_module_version_ok h
      refine ⟨rfl, rfl, hv, ?_⟩
      simpa using hm

theorem main_preproc_stop (env : Env) (st : State) (in_file : Bool) (psr : Parser)
    (o : Outcome) (evs : List Event)
    (h : main_preproc env in_file psr st.cur_preproc = .stop o evs) :
    o.status = EXIT_FAILURE ∧ ∀ e ∈ evs, e.early env st := by
  unfold main_preproc at h
  cases h1 : st.cur_preproc with
  | none =>
    simp only [h1] at h
    cases h2 : env.load_preproc psr.default_preproc_keyword with
    | none =>
      simp only [h2] at h
      injection h with h3 h4
      subst h3 h4
      refine ⟨rfl, ?_⟩
      intro e he
      rcases List.mem_append.mp he with he | he
      · simp at he
        subst he
        exact early_could_not_load env st _ (by decide)
      · exact early_cleanup env st _ e he
    | some d =>
      simp only [h2] at h
      obtain ⟨rfl, rfl, hv⟩ := check_module_version_stop h
      refine ⟨rfl, ?_⟩
      intro e he
      simp at he
      subst he
      exact early_version_mismatch env st _ _ _ _ (by decide)
  | some d =>
    simp only [h1] at h
    split at h
    · injection h with h3 h4
      subst h3 h4
      refine ⟨rfl, ?_⟩
      intro e he
      rcases List.mem_append.mp he with he | he
      · rcases List.mem_append.mp he with he | he
        · simp at he
          subst he
          refine ⟨rfl, ?_, ?_⟩
          · intro hc
            simp [Event.is_dbgfmt_failure, Msg.is_dbgfmt_failure] at hc
          · intro _
            simp [h1]
        · exact early_fclose_in env st _ e he
      · exact early_cleanup env st _ e he
    · obtain ⟨rfl, rfl, hv⟩ := check_module_version_stop h
      refine ⟨rfl, ?_⟩
      intro e he
      simp at he
      subst he
      exact early_version_mismatch env st _ _ _ _ (by decide)

theorem main_preproc_ok (env : Env) (st : State) (in_file : Bool) (psr : Parser)
    (p : Preproc) (evs : List Event) (hq : resolve_psr env st = some psr)
    (h : main_preproc env in_file psr st.cur_preproc = .ok p evs) :
    evs = [] ∧ resolve_preproc env st = some p ∧ p.version = env.YASM_PREPROC_VERSION ∧
      preproc_rejected env st = false := by
  unfold main_preproc at h
  unfold resolve_preproc preproc_rejected
  cases h1 : st.cur_preproc with
  | none =>
    simp only [h1, hq] at h ⊢
    cases h2 : env.load_preproc psr.default_preproc_keyword with
    | none =>
      simp only [h2] at h
      cases h
    | some d2 =>
      simp only [h2] at h
      obtain ⟨rfl, rfl, hv⟩ := check_module_version_ok h
      refine ⟨rfl, ?_, hv, ?_⟩ <;> simp_all
  | some d2 =>
    simp only [h1, hq] at h ⊢
    split at h
    · cases h
    · rename_i hm
      obtain ⟨rfl, rfl, hv⟩ := check_module_version_ok h
      refine ⟨rfl, rfl, hv, ?_⟩
      simpa using hm

theorem main_objfmt_init_stop (env : Env) (st : State) (in_file : Bool)
    (in_filename obj_filename : String) (objfmt : Objfmt) (dbgfmt : Dbgfmt) (arch : Arch)
    (machine_name : String) (o : Outcome) (evs : List Event)
    (h : main_objfmt_init in_file in_filename obj_filename objfmt dbgfmt arch machine_name
          = .stop o evs) :
    o.status = EXIT_FAILURE ∧ ∀ e ∈ evs, e.early env st := by
  unfold main_objfmt_init at h
  split at h
  · cases h
  · split at h
    · injection h with h3 h4
      subst h3 h4
      refine ⟨rfl, ?_⟩
      intro e he
      rcases List.mem_append.mp he with he | he
      · simp at he
        rcases he with rfl | rfl
        · exact early_of_not_print env st _ rfl (by intro m h; cases h)
        · simp [Event.early, Event.is_setup, Event.is_dbgfmt_failure,
            Event.is_preproc_rejection, Msg.is_dbgfmt_failure]
      · exact early_fclose_in env st _ e he
    · cases h

theorem main_objfmt_init_ok (env : Env) (st : State) (in_file : Bool)
    (in_filename obj_filename : String) (objfmt : Objfmt) (dbgfmt : Dbgfmt) (arch : Arch)
    (machine_name : String) (u : Unit) (evs : List Event)
    (h : main_objfmt_init in_file in_filename obj_filename objfmt dbgfmt arch machine_name
          = .ok u evs) :
    ∀ e ∈ evs, e.early env st := by
  unfold main_objfmt_init at h
  split at h
  · injection h with h3 h4
    subst h4
    simp
  · split at h
    · cases h
    · injection h with h3 h4
      subst h4
      intro e he
      simp at he
      subst he
      exact early_of_not_print env st _ rfl (by intro m h; cases h)

theorem replace_extension_early (env : Env) (st : State) (orig : String)
    (ext : Option String) (deflt : String) :
    ∀ e ∈ (replace_extension orig ext deflt).2, e.early env st := by
  intro e he
  cases hs : strrchr orig.data '.' with
  | none =>
    cases ext with
    | none =>
      simp [replace_extension, hs] at he
      subst he
      simp [Event.early, Event.is_setup, Event.is_dbgfmt_failure,
            Event.is_preproc_rejection, Msg.is_dbgfmt_failure]
    | some x => simp [replace_extension, hs] at he
  | some i =>
    cases ext with
    | none => simp [replace_extension, hs] at he
    | some x =>
      by_cases hc : List.drop (i + 1) orig.data = x.data
      · simp [replace_extension, hs, hc] at he
        subst he
        simp [Event.early, Event.is_setup, Event.is_dbgfmt_failure,
            Event.is_preproc_rejection, Msg.is_dbgfmt_failure]
      · simp [replace_extension, hs, hc] at he

theorem main_obj_filename_early (env : Env) (st : State) (o : Option String) (in_file : Bool)
    (in_filename : String) (objfmt : Objfmt) :
    ∀ e ∈ (main_obj_filename o in_file in_filename objfmt).2, e.early env st := by
  unfold main_obj_filename
  cases o with
  | some f => simp
  | none =>
    cases in_file
    · simp
    · simpa using replace_extension_early env st in_filename objfmt.extension "yasm.out"

theorem apply_preproc_saved_options_early (env : Env) (st st2 : State) (pp : Preproc) :
    ∀ e ∈ (apply_preproc_saved_options pp st2).2, e.early env st := by
  intro e he
  unfold apply_preproc_saved_options at he
  simp only [List.map_nil, List.append_nil, List.mem_append] at he
  rcases he with (he | he) | he
  · split at he
    · obtain ⟨p, -, rfl⟩ := List.mem_map.mp he
      exact early_of_not_print env st _ rfl (by intro m h; cases h)
    · cases he
  · obtain ⟨p, -, rfl⟩ := List.mem_map.mp he
    exact early_of_not_print env st _ rfl (by intro m h; cases h)
  · split at he
    · obtain ⟨p, -, rfl⟩ := List.mem_map.mp he
      exact early_of_not_print env st _ rfl (by intro m h; cases h)
    · cases he

theorem main_mode_bits_early (env : Env) (st : State) (arch : Arch) (objfmt : Objfmt) :
    ∀ e ∈ main_mode_bits env arch objfmt, e.early env st := by
  intro e he
  unfold main_mode_bits at he
  split at he
  · split at he
    · simp at he
      subst he
      exact early_of_not_print env st _ rfl (by intro m h; cases h)
    · cases he
  · cases he

theorem early_call (env : Env) (st : State) (l : List String) :
    ∀ e ∈ l.map Event.call, e.early env st := by
  intro e he
  obtain ⟨p, -, rfl⟩ := List.mem_map.mp he
  exact early_of_not_print env st _ rfl (by intro m h; cases h)

theorem forall_mem_append {Q : Event → Prop} {a b : List Event} (ha : ∀ e ∈ a, Q e)
    (hb : ∀ e ∈ b, Q e) : ∀ e ∈ a ++ b, Q e := by
  intro e he
  rcases List.mem_append.mp he with h | h
  · exact ha e h
  · exact hb e h

theorem andThen_ok {α : Type} (a : α) (evs : List Event) (k : α → Run) :
    (Step.ok a evs).andThen k = emit evs (k a) := rfl

theorem andThen_stop {α : Type} (o : Outcome) (evs : List Event) (k : α → Run) :
    (Step.stop o evs).andThen k = ⟨o, evs⟩ := rfl

theorem earlyOrPipeline_emit {env : Env} {st : State} {in_file : Bool} {in_filename : String}
    {pre : List Event} {r : Run} (hpre : ∀ e ∈ pre, e.early env st)
    (h : r.EarlyOrPipeline env st in_file in_filename) :
    (emit pre r).EarlyOrPipeline env st in_file in_filename := by
  rcases h with h | ⟨arch, optimizer, objfmt, dbgfmt, psr, pp, evs, hres, hevs, rfl⟩
  · exact Or.inl (sat_emit hpre h)
  · exact Or.inr ⟨arch, optimizer, objfmt, dbgfmt, psr, pp, pre ++ evs, hres,
      forall_mem_append hpre hevs, emit_emit _ _ _⟩

theorem earlyOrPipeline_stop {env : Env} {st : State} {in_file : Bool} {in_filename : String}
    {o : Outcome} {evs : List Event}
    (h : o.status = EXIT_FAILURE ∧ ∀ e ∈ evs, e.early env st) :
    Run.EarlyOrPipeline env st in_file in_filename ⟨o, evs⟩ :=
  Or.inl ⟨Or.inl h.1, h.2⟩

theorem main_assemble_cases (env : Env) (st : State) (in_file : Bool) (in_filename : String) :
    (main_assemble env st in_file in_filename).EarlyOrPipeline env st in_file in_filename := by
  unfold main_assemble
  cases h1 : main_arch env st.cur_arch with
  | stop o evs => exact earlyOrPipeline_stop (main_arch_stop env st o evs h1)
  | ok arch evs1 =>
  obtain ⟨rfl, ha, hav⟩ := main_arch_ok env st arch evs1 h1
  refine earlyOrPipeline_emit (by simp) ?_
  beta_reduce
  cases h2 : main_machine arch st.machine_name with
  | stop o evs =>
    obtain ⟨ho, he⟩ := main_machine_stop env st arch o evs ha h2
    exact Or.inl ⟨ho, he⟩
  | ok machine_name evs2 =>
  obtain ⟨hml, he2⟩ := main_machine_ok env st arch machine_name evs2 ha h2
  refine earlyOrPipeline_emit he2 ?_
  beta_reduce
  cases h3 : main_optimizer env with
  | stop o evs => exact earlyOrPipeline_stop (main_optimizer_stop env st o evs h3)
  | ok optimizer evs3 =>
  obtain ⟨rfl, hopt, hoptv⟩ := main_optimizer_ok env optimizer evs3 h3
  refine earlyOrPipeline_emit (by simp) ?_
  refine earlyOrPipeline_emit (early_call env st ["yasm_arch_common_initialize",
    "yasm_expr_initialize", "yasm_bc_initialize"]) ?_
  beta_reduce
  cases h4 : main_objfmt env st.cur_objfmt with
  | stop o evs => exact earlyOrPipeline_stop (main_objfmt_stop env st o evs h4)
  | ok objfmt evs4 =>
  obtain ⟨rfl, hobj, hobjv⟩ := main_objfmt_ok env st objfmt evs4 h4
  refine earlyOrPipeline_emit (by simp) ?_
  beta_reduce
  cases h5 : main_dbgfmt env in_file objfmt st.cur_dbgfmt with
  | stop o evs => exact earlyOrPipeline_stop (main_dbgfmt_stop env st in_file objfmt o evs h5)
  | ok dbgfmt evs5 =>
  obtain ⟨rfl, hdbg, hdbgv, hdbga⟩ := main_dbgfmt_ok env st in_file objfmt dbgfmt evs5 hobj h5
  refine earlyOrPipeline_emit (by simp) ?_
  refine earlyOrPipeline_emit
    (main_obj_filename_early env st st.obj_filename in_file in_filename objfmt) ?_
  beta_reduce
  cases h6 : main_objfmt_init in_file in_filename
      (main_obj_filename st.obj_filename in_file in_filename objfmt).1
      objfmt dbgfmt arch machine_name with
  | stop o evs =>
    exact earlyOrPipeline_stop (main_objfmt_init_stop env st _ _ _ _ _ _ _ o evs h6)
  | ok u evs6 =>
  refine earlyOrPipeline_emit (main_objfmt_init_ok env st _ _ _ _ _ _ _ u evs6 h6) ?_
  beta_reduce
  cases h7 : main_psr env st.curParser with
  | stop o evs => exact earlyOrPipeline_stop (main_psr_stop env st o evs h7)
  | ok psr evs7 =>
  obtain ⟨rfl, hpsr, hpsrv⟩ := main_psr_ok env st psr evs7 h7
  refine earlyOrPipeline_emit (by simp) ?_
  beta_reduce
  cases h8 : main_preproc env in_file psr st.cur_preproc with
  | stop o evs => exact earlyOrPipeline_stop (main_preproc_stop env st in_file psr o evs h8)
  | ok pp evs8 =>
  obtain ⟨rfl, hpp, hppv, hppa⟩ := main_preproc_ok env st in_file psr pp evs8 hpsr h8
  refine earlyOrPipeline_emit (by simp) ?_
  beta_reduce
  exact Or.inr ⟨arch, optimizer, objfmt, dbgfmt, psr, pp, _,
    ⟨ha, hav, hml, hopt, hoptv, hobj, hobjv, hdbg, hdbgv, hdbga, hpsr, hpsrv, hpp, hppv, hppa⟩,
    forall_mem_append (apply_preproc_saved_options_early env st st pp)
      (main_mode_bits_early env st arch objfmt), rfl⟩

theorem early_of_cmdline (env : Env) (st : State) (e : Event) (h : e.is_cmdline = true) :
    e.early env st := by
  cases e with
  | print_error m =>
    cases m <;> simp [Event.is_cmdline, Msg.is_cmdline] at h <;>
      simp [Event.early, Event.is_setup, Event.is_dbgfmt_failure,
            Event.is_preproc_rejection, Msg.is_dbgfmt_failure]
  | list_modules w => exact early_of_not_print env st _ rfl (by intro m h; cases h)
  | warn_disable_all => exact early_of_not_print env st _ rfl (by intro m h; cases h)
  | warn_enable_unrec_char => exact early_of_not_print env st _ rfl (by intro m h; cases h)
  | warn_disable_unrec_char => exact early_of_not_print env st _ rfl (by intro m h; cases h)
  | _ => simp [Event.is_cmdline] at h

theorem dispatch_ret (env : Env) (st st2 : State) (a : Arg) (code : Nat) (evs : List Event)
    (h : dispatch env st a = .ret code st2 evs) : ∀ e ∈ evs, e.is_cmdline = true := by
  cases a <;> simp only [dispatch, opt_special_handler, opt_arch_handler, opt_parser_handler,
    opt_preproc_handler, opt_objfmt_handler, opt_dbgfmt_handler, opt_objfile_handler,
    opt_machine_handler, opt_warning_handler, preproc_only_handler, opt_preproc_include_path,
    opt_preproc_include_file, not_an_option_handler] at h
  all_goals (repeat' split at h)
  all_goals cases h
  all_goals (try (intro e he; simp at he))
  all_goals (try (subst he; rfl))

theorem dispatch_exit (env : Env) (st : State) (a : Arg) (status : Nat) (evs : List Event)
    (h : dispatch env st a = .exit status evs) :
    status = EXIT_FAILURE ∧ (∀ e ∈ evs, e.is_cmdline = true) ∧ a.unresolved env = true := by
  cases a <;> simp only [dispatch, opt_special_handler, opt_arch_handler, opt_parser_handler,
    opt_preproc_handler, opt_objfmt_handler, opt_dbgfmt_handler, opt_objfile_handler,
    opt_machine_handler, opt_warning_handler, preproc_only_handler, opt_preproc_include_path,
    opt_preproc_include_file, not_an_option_handler] at h
  all_goals (repeat' split at h)
  all_goals cases h
  all_goals simp_all [Arg.unresolved, Event.is_cmdline, Msg.is_cmdline]

theorem decoder_events_cmdline (a : Arg) : ∀ e ∈ decoder_events a, e.is_cmdline = true := by
  intro e he
  cases a <;> simp [decoder_events] at he <;> subst he <;> rfl

theorem cmdline_emit_done {c : Cmdline} {pre : List Event} {st : State} {errors : Nat}
    {evs : List Event} (h : Cmdline.emit pre c = .done st errors evs) :
    ∃ evs2, c = .done st errors evs2 ∧ evs = pre ++ evs2 := by
  cases c with
  | done st2 e2 evs2 =>
    simp only [Cmdline.emit] at h
    injection h with h1 h2 h3
    subst h1 h2 h3
    exact ⟨evs2, rfl, rfl⟩
  | exited s evs2 => simp [Cmdline.emit] at h

theorem cmdline_emit_exited {c : Cmdline} {pre : List Event} {status : Nat}
    {evs : List Event} (h : Cmdline.emit pre c = .exited status evs) :
    ∃ evs2, c = .exited status evs2 ∧ evs = pre ++ evs2 := by
  cases c with
  | done st2 e2 evs2 => simp [Cmdline.emit] at h
  | exited s evs2 =>
    simp only [Cmdline.emit] at h
    injection h with h1 h2
    subst h1 h2
    exact ⟨evs2, rfl, rfl⟩

theorem parse_cmdline_cons_done {env : Env} {a : Arg} {rest : List Arg} {st st' : State}
    {n errors : Nat} {evs : List Event}
    (h : parse_cmdline env (a :: rest) st n = .done st' errors evs) :
    ∃ code st2 evs1 evs2, dispatch env st a = .ret code st2 evs1 ∧
      parse_cmdline env rest st2 (n + decoder_errors a) = .done st' errors evs2 ∧
      evs = (decoder_events a ++ evs1 ++
          if code ≠ 0 then [.print_error .warn_unrecognized_option] else []) ++ evs2 := by
  rw [parse_cmdline] at h
  cases hd : dispatch env st a with
  | exit s e1 => simp [hd] at h
  | ret code st2 evs1 =>
    simp only [hd] at h
    obtain ⟨evs2, h1, h2⟩ := cmdline_emit_done h
    exact ⟨code, st2, evs1, evs2, rfl, h1, h2⟩

theorem parse_cmdline_done_events (env : Env) (argv : List Arg) :
    ∀ (st st' : State) (n errors : Nat) (evs : List Event),
      parse_cmdline env argv st n = .done st' errors evs → ∀ e ∈ evs, e.is_cmdline = true := by
  induction argv with
  | nil =>
    intro st st' n errors evs h
    simp only [parse_cmdline] at h
    injection h with h1 h2 h3
    subst h3
    simp
  | cons a rest ih =>
    intro st st' n errors evs h
    obtain ⟨code, st2, evs1, evs2, hd, hr, rfl⟩ := parse_cmdline_cons_done h
    refine forall_mem_append (forall_mem_append (forall_mem_append
      (decoder_events_cmdline a) (dispatch_ret env st st2 a code evs1 hd)) ?_)
      (ih st2 st' _ errors evs2 hr)
    intro e he
    split at he
    · simp at he
      subst he
      rfl
    · cases he

theorem parse_cmdline_exited_events (env : Env) (argv : List Arg) :
    ∀ (st : State) (n status : Nat) (evs : List Event),
      parse_cmdline env argv st n = .exited status evs →
      status = EXIT_FAILURE ∧ ∀ e ∈ evs, e.is_cmdline = true := by
  induction argv with
  | nil =>
    intro st n status evs h
    simp [parse_cmdline] at h
  | cons a rest ih =>
    intro st n status evs h
    rw [parse_cmdline] at h
    cases hd : dispatch env st a with
    | exit s e1 =>
      simp only [hd] at h
      injection h with h1 h2
      subst h1 h2
      obtain ⟨h1, h2, -⟩ := dispatch_exit env st a s e1 hd
      exact ⟨h1, h2⟩
    | ret code st2 evs1 =>
      simp only [hd] at h
      obtain ⟨evs2, h1, rfl⟩ := cmdline_emit_exited h
      obtain ⟨h3, h4⟩ := ih st2 _ status evs2 h1
      refine ⟨h3, forall_mem_append (forall_mem_append (forall_mem_append
        (decoder_events_cmdline a) (dispatch_ret env st st2 a code evs1 hd)) ?_) h4⟩
      intro e he
      split at he
      · simp at he
        subst he
        rfl
      · cases he

theorem main_open_input_stop (env : Env) (st : State) (o : Outcome) (evs : List Event)
    (h : main_open_input env st = .stop o evs) :
    o.status = EXIT_FAILURE ∧ ∀ e ∈ evs, e.early env st := by
  unfold main_open_input at h
  repeat' split at h
  all_goals cases h
  refine ⟨rfl, ?_⟩
  intro e he
  simp at he
  rcases he with rfl | rfl
  · exact early_of_not_print env st _ rfl (by intro m h; cases h)
  · simp [Event.early, Event.is_setup, Event.is_dbgfmt_failure,
            Event.is_preproc_rejection, Msg.is_dbgfmt_failure]

theorem main_open_input_ok (env : Env) (st : State) (inp : Bool × String) (evs : List Event)
    (h : main_open_input env st = .ok inp evs) :
    ∀ e ∈ evs, e.early env st := by
  unfold main_open_input at h
  repeat' split at h
  all_goals cases h
  all_goals intro e he
  all_goals simp at he
  subst he
  exact early_of_not_print env st _ rfl (by intro m h; cases h)

theorem main_structure (env : Env) (argv : List Arg) (st : State) (errors : Nat)
    (evs : List Event) (hcmd : parse_cmdline env argv State.initial 0 = .done st errors evs) :
    (main env argv).Sat (Event.early env st)
      (fun o => o.status = EXIT_FAILURE ∨ st.special_options ≠ 0 ∨
        (st.preproc_only = 0 ∧ machine_listing env st = true)) ∨
    (st.preproc_only = 0 ∧ ∃ in_file in_filename ievs arch optimizer objfmt dbgfmt psr pp pre,
      main_open_input env st = .ok (in_file, in_filename) ievs ∧
      Resolved env st arch optimizer objfmt dbgfmt psr pp ∧ (∀ e ∈ pre, e.early env st) ∧
      main env argv = emit pre (main_pipeline env st in_file in_filename arch optimizer objfmt
        dbgfmt (main_obj_filename st.obj_filename in_file in_filename objfmt).1 psr pp)) ∨
    (st.preproc_only ≠ 0 ∧ ∃ in_file in_filename ievs pre,
      main_open_input env st = .ok (in_file, in_filename) ievs ∧
      (∀ e ∈ pre, e.early env st) ∧
      main env argv = emit pre (main_preproc_only env st in_file in_filename)) := by
  have hevs : ∀ e ∈ evs, e.early env st := fun e he =>
    early_of_cmdline env st e (parse_cmdline_done_events env argv _ _ _ _ _ hcmd e he)
  unfold main
  rw [hcmd]
  dsimp only
  by_cases hl : loader_errors env ≠ 0
  · left
    rw [if_pos hl]
    refine ⟨Or.inl rfl, ?_⟩
    intro e he
    simp at he
    subst he
    simp [Event.early, Event.is_setup, Event.is_dbgfmt_failure,
            Event.is_preproc_rejection, Msg.is_dbgfmt_failure]
  rw [if_neg hl]
  by_cases herr : errors ≠ 0
  · left
    rw [if_pos herr]
    exact sat_emit hevs ⟨Or.inl rfl, by simp⟩
  rw [if_neg herr]
  unfold main_after_cmdline
  by_cases h1 : st.special_options = SPECIAL_SHOW_HELP
  · left
    rw [if_pos h1]
    refine sat_emit hevs ⟨Or.inr (Or.inl (by rw [h1]; decide)), ?_⟩
    intro e he
    simp at he
    subst he
    exact early_of_not_print env st _ rfl (by intro m h; cases h)
  rw [if_neg h1]
  by_cases h2 : st.special_options = SPECIAL_SHOW_VERSION
  · left
    rw [if_pos h2]
    refine sat_emit hevs ⟨Or.inr (Or.inl (by rw [h2]; decide)), ?_⟩
    intro e he
    simp at he
    subst he
    exact early_of_not_print env st _ rfl (by intro m h; cases h)
  rw [if_neg h2]
  by_cases h4 : st.special_options = SPECIAL_LISTED
  · left
    rw [if_pos h4]
    exact sat_emit hevs ⟨Or.inr (Or.inl (by rw [h4]; decide)), by simp⟩
  rw [if_neg h4]
  cases hb : env.BitVector_Boot with
  | false =>
    left
    simp only [Bool.not_false, if_true]
    refine sat_emit hevs ⟨Or.inl rfl, ?_⟩
    intro e he
    simp at he
    subst he
    simp [Event.early, Event.is_setup, Event.is_dbgfmt_failure,
            Event.is_preproc_rejection, Msg.is_dbgfmt_failure]
  | true =>
  simp only [Bool.not_true, Bool.false_eq_true, if_false]
  cases hi : main_open_input env st with
  | stop o ievs =>
    left
    obtain ⟨ho, he⟩ := main_open_input_stop env st o ievs hi
    exact sat_emit hevs ⟨Or.inl ho, he⟩
  | ok inp ievs =>
  have hie := main_open_input_ok env st inp ievs hi
  have hcalls := early_call env st ["yasm_std_linemgr.initialize", "yasm_std_linemgr.set",
        "yasm_intnum_initialize", "yasm_floatnum_initialize", "yasm_symrec_initialize"]
  simp only [List.map] at hcalls
  obtain ⟨in_file, in_filename⟩ := inp
  simp only [andThen_ok, emit_emit]
  by_cases hp : st.preproc_only = 0
  · rw [if_neg (not_not.mpr hp)]
    rcases main_assemble_cases env st in_file in_filename with h | h
    · left
      refine sat_emit (forall_mem_append hevs (forall_mem_append hie hcalls)) ?_
      refine sat_mono h (fun _ h => h) ?_
      intro o ho
      rcases ho with ho | ho
      · exact Or.inl ho
      · exact Or.inr (Or.inr ⟨hp, ho⟩)
    · right; left
      obtain ⟨arch, optimizer, objfmt, dbgfmt, psr, pp, pre, hres, hpre, heq⟩ := h
      refine ⟨hp, in_file, in_filename, ievs, arch, optimizer, objfmt, dbgfmt, psr, pp,
        (evs ++ (ievs ++ [Event.call "yasm_std_linemgr.initialize",
          Event.call "yasm_std_linemgr.set", Event.call "yasm_intnum_initialize",
          Event.call "yasm_floatnum_initialize", Event.call "yasm_symrec_initialize"])) ++ pre,
        rfl, hres, ?_, ?_⟩
      · exact forall_mem_append (forall_mem_append hevs (forall_mem_append hie hcalls)) hpre
      · rw [heq, emit_emit]
  · right; right
    rw [if_pos hp]
    exact ⟨hp, in_file, in_filename, ievs, _, rfl,
      forall_mem_append hevs (forall_mem_append hie hcalls), rfl⟩

theorem main_open_obj_cases (env : Env) (objfmt : Objfmt) (obj_filename : String) :
    (objfmt.keyword = "dbg" ∧ main_open_obj env objfmt obj_filename = .ok false []) ∨
    (objfmt.keyword ≠ "dbg" ∧ env.fopen obj_filename "wb" = true ∧
      main_open_obj env objfmt obj_filename =
        .ok true [.open_obj obj_filename "wb" true]) ∨
    (objfmt.keyword ≠ "dbg" ∧ env.fopen obj_filename "wb" = false ∧
      main_open_obj env objfmt obj_filename =
        .stop (.returned EXIT_FAILURE)
          [.open_obj obj_filename "wb" false, .print_error (.could_not_open_file obj_filename),
           .cleanup true]) := by
  unfold main_open_obj open_obj cleanup
  by_cases h1 : objfmt.keyword = "dbg"
  · left
    simp [h1]
  · right
    cases h2 : env.fopen obj_filename "wb"
    · right
      simp [h1]
    · left
      simp [h1]

/-- The five ways `main_pipeline` can go, with its trace in full. -/
theorem main_pipeline_cases (env : Env) (st : State) (in_file : Bool) (in_filename : String)
    (arch : Arch) (optimizer : Optimizer) (objfmt : Objfmt) (dbgfmt : Dbgfmt)
    (obj_filename : String) (psr : Parser) (pp : Preproc) :
    let r := main_pipeline env st in_file in_filename arch optimizer objfmt dbgfmt
      obj_filename psr pp
    let parsed : List Event := [.do_parse pp psr.keyword arch.keyword objfmt.keyword in_filename]
        ++ (if in_file then [.fclose_in] else [])
    let optimized : List Event := parsed ++
        [.call "yasm_symrec_parser_finalize", .optimize optimizer.keyword]
    (yasm_get_num_errors env.diag_after_parse st.warning_error > 0 ∧
      r = ⟨.returned EXIT_FAILURE,
            parsed ++ [.errwarn_output_all st.warning_error, .cleanup true]⟩) ∨
    (yasm_get_num_errors env.diag_after_parse st.warning_error = 0 ∧
      yasm_get_num_errors env.diag_after_optimize st.warning_error > 0 ∧
      r = ⟨.returned EXIT_FAILURE,
            optimized ++ [.errwarn_output_all st.warning_error, .cleanup true]⟩) ∨
    (yasm_get_num_errors env.diag_after_parse st.warning_error = 0 ∧
      yasm_get_num_errors env.diag_after_optimize st.warning_error = 0 ∧
      objfmt.keyword ≠ "dbg" ∧ env.fopen obj_filename "wb" = false ∧
      r = ⟨.returned EXIT_FAILURE,
            optimized ++ [.open_obj obj_filename "wb" false,
              .print_error (.could_not_open_file obj_filename), .cleanup true]⟩) ∨
    (yasm_get_num_errors env.diag_after_parse st.warning_error = 0 ∧
      yasm_get_num_errors env.diag_after_optimize st.warning_error = 0 ∧
      yasm_get_num_errors env.diag_after_output st.warning_error > 0 ∧
      ∃ obj : Bool, (obj = true ↔ objfmt.keyword ≠ "dbg") ∧
      r = ⟨.returned EXIT_FAILURE,
            optimized ++ (if obj then [.open_obj obj_filename "wb" true] else [])
              ++ [.objfmt_output objfmt.keyword obj (decide (dbgfmt.keyword ≠ "null"))]
              ++ (if obj then [.fclose_obj] else [])
              ++ [.errwarn_output_all st.warning_error, .remove obj_filename,
                  .cleanup true]⟩) ∨
    (yasm_get_num_errors env.diag_after_parse st.warning_error = 0 ∧
      yasm_get_num_errors env.diag_after_optimize st.warning_error = 0 ∧
      yasm_get_num_errors env.diag_after_output st.warning_error = 0 ∧
      ∃ obj : Bool, (obj = true ↔ objfmt.keyword ≠ "dbg") ∧
      r = ⟨.returned EXIT_SUCCESS,
            optimized ++ (if obj then [.open_obj obj_filename "wb" true] else [])
              ++ [.objfmt_output objfmt.keyword obj (decide (dbgfmt.keyword ≠ "null"))]
              ++ (if obj then [.fclose_obj] else [])
              ++ [.errwarn_output_all st.warning_error, .cleanup true]⟩) := by
  intro r parsed optimized
  by_cases h1 : yasm_get_num_errors env.diag_after_parse st.warning_error > 0
  · left
    refine ⟨h1, ?_⟩
    simp only [r, main_pipeline, if_pos h1, emit, cleanup, parsed]
    simp
  have h1' : yasm_get_num_errors env.diag_after_parse st.warning_error = 0 := by omega
  right
  by_cases h2 : yasm_get_num_errors env.diag_after_optimize st.warning_error > 0
  · left
    refine ⟨h1', h2, ?_⟩
    simp only [r, main_pipeline, if_neg h1, if_pos h2, emit, cleanup, parsed, optimized]
    simp
  have h2' : yasm_get_num_errors env.diag_after_optimize st.warning_error = 0 := by omega
  right
  rcases main_open_obj_cases env objfmt obj_filename with ⟨hk, ho⟩ | ⟨hk, hf, ho⟩ | ⟨hk, hf, ho⟩
  · right
    by_cases h3 : yasm_get_num_errors env.diag_after_output st.warning_error > 0
    · left
      refine ⟨h1', h2', h3, false, by simp [hk], ?_⟩
      simp only [r, main_pipeline, if_neg h1, if_neg h2, if_pos h3, ho, andThen_ok, emit, cleanup,
        parsed, optimized]
      simp
    · right
      refine ⟨h1', h2', by omega, false, by simp [hk], ?_⟩
      simp only [r, main_pipeline, if_neg h1, if_neg h2, if_neg h3, ho, andThen_ok, emit, cleanup,
        parsed, optimized]
      simp
  · right
    by_cases h3 : yasm_get_num_errors env.diag_after_output st.warning_error > 0
    · left
      refine ⟨h1', h2', h3, true, by simp [hk], ?_⟩
      simp only [r, main_pipeline, if_neg h1, if_neg h2, if_pos h3, ho, andThen_ok, emit, cleanup,
        parsed, optimized]
      simp
    · right
      refine ⟨h1', h2', by omega, true, by simp [hk], ?_⟩
      simp only [r, main_pipeline, if_neg h1, if_neg h2, if_neg h3, ho, andThen_ok, emit, cleanup,
        parsed, optimized]
      simp
  · left
    refine ⟨h1', h2', hk, hf, ?_⟩
    simp only [r, main_pipeline, if_neg h1, if_neg h2, ho, andThen_stop, emit, cleanup,
        parsed, optimized]
    simp

theorem main_preproc_only_cases (env : Env) (st : State) (in_file : Bool)
    (in_filename : String) :
    let r := main_preproc_only env st in_file in_filename
    (∃ f, st.obj_filename = some f ∧ env.fopen f "wt" = false ∧
      r = ⟨.returned EXIT_FAILURE,
            [.open_obj f "wt" false, .print_error (.could_not_open_file f)]⟩) ∨
    ((∀ f, st.obj_filename = some f → env.fopen f "wt" = true) ∧
      ((resolve_preproc_only env st = none ∧
        r = ⟨.returned EXIT_FAILURE, preproc_only_opened st ++
              [.print_error (.could_not_load_default "preprocessor"), .cleanup false]⟩) ∨
      ∃ pp, resolve_preproc_only env st = some pp ∧
        ((pp.version ≠ env.YASM_PREPROC_VERSION ∧
          r = ⟨.exited EXIT_FAILURE, preproc_only_opened st ++
              [.print_error (.version_mismatch "preproc" pp.keyword env.YASM_PREPROC_VERSION
                pp.version)]⟩) ∨
        (pp.version = env.YASM_PREPROC_VERSION ∧
          yasm_get_num_errors env.diag_after_preproc st.warning_error > 0 ∧
          r = ⟨.returned EXIT_FAILURE, preproc_only_opened st ++
              preproc_only_body st pp in_file in_filename ++
              [.errwarn_output_all st.warning_error] ++
              (match st.obj_filename with
                | some f => [.remove f]
                | none => []) ++ [.cleanup false]⟩) ∨
        (pp.version = env.YASM_PREPROC_VERSION ∧
          yasm_get_num_errors env.diag_after_preproc st.warning_error = 0 ∧
          r = ⟨.returned EXIT_SUCCESS, preproc_only_opened st ++
              preproc_only_body st pp in_file in_filename ++ [.cleanup false]⟩)))) := by
  intro r
  have key : ∀ (obj : Option String) (opened : List Event),
      preproc_only_open env st.obj_filename = .ok obj opened →
      obj = st.obj_filename → opened = preproc_only_opened st →
      ((resolve_preproc_only env st = none ∧
        r = ⟨.returned EXIT_FAILURE, preproc_only_opened st ++
              [.print_error (.could_not_load_default "preprocessor"), .cleanup false]⟩) ∨
      ∃ pp, resolve_preproc_only env st = some pp ∧
        ((pp.version ≠ env.YASM_PREPROC_VERSION ∧
          r = ⟨.exited EXIT_FAILURE, preproc_only_opened st ++
              [.print_error (.version_mismatch "preproc" pp.keyword env.YASM_PREPROC_VERSION
                pp.version)]⟩) ∨
        (pp.version = env.YASM_PREPROC_VERSION ∧
          yasm_get_num_errors env.diag_after_preproc st.warning_error > 0 ∧
          r = ⟨.returned EXIT_FAILURE, preproc_only_opened st ++
              preproc_only_body st pp in_file in_filename ++
              [.errwarn_output_all st.warning_error] ++
              (match st.obj_filename with
                | some f => [.remove f]
                | none => []) ++ [.cleanup false]⟩) ∨
        (pp.version = env.YASM_PREPROC_VERSION ∧
          yasm_get_num_errors env.diag_after_preproc st.warning_error = 0 ∧
          r = ⟨.returned EXIT_SUCCESS, preproc_only_opened st ++
              preproc_only_body st pp in_file in_filename ++ [.cleanup false]⟩))) := by
    intro obj opened hopen hobj hopened
    subst hobj hopened
    simp only [r, main_preproc_only, hopen, andThen_ok]
    cases hr : resolve_preproc_only env st with
    | none =>
      left
      unfold resolve_preproc_only at hr
      simp only [preproc_only_preproc, hr, andThen_stop, emit, cleanup]
      simp
    | some pp =>
      right
      refine ⟨pp, rfl, ?_⟩
      unfold resolve_preproc_only at hr
      by_cases hv : pp.version = env.YASM_PREPROC_VERSION
      · right
        have hpp : preproc_only_preproc env st.cur_preproc = .ok pp [] := by
          simp only [preproc_only_preproc, hr, check_module_version]
          simp [hv]
        by_cases hc : yasm_get_num_errors env.diag_after_preproc st.warning_error > 0
        · left
          refine ⟨hv, hc, ?_⟩
          simp only [hpp, andThen_ok, if_pos hc, emit, cleanup, preproc_only_body]
          simp
        · right
          refine ⟨hv, by omega, ?_⟩
          simp only [hpp, andThen_ok, if_neg hc, emit, cleanup, preproc_only_body]
          simp
      · left
        refine ⟨hv, ?_⟩
        simp only [preproc_only_preproc, hr, check_module_version]
        simp [hv, andThen_stop, emit]
  cases hf : st.obj_filename with
  | none =>
    right
    refine ⟨by simp, ?_⟩
    have := key none [] (by simp [preproc_only_open, hf]) hf.symm
      (by simp [preproc_only_opened, hf])
    simpa [hf] using this
  | some f =>
    cases ho : env.fopen f "wt" with
    | false =>
      left
      refine ⟨f, rfl, ho, ?_⟩
      simp [r, main_preproc_only, preproc_only_open, hf, open_obj, ho, andThen_stop]
    | true =>
      right
      refine ⟨by simp [ho], ?_⟩
      have := key (some f) [.open_obj f "wt" true]
        (by simp [preproc_only_open, hf, open_obj, ho]) hf.symm
        (by simp [preproc_only_opened, hf])
      simpa [hf] using this

theorem setup_not_late (e : Event) (h : e.is_setup = true) :
    e.is_do_parse = false ∧ e.is_open_obj = false ∧ e.is_optimize = false ∧
      e.is_objfmt_output = false ∧ e.is_remove = false := by
  cases e <;> simp [Event.is_setup] at h <;>
    simp [Event.is_do_parse, Event.is_open_obj, Event.is_optimize, Event.is_objfmt_output,
      Event.is_remove]

theorem resolved_no_mismatch {env : Env} {st : State} {arch : Arch} {optimizer : Optimizer}
    {objfmt : Objfmt} {dbgfmt : Dbgfmt} {psr : Parser} {pp : Preproc}
    (h : Resolved env st arch optimizer objfmt dbgfmt psr pp) :
    version_mismatch env st = false := by
  unfold version_mismatch
  rw [h.arch_eq, h.optimizer_eq, h.objfmt_eq, h.dbgfmt_eq, h.psr_eq, h.preproc_eq]
  simp [h.arch_version, h.optimizer_version, h.objfmt_version, h.dbgfmt_version, h.psr_version,
    h.preproc_version]

theorem main_pipeline_no_validation_msg (env : Env) (st : State) (in_file : Bool)
    (in_filename : String) (arch : Arch) (optimizer : Optimizer) (objfmt : Objfmt)
    (dbgfmt : Dbgfmt) (obj_filename : String) (psr : Parser) (pp : Preproc) :
    ∀ e ∈ (main_pipeline env st in_file in_filename arch optimizer objfmt dbgfmt
      obj_filename psr pp).trace,
      e.is_dbgfmt_failure = false ∧ e.is_preproc_rejection = false := by
  rcases main_pipeline_cases env st in_file in_filename arch optimizer objfmt dbgfmt
      obj_filename psr pp with ⟨-, h⟩ | ⟨-, -, h⟩ | ⟨-, -, -, -, h⟩ | ⟨-, -, -, obj, -, h⟩ |
      ⟨-, -, -, obj, -, h⟩
  all_goals rw [h]
  all_goals cases in_file
  all_goals (try cases obj)
  all_goals simp [Event.is_dbgfmt_failure, Msg.is_dbgfmt_failure, Event.is_preproc_rejection]

theorem apply_preproc_saved_options_events (pp : Preproc) (st : State) :
    ∀ e ∈ (apply_preproc_saved_options pp st).2,
      (∃ p, e = .add_include_path p) ∨ (∃ p, e = .add_include_file p) ∨
        (∃ p, e = .xfree_param p) := by
  intro e he
  unfold apply_preproc_saved_options at he
  simp only [List.map_nil, List.append_nil, List.mem_append] at he
  rcases he with (he | he) | he
  · split at he
    · obtain ⟨p, -, rfl⟩ := List.mem_map.mp he
      exact Or.inl ⟨p, rfl⟩
    · cases he
  · obtain ⟨p, -, rfl⟩ := List.mem_map.mp he
    exact Or.inr (Or.inr ⟨p, rfl⟩)
  · split at he
    · obtain ⟨p, -, rfl⟩ := List.mem_map.mp he
      exact Or.inr (Or.inl ⟨p, rfl⟩)
    · cases he

theorem preproc_only_body_props (st : State) (pp : Preproc) (in_file : Bool)
    (in_filename : String) :
    ∀ e ∈ preproc_only_body st pp in_file in_filename,
      e.is_do_parse = false ∧ e.is_optimize = false ∧ e.is_objfmt_output = false ∧
      e.is_preproc_rejection = false ∧ e.is_dbgfmt_failure = false ∧ e.is_remove = false ∧
      e.is_open_obj = false ∧
      (∀ pp2 f, e = .preproc_init pp2 f → pp2 = pp) := by
  intro e he
  unfold preproc_only_body at he
  simp only [List.mem_append] at he
  rcases he with (((he | he) | he) | he) | he
  · rcases apply_preproc_saved_options_events pp st e he with ⟨p, rfl⟩ | ⟨p, rfl⟩ | ⟨p, rfl⟩ <;>
      simp [Event.is_do_parse, Event.is_optimize, Event.is_objfmt_output,
        Event.is_preproc_rejection, Event.is_dbgfmt_failure, Event.is_remove, Event.is_open_obj]
  · simp at he
    subst he
    simp [Event.is_do_parse, Event.is_optimize, Event.is_objfmt_output,
        Event.is_preproc_rejection, Event.is_dbgfmt_failure, Event.is_remove, Event.is_open_obj]
  · obtain ⟨p, -, rfl⟩ := List.mem_map.mp he
    simp [Event.is_do_parse, Event.is_optimize, Event.is_objfmt_output,
        Event.is_preproc_rejection, Event.is_dbgfmt_failure, Event.is_remove, Event.is_open_obj]
  · split at he
    · simp at he
      subst he
      simp [Event.is_do_parse, Event.is_optimize, Event.is_objfmt_output,
        Event.is_preproc_rejection, Event.is_dbgfmt_failure, Event.is_remove, Event.is_open_obj]
    · cases he
  · split at he
    · simp at he
      subst he
      simp [Event.is_do_parse, Event.is_optimize, Event.is_objfmt_output,
        Event.is_preproc_rejection, Event.is_dbgfmt_failure, Event.is_remove, Event.is_open_obj]
    · cases he

theorem preproc_only_opened_props (st : State) :
    ∀ e ∈ preproc_only_opened st,
      e.is_do_parse = false ∧ e.is_optimize = false ∧ e.is_objfmt_output = false ∧
      e.is_preproc_rejection = false ∧ e.is_dbgfmt_failure = false ∧ e.is_remove = false ∧
      (∀ pp2 f, e ≠ .preproc_init pp2 f) := by
  intro e he
  unfold preproc_only_opened at he
  cases h : st.obj_filename <;> simp [h] at he
  subst he
  simp [Event.is_do_parse, Event.is_optimize, Event.is_objfmt_output,
        Event.is_preproc_rejection, Event.is_dbgfmt_failure, Event.is_remove]

theorem main_preproc_only_props (env : Env) (st : State) (in_file : Bool)
    (in_filename : String) :
    ∀ e ∈ (main_preproc_only env st in_file in_filename).trace,
      e.is_do_parse = false ∧ e.is_optimize = false ∧ e.is_objfmt_output = false ∧
      e.is_preproc_rejection = false ∧ e.is_dbgfmt_failure = false ∧
      (∀ pp2 f, e = .preproc_init pp2 f → resolve_preproc_only env st = some pp2) := by
  intro e he
  have hop := preproc_only_opened_props st
  rcases main_preproc_only_cases env st in_file in_filename with
    ⟨f, -, -, h⟩ | ⟨-, ⟨-, h⟩ | ⟨pp, hpp, ⟨-, h⟩ | ⟨-, -, h⟩ | ⟨-, -, h⟩⟩⟩
  all_goals rw [h] at he
  all_goals simp only [List.mem_append] at he
  · simp at he
    rcases he with rfl | rfl <;>
      simp [Event.is_do_parse, Event.is_optimize, Event.is_objfmt_output,
        Event.is_preproc_rejection, Event.is_dbgfmt_failure, Msg.is_dbgfmt_failure]
  · rcases he with he | he
    · have := hop e he
      exact ⟨this.1, this.2.1, this.2.2.1, this.2.2.2.1, this.2.2.2.2.1,
        fun pp2 f h => absurd h (this.2.2.2.2.2.2 pp2 f)⟩
    · simp at he
      rcases he with rfl | rfl <;>
        simp [Event.is_do_parse, Event.is_optimize, Event.is_objfmt_output,
          Event.is_preproc_rejection, Event.is_dbgfmt_failure, Msg.is_dbgfmt_failure]
  · rcases he with he | he
    · have := hop e he
      exact ⟨this.1, this.2.1, this.2.2.1, this.2.2.2.1, this.2.2.2.2.1,
        fun pp2 f h => absurd h (this.2.2.2.2.2.2 pp2 f)⟩
    · simp at he
      subst he
      simp [Event.is_do_parse, Event.is_optimize, Event.is_objfmt_output,
          Event.is_preproc_rejection, Event.is_dbgfmt_failure, Msg.is_dbgfmt_failure]
  · rcases he with (((he | he) | he) | he) | he
    · have := hop e he
      exact ⟨this.1, this.2.1, this.2.2.1, this.2.2.2.1, this.2.2.2.2.1,
        fun pp2 f h => absurd h (this.2.2.2.2.2.2 pp2 f)⟩
    · have := preproc_only_body_props st pp in_file in_filename e he
      exact ⟨this.1, this.2.1, this.2.2.1, this.2.2.2.1, this.2.2.2.2.1,
        fun pp2 f h => by rw [this.2.2.2.2.2.2.2 pp2 f h]; exact hpp⟩
    · simp at he
      subst he
      simp [Event.is_do_parse, Event.is_optimize, Event.is_objfmt_output,
          Event.is_preproc_rejection, Event.is_dbgfmt_failure, Msg.is_dbgfmt_failure]
    · cases hf : st.obj_filename <;> simp [hf] at he
      subst he
      simp [Event.is_do_parse, Event.is_optimize, Event.is_objfmt_output,
          Event.is_preproc_rejection, Event.is_dbgfmt_failure, Msg.is_dbgfmt_failure]
    · simp at he
      subst he
      simp [Event.is_do_parse, Event.is_optimize, Event.is_objfmt_output,
          Event.is_preproc_rejection, Event.is_dbgfmt_failure, Msg.is_dbgfmt_failure]
  · rcases he with (he | he) | he
    · have := hop e he
      exact ⟨this.1, this.2.1, this.2.2.1, this.2.2.2.1, this.2.2.2.2.1,
        fun pp2 f h => absurd h (this.2.2.2.2.2.2 pp2 f)⟩
    · have := preproc_only_body_props st pp in_file in_filename e he
      exact ⟨this.1, this.2.1, this.2.2.1, this.2.2.2.1, this.2.2.2.2.1,
        fun pp2 f h => by rw [this.2.2.2.2.2.2.2 pp2 f h]; exact hpp⟩
    · simp at he
      subst he
      simp [Event.is_do_parse, Event.is_optimize, Event.is_objfmt_output,
          Event.is_preproc_rejection, Event.is_dbgfmt_failure, Msg.is_dbgfmt_failure]

theorem main_pipeline_do_parse (env : Env) (st : State) (in_file : Bool)
    (in_filename : String) (arch : Arch) (optimizer : Optimizer) (objfmt : Objfmt)
    (dbgfmt : Dbgfmt) (obj_filename : String) (psr : Parser) (pp : Preproc) :
    ∀ e ∈ (main_pipeline env st in_file in_filename arch optimizer objfmt dbgfmt
      obj_filename psr pp).trace,
      (∀ pp2 a b c d, e = .do_parse pp2 a b c d → pp2 = pp) ∧
      (∀ pp2 f, e ≠ .preproc_init pp2 f) := by
  rcases main_pipeline_cases env st in_file in_filename arch optimizer objfmt dbgfmt
      obj_filename psr pp with ⟨-, h⟩ | ⟨-, -, h⟩ | ⟨-, -, -, -, h⟩ | ⟨-, -, -, obj, -, h⟩ |
      ⟨-, -, -, obj, -, h⟩
  all_goals rw [h]
  all_goals cases in_file
  all_goals (try cases obj)
  all_goals simp
  all_goals (intro pp2 _ _ _ _ h _ _ _ _; exact h.symm)

theorem message_of_cmdline (e : Event) (h : e.is_cmdline = true) : e.is_message = true := by
  cases e <;> simp [Event.is_cmdline] at h <;> rfl

theorem dispatch_unresolved (env : Env) (st : State) (a : Arg) (h : a.unresolved env = true) :
    ∃ evs, dispatch env st a = .exit EXIT_FAILURE evs := by
  cases a with
  | arch p =>
    simp [Arg.unresolved] at h
    exact ⟨[.print_error (.unrecognized "architecture" p)],
      by simp [dispatch, opt_arch_handler, h.1, h.2]⟩
  | parser p =>
    simp [Arg.unresolved] at h
    exact ⟨[.print_error (.unrecognized "parser" p)],
      by simp [dispatch, opt_parser_handler, h.1, h.2]⟩
  | preproc p =>
    simp [Arg.unresolved] at h
    exact ⟨[.print_error (.unrecognized "preprocessor" p)],
      by simp [dispatch, opt_preproc_handler, h.1, h.2]⟩
  | oformat p =>
    simp [Arg.unresolved] at h
    exact ⟨[.print_error (.unrecognized "object format" p)],
      by simp [dispatch, opt_objfmt_handler, h.1, h.2]⟩
  | dformat p =>
    simp [Arg.unresolved] at h
    exact ⟨[.print_error (.unrecognized "debug format" p)],
      by simp [dispatch, opt_dbgfmt_handler, h.1, h.2]⟩
  | _ => simp [Arg.unresolved] at h

theorem parse_cmdline_unresolved (env : Env) (a : Arg) (post : List Arg)
    (h : a.unresolved env = true) (pre : List Arg) :
    ∀ (st : State) (n : Nat),
      parse_cmdline env (pre ++ a :: post) st n = parse_cmdline env (pre ++ [a]) st n ∧
      ∃ evs, parse_cmdline env (pre ++ a :: post) st n = .exited EXIT_FAILURE evs := by
  induction pre with
  | nil =>
    intro st n
    obtain ⟨evs, he⟩ := dispatch_unresolved env st a h
    simp only [List.nil_append, parse_cmdline, he]
    exact ⟨trivial, evs, rfl⟩
  | cons b pre ih =>
    intro st n
    have e1 : parse_cmdline env (b :: pre ++ a :: post) st n =
        match dispatch env st b with
        | .exit status evs => .exited status evs
        | .ret code st2 evs =>
          Cmdline.emit
            (decoder_events b ++ evs ++
              if code ≠ 0 then [.print_error .warn_unrecognized_option] else [])
            (parse_cmdline env (pre ++ a :: post) st2 (n + decoder_errors b)) := by
      rw [List.cons_append, parse_cmdline]
    have e2 : parse_cmdline env (b :: pre ++ [a]) st n =
        match dispatch env st b with
        | .exit status evs => .exited status evs
        | .ret code st2 evs =>
          Cmdline.emit
            (decoder_events b ++ evs ++
              if code ≠ 0 then [.print_error .warn_unrecognized_option] else [])
            (parse_cmdline env (pre ++ [a]) st2 (n + decoder_errors b)) := by
      rw [List.cons_append, parse_cmdline]
    rw [e1, e2]
    cases hd : dispatch env st b with
    | exit s ev1 =>
      obtain ⟨hs, -, -⟩ := dispatch_exit env st b s ev1 hd
      subst hs
      exact ⟨rfl, ev1, rfl⟩
    | ret code st2 evs1 =>
      obtain ⟨h1, evs, h2⟩ := ih st2 (n + decoder_errors b)
      simp only
      rw [← h1, h2]
      exact ⟨rfl, _, rfl⟩

theorem dispatch_keeps_listed (env : Env) (st st2 : State) (a : Arg) (code : Nat)
    (evs : List Event) (h : dispatch env st a = .ret code st2 evs)
    (hs : st.special_options = SPECIAL_LISTED) : st2.special_options = SPECIAL_LISTED := by
  cases a <;> simp only [dispatch, opt_special_handler, opt_arch_handler, opt_parser_handler,
    opt_preproc_handler, opt_objfmt_handler, opt_dbgfmt_handler, opt_objfile_handler,
    opt_machine_handler, opt_warning_handler, preproc_only_handler, opt_preproc_include_path,
    opt_preproc_include_file, not_an_option_handler] at h
  all_goals (repeat' split at h)
  all_goals cases h
  all_goals (first | exact hs | rfl | (rw [hs] at *; contradiction))

theorem dispatch_help (env : Env) (st st2 : State) (a : Arg) (code : Nat)
    (evs : List Event) (w : String) (h : dispatch env st a = .ret code st2 evs)
    (hw : a.help_listing env = some w) :
    st2.special_options = SPECIAL_LISTED ∧ Event.list_modules w ∈ evs := by
  cases a <;> simp [Arg.help_listing] at hw
  all_goals obtain ⟨⟨h1, h2⟩, h3⟩ := hw
  all_goals subst h1 h3
  · simp [dispatch, opt_arch_handler, h2] at h
    obtain ⟨-, rfl, rfl⟩ := h
    simp
  · simp [dispatch, opt_parser_handler, h2] at h
    obtain ⟨-, rfl, rfl⟩ := h
    simp
  · simp [dispatch, opt_preproc_handler, h2] at h
    obtain ⟨-, rfl, rfl⟩ := h
    simp
  · simp [dispatch, opt_objfmt_handler, h2] at h
    obtain ⟨-, rfl, rfl⟩ := h
    simp
  · simp [dispatch, opt_dbgfmt_handler, h2] at h
    obtain ⟨-, rfl, rfl⟩ := h
    simp

theorem parse_cmdline_listed (env : Env) (argv : List Arg) :
    ∀ (st st' : State) (n errors : Nat) (evs : List Event),
      parse_cmdline env argv st n = .done st' errors evs →
      (st.special_options = SPECIAL_LISTED → st'.special_options = SPECIAL_LISTED) ∧
      ∀ a ∈ argv, ∀ w, a.help_listing env = some w →
        st'.special_options = SPECIAL_LISTED ∧ Event.list_modules w ∈ evs := by
  induction argv with
  | nil =>
    intro st st' n errors evs h
    simp only [parse_cmdline] at h
    injection h with h1 h2 h3
    subst h1
    exact ⟨fun h => h, by simp⟩
  | cons b rest ih =>
    intro st st' n errors evs h
    obtain ⟨code, st2, evs1, evs2, hd, hr, rfl⟩ := parse_cmdline_cons_done h
    obtain ⟨ih1, ih2⟩ := ih st2 st' _ errors evs2 hr
    refine ⟨fun hs => ih1 (dispatch_keeps_listed env st st2 b code evs1 hd hs), ?_⟩
    intro a ha w hw
    rcases List.mem_cons.mp ha with rfl | ha
    · obtain ⟨h1, h2⟩ := dispatch_help env st st2 a code evs1 w hd hw
      refine ⟨ih1 h1, ?_⟩
      simp only [List.mem_append]
      exact Or.inl (Or.inl (Or.inr h2))
    · obtain ⟨h1, h2⟩ := ih2 a ha w hw
      exact ⟨h1, List.mem_append.mpr (Or.inr h2)⟩

/-- C1, as amended. In a run where preprocess-only mode was not requested and
either the selected debug format is in no entry (ignoring case) of the resolved
object format's allow-list, or the selected preprocessor is in no entry of the
resolved parser's allow-list: `do_parse` is never invoked and `open_obj` is
never called; and, unless help, version or a module list was requested
(`special_options` nonzero) or the machine list is printed (machine name
`help`, turned down by the architecture), the process ends with status
`EXIT_FAILURE` (by `return` from `main`, or by `exit` in
`check_module_version`). -/
theorem C1_rejected_selection_never_parsed (env : Env) (argv : List Arg) (st : State)
    (errors : Nat) (evs : List Event)
    (hcmd : parse_cmdline env argv State.initial 0 = .done st errors evs)
    (hfull : st.preproc_only = 0)
    (hrej : dbgfmt_rejected env st = true ∨ preproc_rejected env st = true) :
    (∀ e ∈ (main env argv).trace, e.is_do_parse = false ∧ e.is_open_obj = false) ∧
    (st.special_options = 0 → machine_listing env st = false →
      (main env argv).outcome.status = EXIT_FAILURE) := by
  rcases main_structure env argv st errors evs hcmd with hA | ⟨-, hB⟩ | ⟨hp, -⟩
  · refine ⟨fun e he => ?_, fun hs hm => ?_⟩
    · have := setup_not_late e (hA.2 e he).1
      exact ⟨this.1, this.2.1⟩
    · rcases hA.1 with h | h | h
      · exact h
      · exact absurd hs h
      · rw [hm] at h
        cases h.2
  · obtain ⟨_, _, _, arch, optimizer, objfmt, dbgfmt, psr, pp, pre, -, hres, -, -⟩ := hB
    rcases hrej with h | h
    · rw [hres.dbgfmt_allowed] at h
      cases h
    · rw [hres.preproc_allowed] at h
      cases h
  · exact absurd hfull hp

/-- Witness of C1 (amended): `yasm -g dwarf2 a.asm` with the default object
format `bin`, which allows only `null`. -/
theorem C1_rejected_selection_never_parsed_witness :
    parse_cmdline sample_env [.dformat "dwarf2", .file "a.asm"] State.initial 0
      = .done { State.initial with
                cur_dbgfmt := some sample_dwarf2, in_filename := some "a.asm" } 0 [] ∧
    dbgfmt_rejected sample_env { State.initial with
                cur_dbgfmt := some sample_dwarf2, in_filename := some "a.asm" } = true ∧
    (∀ e ∈ (main sample_env [.dformat "dwarf2", .file "a.asm"]).trace,
      e.is_do_parse = false ∧ e.is_open_obj = false) ∧
    (main sample_env [.dformat "dwarf2", .file "a.asm"]).outcome.status = EXIT_FAILURE :=
  ⟨rfl, by decide,
   (C1_rejected_selection_never_parsed sample_env [.dformat "dwarf2", .file "a.asm"]
      { State.initial with cur_dbgfmt := some sample_dwarf2, in_filename := some "a.asm" }
      0 [] rfl rfl (Or.inl (by decide))).1,
   (C1_rejected_selection_never_parsed sample_env [.dformat "dwarf2", .file "a.asm"]
      { State.initial with cur_dbgfmt := some sample_dwarf2, in_filename := some "a.asm" }
      0 [] rfl rfl (Or.inl (by decide))).2 rfl (by decide)⟩

/-- Counterexample to C1 as stated: `yasm -g dwarf2 -m help`. Preprocess-only
mode is not requested, the selected debug format `dwarf2` is not in the
allow-list of the resolved object format `bin`, and yet `main` prints the
machine list and returns `EXIT_SUCCESS`. -/
theorem C1_counterexample :
    parse_cmdline sample_env [.dformat "dwarf2", .machine "help"] State.initial 0
      = .done { State.initial with
                cur_dbgfmt := some sample_dwarf2, machine_name := some "help" } 0 [] ∧
    ({ State.initial with
        cur_dbgfmt := some sample_dwarf2, machine_name := some "help" } : State).preproc_only
      = 0 ∧
    dbgfmt_rejected sample_env { State.initial with
        cur_dbgfmt := some sample_dwarf2, machine_name := some "help" } = true ∧
    (main sample_env [.dformat "dwarf2", .machine "help"]).outcome
      = .returned EXIT_SUCCESS ∧
    (main sample_env [.dformat "dwarf2", .machine "help"]).outcome ≠ .returned EXIT_FAILURE :=
  ⟨rfl, rfl, by decide, by decide, by decide⟩

/-- C3, as amended. In a run that got past command-line processing without a
help, version or module-list request: in full assembly, if a module `main`
settles on (architecture, optimizer, object format, debug format, parser,
preprocessor) has a version other than the expected one, the process ends with
status `EXIT_FAILURE`, unless the machine list is printed first; in
preprocess-only mode only the preprocessor is checked, and if its version is
not the expected one the process ends with status `EXIT_FAILURE`. -/
theorem C3_version_gate (env : Env) (argv : List Arg) (st : State)
    (errors : Nat) (evs : List Event)
    (hcmd : parse_cmdline env argv State.initial 0 = .done st errors evs)
    (hspecial : st.special_options = 0) :
    (st.preproc_only = 0 → machine_listing env st = false →
      version_mismatch env st = true →
      (main env argv).outcome.status = EXIT_FAILURE) ∧
    (st.preproc_only ≠ 0 →
      (∃ p, resolve_preproc_only env st = some p ∧ p.version ≠ env.YASM_PREPROC_VERSION) →
      (main env argv).outcome.status = EXIT_FAILURE) := by
  rcases main_structure env argv st errors evs hcmd with hA | ⟨hfull, hB⟩ | ⟨hp, hC⟩
  · refine ⟨fun hfull hm _ => ?_, fun hp _ => ?_⟩
    · rcases hA.1 with h | h | h
      · exact h
      · exact absurd hspecial h
      · rw [hm] at h
        cases h.2
    · rcases hA.1 with h | h | h
      · exact h
      · exact absurd hspecial h
      · exact absurd h.1 hp
  · obtain ⟨_, _, _, arch, optimizer, objfmt, dbgfmt, psr, pp, pre, -, hres, -, -⟩ := hB
    refine ⟨fun _ _ hv => ?_, fun hp _ => absurd hfull hp⟩
    rw [resolved_no_mismatch hres] at hv
    cases hv
  · refine ⟨fun hfull => absurd hfull hp, fun _ hbad => ?_⟩
    obtain ⟨in_file, in_filename, ievs, pre, -, -, heq⟩ := hC
    obtain ⟨p, hpe, hpv⟩ := hbad
    rw [heq, emit_outcome]
    rcases main_preproc_only_cases env st in_file in_filename with
      ⟨f, -, -, h⟩ | ⟨-, ⟨-, h⟩ | ⟨pp, hpp, ⟨-, h⟩ | ⟨hv, -, -⟩ | ⟨hv, -, -⟩⟩⟩
    · rw [h]; rfl
    · rw [h]; rfl
    · rw [h]; rfl
    · rw [hpe] at hpp
      cases hpp
      exact absurd hv hpv
    · rw [hpe] at hpp
      cases hpp
      exact absurd hv hpv

/-- Witness of C3 (amended): `yasm -a oldarch a.asm` and `yasm -e -r oldpp`,
where the modules `oldarch` and `oldpp` have version 0 and version 1 is
expected. -/
theorem C3_version_gate_witness :
    (parse_cmdline sample_env [.arch "oldarch", .file "a.asm"] State.initial 0
      = .done { State.initial with
                cur_arch := some sample_oldarch, in_filename := some "a.asm" } 0 [] ∧
    version_mismatch sample_env { State.initial with
                cur_arch := some sample_oldarch, in_filename := some "a.asm" } = true ∧
    (main sample_env [.arch "oldarch", .file "a.asm"]).outcome.status = EXIT_FAILURE) ∧
    (parse_cmdline sample_env [.preproc_only, .preproc "oldpp"] State.initial 0
      = .done { State.initial with
                preproc_only := 1, cur_preproc := some sample_oldpp } 0 [] ∧
    (main sample_env [.preproc_only, .preproc "oldpp"]).outcome.status = EXIT_FAILURE) :=
  ⟨⟨rfl, by decide,
    (C3_version_gate sample_env [.arch "oldarch", .file "a.asm"]
      { State.initial with cur_arch := some sample_oldarch, in_filename := some "a.asm" }
      0 [] rfl rfl).1 rfl (by decide) (by decide)⟩,
   ⟨rfl,
    (C3_version_gate sample_env [.preproc_only, .preproc "oldpp"]
      { State.initial with preproc_only := 1, cur_preproc := some sample_oldpp }
      0 [] rfl rfl).2 (by decide) ⟨sample_oldpp, rfl, by decide⟩⟩⟩

/-- Counterexample to C3 as stated: `yasm -e -a oldarch`. The run gets past
command-line processing, the architecture selected on the command line has
version 0 where 1 is expected, and `main` returns `EXIT_SUCCESS`: preprocess-only
mode never looks at the architecture. -/
theorem C3_counterexample :
    parse_cmdline sample_env [.preproc_only, .arch "oldarch"] State.initial 0
      = .done { State.initial with
                preproc_only := 1, cur_arch := some sample_oldarch } 0 [] ∧
    sample_oldarch.version ≠ sample_env.YASM_ARCH_VERSION ∧
    (main sample_env [.preproc_only, .arch "oldarch"]).outcome = .returned EXIT_SUCCESS :=
  ⟨rfl, by decide, by decide⟩

/-- C2, as amended. In a run in which no preprocessor was selected on the
command line: in full assembly the preprocessor handed to `do_parse` is the
one `load_preproc` returns for the resolved parser's
`default_preproc_keyword`; in preprocess-only mode the preprocessor that is
initialized is the one `load_preproc` returns for `nasm`, whatever the parser;
in neither mode is a preprocessor turned down by the allow-list. -/
theorem C2_default_preproc (env : Env) (argv : List Arg) (st : State)
    (errors : Nat) (evs : List Event)
    (hcmd : parse_cmdline env argv State.initial 0 = .done st errors evs)
    (hnone : st.cur_preproc = none) :
    (∀ pp psr arch objfmt f, Event.do_parse pp psr arch objfmt f ∈ (main env argv).trace →
      st.preproc_only = 0 ∧
      ∃ q, resolve_psr env st = some q ∧
        env.load_preproc q.default_preproc_keyword = some pp) ∧
    (∀ pp f, Event.preproc_init pp f ∈ (main env argv).trace →
      st.preproc_only ≠ 0 ∧ env.load_preproc "nasm" = some pp) ∧
    (∀ e ∈ (main env argv).trace, e.is_preproc_rejection = false) := by
  have hearly : ∀ e : Event, e.early env st →
      (∀ pp a b c d, e ≠ .do_parse pp a b c d) ∧ (∀ pp f, e ≠ .preproc_init pp f) ∧
        e.is_preproc_rejection = false := by
    intro e he
    refine ⟨?_, ?_, ?_⟩
    · intro pp a b c d h
      subst h
      cases he.1
    · intro pp f h
      subst h
      cases he.1
    · cases hr : e.is_preproc_rejection
      · rfl
      · exact absurd hnone (he.2.2 hr)
  rcases main_structure env argv st errors evs hcmd with hA | ⟨hfull, hB⟩ | ⟨hp, hC⟩
  · refine ⟨fun pp a b c d he => ?_, fun pp f he => ?_, fun e he => ?_⟩
    · exact absurd rfl ((hearly _ (hA.2 _ he)).1 pp a b c d)
    · exact absurd rfl ((hearly _ (hA.2 _ he)).2.1 pp f)
    · exact (hearly _ (hA.2 _ he)).2.2
  · obtain ⟨in_file, in_filename, ievs, arch, optimizer, objfmt, dbgfmt, psr, pp0, pre, -, hres,
      hpre, heq⟩ := hB
    rw [heq, emit_trace]
    refine ⟨fun pp a b c d he => ?_, fun pp f he => ?_, fun e he => ?_⟩
    · rcases List.mem_append.mp he with he | he
      · exact absurd rfl ((hearly _ (hpre _ he)).1 pp a b c d)
      · have h1 := (main_pipeline_do_parse env st in_file in_filename arch optimizer objfmt
          dbgfmt _ psr pp0 _ he).1 pp a b c d rfl
        subst h1
        have h2 := hres.preproc_eq
        unfold resolve_preproc at h2
        rw [hnone, hres.psr_eq] at h2
        exact ⟨hfull, psr, hres.psr_eq, h2⟩
    · rcases List.mem_append.mp he with he | he
      · exact absurd rfl ((hearly _ (hpre _ he)).2.1 pp f)
      · exact absurd rfl ((main_pipeline_do_parse env st in_file in_filename arch optimizer
          objfmt dbgfmt _ psr pp0 _ he).2 pp f)
    · rcases List.mem_append.mp he with he | he
      · exact (hearly _ (hpre _ he)).2.2
      · exact (main_pipeline_no_validation_msg env st in_file in_filename arch optimizer
          objfmt dbgfmt _ psr pp0 _ he).2
  · obtain ⟨in_file, in_filename, ievs, pre, -, hpre, heq⟩ := hC
    rw [heq, emit_trace]
    refine ⟨fun pp a b c d he => ?_, fun pp f he => ?_, fun e he => ?_⟩
    · rcases List.mem_append.mp he with he | he
      · exact absurd rfl ((hearly _ (hpre _ he)).1 pp a b c d)
      · have := (main_preproc_only_props env st in_file in_filename _ he).1
        cases this
    · rcases List.mem_append.mp he with he | he
      · exact absurd rfl ((hearly _ (hpre _ he)).2.1 pp f)
      · have := (main_preproc_only_props env st in_file in_filename _ he).2.2.2.2.2 pp f rfl
        unfold resolve_preproc_only at this
        rw [hnone] at this
        exact ⟨hp, this⟩
    · rcases List.mem_append.mp he with he | he
      · exact (hearly _ (hpre _ he)).2.2
      · exact (main_preproc_only_props env st in_file in_filename _ he).2.2.2.1

/-- Witness of C2 (amended): `yasm -p gas a.asm`, where parser `gas` has the
default preprocessor `raw`. The run gets to `do_parse`, with the `raw`
preprocessor. -/
theorem C2_default_preproc_witness :
    parse_cmdline sample_env [.parser "gas", .file "a.asm"] State.initial 0
      = .done { State.initial with
                curParser := some sample_gas, in_filename := some "a.asm" } 0 [] ∧
    Event.do_parse sample_raw_pp "gas" "x86" "bin" "a.asm"
      ∈ (main sample_env [.parser "gas", .file "a.asm"]).trace ∧
    (∃ q, resolve_psr sample_env { State.initial with
                curParser := some sample_gas, in_filename := some "a.asm" } = some q ∧
        sample_env.load_preproc q.default_preproc_keyword = some sample_raw_pp) ∧
    (∀ e ∈ (main sample_env [.parser "gas", .file "a.asm"]).trace,
      e.is_preproc_rejection = false) :=
  ⟨rfl, by decide,
   ((C2_default_preproc sample_env [.parser "gas", .file "a.asm"]
      { State.initial with curParser := some sample_gas, in_filename := some "a.asm" }
      0 [] rfl rfl).1 sample_raw_pp "gas" "x86" "bin" "a.asm" (by decide)).2,
   (C2_default_preproc sample_env [.parser "gas", .file "a.asm"]
      { State.initial with curParser := some sample_gas, in_filename := some "a.asm" }
      0 [] rfl rfl).2.2⟩

/-- Counterexample to C2 as stated: `yasm -e -p gas a.asm`. No preprocessor is
selected, the resolved parser `gas` has `default_preproc_keyword` `raw`, for
which `load_preproc` returns the `raw` module, and yet the preprocessor that
is initialized and used is `nasm`. -/
theorem C2_counterexample :
    parse_cmdline sample_env [.preproc_only, .parser "gas", .file "a.asm"] State.initial 0
      = .done { State.initial with preproc_only := 1, curParser := some sample_gas,
                                   in_filename := some "a.asm" } 0 [] ∧
    resolve_psr sample_env
      { State.initial with preproc_only := 1, curParser := some sample_gas,
                           in_filename := some "a.asm" } = some sample_gas ∧
    sample_env.load_preproc sample_gas.default_preproc_keyword = some sample_raw_pp ∧
    Event.preproc_init sample_nasm_pp "a.asm"
      ∈ (main sample_env [.preproc_only, .parser "gas", .file "a.asm"]).trace ∧
    Event.preproc_init sample_raw_pp "a.asm"
      ∉ (main sample_env [.preproc_only, .parser "gas", .file "a.asm"]).trace ∧
    sample_nasm_pp ≠ sample_raw_pp :=
  ⟨rfl, by decide, by decide, by decide, by decide, by decide⟩

/-- C4. In a full-assembly run in which no debug format was selected on the
command line, if `load_dbgfmt("null")` returns a module of the expected
version, then whatever the object format and its allow-list, debug-format
validation (lines 436-464 of `main`) falls through with that module and
prints nothing, the debug format `main` settles on is that module, and no
failure of debug-format validation is reported anywhere in the run. -/
theorem C4_default_dbgfmt_bypasses_allow_list (env : Env) (argv : List Arg) (st : State)
    (errors : Nat) (evs : List Event) (d : Dbgfmt)
    (hcmd : parse_cmdline env argv State.initial 0 = .done st errors evs)
    (hfull : st.preproc_only = 0)
    (hnone : st.cur_dbgfmt = none)
    (hnull : env.load_dbgfmt "null" = some d)
    (hversion : d.version = env.YASM_DBGFMT_VERSION) :
    (∀ (in_file : Bool) (objfmt : Objfmt),
      main_dbgfmt env in_file objfmt st.cur_dbgfmt = .ok d []) ∧
    resolve_dbgfmt env st = some d ∧
    (∀ e ∈ (main env argv).trace, e.is_dbgfmt_failure = false) := by
  have hcf : ¬ dbgfmt_can_fail env st := fun h => h ⟨hnone, d, hnull, hversion⟩
  have hearly : ∀ e : Event, e.early env st → e.is_dbgfmt_failure = false := by
    intro e he
    cases hr : e.is_dbgfmt_failure
    · rfl
    · exact absurd (he.2.1 hr) hcf
  refine ⟨fun in_file objfmt => ?_, ?_, ?_⟩
  · simp [main_dbgfmt, hnone, hnull, check_module_version, hversion]
  · simp [resolve_dbgfmt, hnone, hnull]
  · rcases main_structure env argv st errors evs hcmd with hA | ⟨-, hB⟩ | ⟨hp, -⟩
    · exact fun e he => hearly e (hA.2 e he)
    · obtain ⟨in_file, in_filename, ievs, arch, optimizer, objfmt, dbgfmt, psr, pp0, pre, -,
        hres, hpre, heq⟩ := hB
      rw [heq, emit_trace]
      intro e he
      rcases List.mem_append.mp he with he | he
      · exact hearly e (hpre e he)
      · exact (main_pipeline_no_validation_msg env st in_file in_filename arch optimizer
          objfmt dbgfmt _ psr pp0 _ he).1
    · exact absurd hfull hp

/-- Witness of C4: `yasm -f noallow a.asm`, an object format with an empty
allow-list, and no `-g`. -/
theorem C4_default_dbgfmt_bypasses_allow_list_witness :
    parse_cmdline sample_env [.oformat "noallow", .file "a.asm"] State.initial 0
      = .done { State.initial with
                cur_objfmt := some sample_noallow, in_filename := some "a.asm" } 0 [] ∧
    sample_env.load_dbgfmt "null" = some sample_null ∧
    sample_null.version = sample_env.YASM_DBGFMT_VERSION ∧
    sample_noallow.dbgfmt_keywords = [] ∧
    main_dbgfmt sample_env true sample_noallow none = .ok sample_null [] ∧
    (∀ e ∈ (main sample_env [.oformat "noallow", .file "a.asm"]).trace,
      e.is_dbgfmt_failure = false) ∧
    (main sample_env [.oformat "noallow", .file "a.asm"]).outcome = .returned EXIT_SUCCESS :=
  ⟨rfl, rfl, rfl, rfl,
   (C4_default_dbgfmt_bypasses_allow_list sample_env [.oformat "noallow", .file "a.asm"]
      { State.initial with cur_objfmt := some sample_noallow, in_filename := some "a.asm" }
      0 [] sample_null rfl rfl rfl rfl rfl).1 true sample_noallow,
   (C4_default_dbgfmt_bypasses_allow_list sample_env [.oformat "noallow", .file "a.asm"]
      { State.initial with cur_objfmt := some sample_noallow, in_filename := some "a.asm" }
      0 [] sample_null rfl rfl rfl rfl rfl).2.2,
   by decide⟩

/-- C5. For each of the five category option handlers and every keyword other
than `help` that the loader of the category does not resolve, the handler
prints the "unrecognized" message and calls `exit(EXIT_FAILURE)`. In `main`, a
command line holding such a selector therefore ends with status
`EXIT_FAILURE`, with the same run whatever options follow the selector (none
of them is processed), and having done nothing but print messages and lists:
no input is opened or read and no output file is opened or written. -/
theorem C5_unresolved_keyword_exits (env : Env) (st : State) (param : String)
    (hhelp : param ≠ "help") :
    (env.load_arch param = none → opt_arch_handler env st param
        = .exit EXIT_FAILURE [.print_error (.unrecognized "architecture" param)]) ∧
    (env.loadParser param = none → opt_parser_handler env st param
        = .exit EXIT_FAILURE [.print_error (.unrecognized "parser" param)]) ∧
    (env.load_preproc param = none → opt_preproc_handler env st param
        = .exit EXIT_FAILURE [.print_error (.unrecognized "preprocessor" param)]) ∧
    (env.load_objfmt param = none → opt_objfmt_handler env st param
        = .exit EXIT_FAILURE [.print_error (.unrecognized "object format" param)]) ∧
    (env.load_dbgfmt param = none → opt_dbgfmt_handler env st param
        = .exit EXIT_FAILURE [.print_error (.unrecognized "debug format" param)]) ∧
    (∀ (pre post : List Arg) (a : Arg), a.unresolved env = true →
      main env (pre ++ a :: post) = main env (pre ++ [a]) ∧
      (main env (pre ++ a :: post)).outcome.status = EXIT_FAILURE ∧
      ∀ e ∈ (main env (pre ++ a :: post)).trace, e.is_message = true) := by
  refine ⟨fun h => ?_, fun h => ?_, fun h => ?_, fun h => ?_, fun h => ?_, ?_⟩
  · simp [opt_arch_handler, h, hhelp]
  · simp [opt_parser_handler, h, hhelp]
  · simp [opt_preproc_handler, h, hhelp]
  · simp [opt_objfmt_handler, h, hhelp]
  · simp [opt_dbgfmt_handler, h, hhelp]
  · intro pre post a ha
    obtain ⟨h1, evs, h2⟩ := parse_cmdline_unresolved env a post ha pre State.initial 0
    refine ⟨?_, ?_, ?_⟩
    · unfold main
      rw [h1]
    · unfold main
      rw [h2]
      split <;> rfl
    · have hev := (parse_cmdline_exited_events env _ _ _ _ _ h2).2
      unfold main
      rw [h2]
      split
      · intro e he
        simp at he
        subst he
        rfl
      · intro e he
        exact message_of_cmdline e (hev e he)

/-- Witness of C5: `yasm -f bogus -o out.o a.asm`; no object format `bogus` is
registered. -/
theorem C5_unresolved_keyword_exits_witness :
    sample_env.load_objfmt "bogus" = none ∧
    opt_objfmt_handler sample_env State.initial "bogus"
      = .exit EXIT_FAILURE [.print_error (.unrecognized "object format" "bogus")] ∧
    main sample_env ([] ++ .oformat "bogus" :: [.objfile "out.o", .file "a.asm"])
      = main sample_env ([] ++ [.oformat "bogus"]) ∧
    (main sample_env ([] ++ .oformat "bogus" :: [.objfile "out.o", .file "a.asm"])).outcome
      = .exited EXIT_FAILURE :=
  ⟨rfl,
   (C5_unresolved_keyword_exits sample_env State.initial "bogus" (by decide)).2.2.2.1 rfl,
   ((C5_unresolved_keyword_exits sample_env State.initial "bogus" (by decide)).2.2.2.2.2
      [] [.objfile "out.o", .file "a.asm"] (.oformat "bogus") (by decide)).1,
   by decide⟩

/-- C6, as amended. When the module loader was set up, the loader of the
category does not resolve `help`, command-line processing runs to its end (no
handler calls `exit`: every other selector names a keyword its loader resolves
or is itself a `help` request) and the decoder counts no error: for every
category selector given `help`, the list of that category is printed, `main`
returns `EXIT_SUCCESS`, and the run consists of command-line processing alone
(messages, lists and warning switches), with no further pipeline stage. -/
theorem C6_help_lists_and_succeeds (env : Env) (argv : List Arg) (st : State)
    (errors : Nat) (evs : List Event) (a : Arg) (what : String)
    (hloader : loader_errors env = 0)
    (hcmd : parse_cmdline env argv State.initial 0 = .done st errors evs)
    (herrors : errors = 0)
    (ha : a ∈ argv)
    (hlist : a.help_listing env = some what) :
    Event.list_modules what ∈ (main env argv).trace ∧
    (main env argv).outcome = .returned EXIT_SUCCESS ∧
    (main env argv).trace = evs ∧
    ∀ e ∈ (main env argv).trace, e.is_cmdline = true := by
  obtain ⟨hs, hm⟩ := (parse_cmdline_listed env argv _ _ _ _ _ hcmd).2 a ha what hlist
  have hmain : main env argv = ⟨.returned EXIT_SUCCESS, evs⟩ := by
    unfold main
    rw [hcmd]
    dsimp only
    rw [if_neg (not_not.mpr hloader), if_neg (not_not.mpr herrors)]
    unfold main_after_cmdline
    rw [hs]
    simp [SPECIAL_LISTED, SPECIAL_SHOW_HELP, SPECIAL_SHOW_VERSION, emit]
  rw [hmain]
  exact ⟨hm, rfl, rfl, parse_cmdline_done_events env argv _ _ _ _ _ hcmd⟩

/-- Witness of C6 (amended): `yasm -f elf -a help -o out.o a.asm`. -/
theorem C6_help_lists_and_succeeds_witness :
    loader_errors sample_env = 0 ∧
    parse_cmdline sample_env
        [.oformat "elf", .arch "help", .objfile "out.o", .file "a.asm"] State.initial 0
      = .done { State.initial with
                cur_objfmt := some sample_elf, special_options := SPECIAL_LISTED,
                obj_filename := some "out.o", in_filename := some "a.asm" }
          0 [.list_modules "architectures"] ∧
    Arg.help_listing sample_env (.arch "help") = some "architectures" ∧
    Event.list_modules "architectures" ∈ (main sample_env
        [.oformat "elf", .arch "help", .objfile "out.o", .file "a.asm"]).trace ∧
    (main sample_env [.oformat "elf", .arch "help", .objfile "out.o", .file "a.asm"]).outcome
      = .returned EXIT_SUCCESS ∧
    (main sample_env [.oformat "elf", .arch "help", .objfile "out.o", .file "a.asm"]).trace
      = [.list_modules "architectures"] :=
  ⟨rfl, rfl, rfl,
   (C6_help_lists_and_succeeds sample_env
      [.oformat "elf", .arch "help", .objfile "out.o", .file "a.asm"]
      { State.initial with
        cur_objfmt := some sample_elf, special_options := SPECIAL_LISTED,
        obj_filename := some "out.o", in_filename := some "a.asm" }
      0 [.list_modules "architectures"] (.arch "help") "architectures" rfl rfl rfl
      (by decide) rfl).1,
   (C6_help_lists_and_succeeds sample_env
      [.oformat "elf", .arch "help", .objfile "out.o", .file "a.asm"]
      { State.initial with
        cur_objfmt := some sample_elf, special_options := SPECIAL_LISTED,
        obj_filename := some "out.o", in_filename := some "a.asm" }
      0 [.list_modules "architectures"] (.arch "help") "architectures" rfl rfl rfl
      (by decide) rfl).2.1,
   (C6_help_lists_and_succeeds sample_env
      [.oformat "elf", .arch "help", .objfile "out.o", .file "a.asm"]
      { State.initial with
        cur_objfmt := some sample_elf, special_options := SPECIAL_LISTED,
        obj_filename := some "out.o", in_filename := some "a.asm" }
      0 [.list_modules "architectures"] (.arch "help") "architectures" rfl rfl rfl
      (by decide) rfl).2.2.1⟩

/-- Counterexample to C6 as stated: `yasm -a help -f bogus`. The selector `-a`
is given `help`, which no architecture module is named; the architectures are
listed, but the following `-f bogus` ends the process with `EXIT_FAILURE`, not
with status 0. -/
theorem C6_counterexample :
    Arg.help_listing sample_env (.arch "help") = some "architectures" ∧
    (main sample_env [.arch "help", .oformat "bogus"]).outcome = .exited EXIT_FAILURE ∧
    (main sample_env [.arch "help", .oformat "bogus"]).outcome.status ≠ 0 ∧
    (main sample_env [.arch "help", .oformat "bogus"]).trace
      = [.list_modules "architectures",
         .print_error (.unrecognized "object format" "bogus")] :=
  ⟨rfl, by decide, by decide, by decide⟩

theorem early_not_late {env : Env} {st : State} {l : List Event}
    (h : ∀ e ∈ l, e.early env st) :
    ∀ e ∈ l, e.is_do_parse = false ∧ e.is_open_obj = false ∧ e.is_optimize = false ∧
      e.is_objfmt_output = false ∧ e.is_remove = false :=
  fun e he => setup_not_late e (h e he).1

/-- What the error gates of `main_pipeline` guarantee of its own run. -/
theorem main_pipeline_gates (env : Env) (st : State) (in_file : Bool)
    (in_filename : String) (arch : Arch) (optimizer : Optimizer) (objfmt : Objfmt)
    (dbgfmt : Dbgfmt) (obj_filename : String) (psr : Parser) (pp : Preproc) :
    let r := main_pipeline env st in_file in_filename arch optimizer objfmt dbgfmt
      obj_filename psr pp
    ((∃ e ∈ r.trace, e.is_objfmt_output = true) →
      yasm_get_num_errors env.diag_after_parse st.warning_error = 0 ∧
      yasm_get_num_errors env.diag_after_optimize st.warning_error = 0) ∧
    (yasm_get_num_errors env.diag_after_parse st.warning_error ≠ 0 →
      r.outcome = .returned EXIT_FAILURE ∧
      ∀ e ∈ r.trace, e.is_open_obj = false ∧ e.is_optimize = false ∧
        e.is_objfmt_output = false) ∧
    ((∃ e ∈ r.trace, e.is_optimize = true) →
      yasm_get_num_errors env.diag_after_optimize st.warning_error ≠ 0 →
      r.outcome = .returned EXIT_FAILURE ∧
      ∀ e ∈ r.trace, e.is_open_obj = false ∧ e.is_objfmt_output = false) := by
  intro r
  rcases main_pipeline_cases env st in_file in_filename arch optimizer objfmt dbgfmt
      obj_filename psr pp with ⟨h1, h⟩ | ⟨h1, h2, h⟩ | ⟨h1, h2, -, -, h⟩ |
      ⟨h1, h2, -, obj, -, h⟩ | ⟨h1, h2, -, obj, -, h⟩
  · simp only [r]
    rw [h]
    have h1' : yasm_get_num_errors env.diag_after_parse st.warning_error ≠ 0 := by omega
    refine ⟨?_, ?_, ?_⟩ <;> cases in_file <;>
      simp [Event.is_open_obj, Event.is_optimize, Event.is_objfmt_output]
  · simp only [r]
    rw [h]
    have h2' : yasm_get_num_errors env.diag_after_optimize st.warning_error ≠ 0 := by omega
    refine ⟨?_, fun hc => absurd h1 hc, ?_⟩ <;> cases in_file <;>
      simp [Event.is_open_obj, Event.is_optimize, Event.is_objfmt_output]
  · simp only [r]
    rw [h]
    refine ⟨fun _ => ⟨h1, h2⟩, fun hc => absurd h1 hc, fun _ hc => absurd h2 hc⟩
  · simp only [r]
    rw [h]
    refine ⟨fun _ => ⟨h1, h2⟩, fun hc => absurd h1 hc, fun _ hc => absurd h2 hc⟩
  · simp only [r]
    rw [h]
    refine ⟨fun _ => ⟨h1, h2⟩, fun hc => absurd h1 hc, fun _ hc => absurd h2 hc⟩

/-- C7. In a run of `main` whose command-line processing left the variables
`st`: the object format's `output` hook is invoked only if
`yasm_get_num_errors(warning_error)` was 0 both after `do_parse` and after
`optimize`; if `do_parse` was invoked and the count after it is nonzero,
`main` returns `EXIT_FAILURE`, `open_obj` is not called, and neither the
optimizer nor the `output` hook is invoked; if `optimize` was invoked and the
count after it is nonzero, `main` returns `EXIT_FAILURE`, `open_obj` is not
called and the `output` hook is not invoked. (When a handler calls `exit`
instead, nothing after command-line processing runs at all, see C5.) -/
theorem C7_error_gates (env : Env) (argv : List Arg) (st : State)
    (errors : Nat) (evs : List Event)
    (hcmd : parse_cmdline env argv State.initial 0 = .done st errors evs) :
    ((∃ e ∈ (main env argv).trace, e.is_objfmt_output = true) →
      yasm_get_num_errors env.diag_after_parse st.warning_error = 0 ∧
      yasm_get_num_errors env.diag_after_optimize st.warning_error = 0) ∧
    ((∃ e ∈ (main env argv).trace, e.is_do_parse = true) →
      yasm_get_num_errors env.diag_after_parse st.warning_error ≠ 0 →
      (main env argv).outcome = .returned EXIT_FAILURE ∧
      ∀ e ∈ (main env argv).trace, e.is_open_obj = false ∧ e.is_optimize = false ∧
        e.is_objfmt_output = false) ∧
    ((∃ e ∈ (main env argv).trace, e.is_optimize = true) →
      yasm_get_num_errors env.diag_after_optimize st.warning_error ≠ 0 →
      (main env argv).outcome = .returned EXIT_FAILURE ∧
      ∀ e ∈ (main env argv).trace, e.is_open_obj = false ∧ e.is_objfmt_output = false) := by
  rcases main_structure env argv st errors evs hcmd with hA | ⟨-, hB⟩ | ⟨-, hC⟩
  · have hl := early_not_late hA.2
    refine ⟨?_, ?_, ?_⟩
    · rintro ⟨e, he, h⟩
      rw [(hl e he).2.2.2.1] at h
      cases h
    · rintro ⟨e, he, h⟩
      rw [(hl e he).1] at h
      cases h
    · rintro ⟨e, he, h⟩
      rw [(hl e he).2.2.1] at h
      cases h
  · obtain ⟨in_file, in_filename, ievs, arch, optimizer, objfmt, dbgfmt, psr, pp0, pre, -, -,
      hpre, heq⟩ := hB
    have hl := early_not_late hpre
    obtain ⟨g1, g2, g3⟩ := main_pipeline_gates env st in_file in_filename arch optimizer objfmt
      dbgfmt (main_obj_filename st.obj_filename in_file in_filename objfmt).1 psr pp0
    rw [heq, emit_trace, emit_outcome]
    refine ⟨?_, ?_, ?_⟩
    · rintro ⟨e, he, h⟩
      rcases List.mem_append.mp he with he | he
      · rw [(hl e he).2.2.2.1] at h
        cases h
      · exact g1 ⟨e, he, h⟩
    · intro _ hn
      obtain ⟨h1, h2⟩ := g2 hn
      refine ⟨h1, fun e he => ?_⟩
      rcases List.mem_append.mp he with he | he
      · exact ⟨(hl e he).2.1, (hl e he).2.2.1, (hl e he).2.2.2.1⟩
      · exact h2 e he
    · rintro ⟨e, he, h⟩ hn
      rcases List.mem_append.mp he with he | he
      · rw [(hl e he).2.2.1] at h
        cases h
      · obtain ⟨h1, h2⟩ := g3 ⟨e, he, h⟩ hn
        refine ⟨h1, fun e he => ?_⟩
        rcases List.mem_append.mp he with he | he
        · exact ⟨(hl e he).2.1, (hl e he).2.2.2.1⟩
        · exact h2 e he
  · obtain ⟨in_file, in_filename, ievs, pre, -, hpre, heq⟩ := hC
    have hl := early_not_late hpre
    have hp := main_preproc_only_props env st in_file in_filename
    rw [heq, emit_trace]
    refine ⟨?_, ?_, ?_⟩
    · rintro ⟨e, he, h⟩
      rcases List.mem_append.mp he with he | he
      · rw [(hl e he).2.2.2.1] at h
        cases h
      · rw [(hp e he).2.2.1] at h
        cases h
    · rintro ⟨e, he, h⟩
      rcases List.mem_append.mp he with he | he
      · rw [(hl e he).1] at h
        cases h
      · rw [(hp e he).1] at h
        cases h
    · rintro ⟨e, he, h⟩
      rcases List.mem_append.mp he with he | he
      · rw [(hl e he).2.2.1] at h
        cases h
      · rw [(hp e he).2.1] at h
        cases h

/-- Witness of C7: `yasm a.asm` when `do_parse` reports an error. -/
theorem C7_error_gates_witness :
    parse_cmdline sample_env_parse_error [.file "a.asm"] State.initial 0
      = .done { State.initial with in_filename := some "a.asm" } 0 [] ∧
    Event.do_parse sample_nasm_pp "nasm" "x86" "bin" "a.asm"
      ∈ (main sample_env_parse_error [.file "a.asm"]).trace ∧
    yasm_get_num_errors sample_env_parse_error.diag_after_parse 0 ≠ 0 ∧
    (main sample_env_parse_error [.file "a.asm"]).outcome = .returned EXIT_FAILURE ∧
    ∀ e ∈ (main sample_env_parse_error [.file "a.asm"]).trace,
      e.is_open_obj = false ∧ e.is_optimize = false ∧ e.is_objfmt_output = false :=
  ⟨rfl, by decide, by decide,
   ((C7_error_gates sample_env_parse_error [.file "a.asm"]
      { State.initial with in_filename := some "a.asm" } 0 [] rfl).2.1
      ⟨Event.do_parse sample_nasm_pp "nasm" "x86" "bin" "a.asm", by decide, rfl⟩
      (by decide)).1,
   ((C7_error_gates sample_env_parse_error [.file "a.asm"]
      { State.initial with in_filename := some "a.asm" } 0 [] rfl).2.1
      ⟨Event.do_parse sample_nasm_pp "nasm" "x86" "bin" "a.asm", by decide, rfl⟩
      (by decide)).2⟩

theorem main_pipeline_removes (env : Env) (st : State) (in_file : Bool)
    (in_filename : String) (arch : Arch) (optimizer : Optimizer) (objfmt : Objfmt)
    (dbgfmt : Dbgfmt) (obj_filename : String) (psr : Parser) (pp : Preproc)
    (name mode : String)
    (hopen : Event.open_obj name mode true ∈ (main_pipeline env st in_file in_filename arch
      optimizer objfmt dbgfmt obj_filename psr pp).trace)
    (hcount : yasm_get_num_errors env.diag_after_output st.warning_error > 0) :
    name = obj_filename ∧
    Event.remove name ∈ (main_pipeline env st in_file in_filename arch optimizer objfmt
      dbgfmt obj_filename psr pp).trace ∧
    (main_pipeline env st in_file in_filename arch optimizer objfmt dbgfmt obj_filename
      psr pp).outcome = .returned EXIT_FAILURE := by
  rcases main_pipeline_cases env st in_file in_filename arch optimizer objfmt dbgfmt
      obj_filename psr pp with ⟨-, h⟩ | ⟨-, -, h⟩ | ⟨-, -, -, -, h⟩ |
      ⟨-, -, -, obj, -, h⟩ | ⟨-, -, h3, obj, -, h⟩
  · rw [h] at hopen
    cases in_file <;> simp at hopen
  · rw [h] at hopen
    cases in_file <;> simp at hopen
  · rw [h] at hopen
    cases in_file <;> simp at hopen
  · rw [h] at hopen ⊢
    cases in_file <;> cases obj <;> simp at hopen <;> simp [hopen.1]
  · omega

theorem main_preproc_only_removes (env : Env) (st : State) (in_file : Bool)
    (in_filename : String) (name mode : String)
    (hopen : Event.open_obj name mode true ∈ (main_preproc_only env st in_file
      in_filename).trace)
    (hclose : Event.fclose_obj ∈ (main_preproc_only env st in_file in_filename).trace)
    (hcount : yasm_get_num_errors env.diag_after_preproc st.warning_error > 0) :
    st.obj_filename = some name ∧
    Event.remove name ∈ (main_preproc_only env st in_file in_filename).trace ∧
    (main_preproc_only env st in_file in_filename).outcome = .returned EXIT_FAILURE := by
  have hopened : ∀ e ∈ preproc_only_opened st, e ≠ Event.fclose_obj ∧
      (e = Event.open_obj name mode true → st.obj_filename = some name) := by
    intro e he
    unfold preproc_only_opened at he
    cases hf : st.obj_filename <;> simp [hf] at he
    subst he
    simp
    intro h _
    exact h
  have hbody : ∀ pp, Event.open_obj name mode true ∉
      preproc_only_body st pp in_file in_filename := by
    intro pp hm
    have := (preproc_only_body_props st pp in_file in_filename _ hm).2.2.2.2.2.2.1
    cases this
  rcases main_preproc_only_cases env st in_file in_filename with
    ⟨f, -, -, h⟩ | ⟨-, ⟨-, h⟩ | ⟨pp, hpp, ⟨-, h⟩ | ⟨-, -, h⟩ | ⟨-, h0, h⟩⟩⟩
  · rw [h] at hopen
    simp at hopen
  · rw [h] at hclose
    simp only [List.mem_append] at hclose
    rcases hclose with hc | hc
    · exact absurd rfl (hopened _ hc).1
    · simp at hc
  · rw [h] at hclose
    simp only [List.mem_append] at hclose
    rcases hclose with hc | hc
    · exact absurd rfl (hopened _ hc).1
    · simp at hc
  · rw [h] at hopen ⊢
    simp only [List.mem_append] at hopen
    have hname : st.obj_filename = some name := by
      rcases hopen with (((ho | ho) | ho) | ho) | ho
      · exact (hopened _ ho).2 rfl
      · exact absurd ho (hbody pp)
      · simp at ho
      · cases hf : st.obj_filename <;> simp [hf] at ho
      · simp at ho
    refine ⟨hname, ?_, rfl⟩
    simp [hname]
  · omega

/-- C8. In a run of `main` whose command-line processing left the variables
`st`: in full assembly, if `open_obj` opened the file `name` (the object file,
`obj_filename`) and `yasm_get_num_errors(warning_error)` is greater than 0
after the `output` hook wrote to it, `main` calls `remove(name)` and returns
`EXIT_FAILURE`; in preprocess-only mode, if `open_obj` opened the file `name`,
the preprocessed text was written and the file closed, and the count is
greater than 0 afterwards, then `name` is the `-o` file name, `main` calls
`remove(name)` and returns `EXIT_FAILURE`; in preprocess-only mode without an
output file name (output to `stdout`) `remove` is never called. -/
theorem C8_failed_output_removed (env : Env) (argv : List Arg) (st : State)
    (errors : Nat) (evs : List Event)
    (hcmd : parse_cmdline env argv State.initial 0 = .done st errors evs) :
    (st.preproc_only = 0 → ∀ name mode,
      Event.open_obj name mode true ∈ (main env argv).trace →
      yasm_get_num_errors env.diag_after_output st.warning_error > 0 →
      Event.remove name ∈ (main env argv).trace ∧
      (main env argv).outcome = .returned EXIT_FAILURE) ∧
    (st.preproc_only ≠ 0 → ∀ name mode,
      Event.open_obj name mode true ∈ (main env argv).trace →
      Event.fclose_obj ∈ (main env argv).trace →
      yasm_get_num_errors env.diag_after_preproc st.warning_error > 0 →
      st.obj_filename = some name ∧
      Event.remove name ∈ (main env argv).trace ∧
      (main env argv).outcome = .returned EXIT_FAILURE) ∧
    (st.preproc_only ≠ 0 → st.obj_filename = none →
      ∀ e ∈ (main env argv).trace, e.is_remove = false) := by
  rcases main_structure env argv st errors evs hcmd with hA | ⟨hfull, hB⟩ | ⟨hp, hC⟩
  · have hl : ∀ e ∈ (main env argv).trace, e.is_setup = true := fun e he => (hA.2 e he).1
    refine ⟨fun _ name mode ho _ => ?_, fun _ name mode ho _ _ => ?_, fun _ _ e he => ?_⟩
    · cases hl _ ho
    · cases hl _ ho
    · exact (setup_not_late e (hl e he)).2.2.2.2
  · obtain ⟨in_file, in_filename, ievs, arch, optimizer, objfmt, dbgfmt, psr, pp0, pre, -, -,
      hpre, heq⟩ := hB
    refine ⟨fun _ name mode ho hc => ?_, fun hp => absurd hfull hp,
      fun hp => absurd hfull hp⟩
    rw [heq, emit_trace] at ho
    rw [heq, emit_trace, emit_outcome]
    rcases List.mem_append.mp ho with ho | ho
    · cases (hpre _ ho).1
    · obtain ⟨-, h1, h2⟩ := main_pipeline_removes env st in_file in_filename arch optimizer
        objfmt dbgfmt _ psr pp0 name mode ho hc
      exact ⟨List.mem_append.mpr (Or.inr h1), h2⟩
  · obtain ⟨in_file, in_filename, ievs, pre, -, hpre, heq⟩ := hC
    refine ⟨fun hfull => absurd hfull hp, fun _ name mode ho hcl hc => ?_,
      fun _ hnone e he => ?_⟩
    · rw [heq, emit_trace] at ho hcl
      rw [heq, emit_trace, emit_outcome]
      have ho2 : Event.open_obj name mode true ∈
          (main_preproc_only env st in_file in_filename).trace := by
        rcases List.mem_append.mp ho with ho | ho
        · cases (hpre _ ho).1
        · exact ho
      have hcl2 : Event.fclose_obj ∈
          (main_preproc_only env st in_file in_filename).trace := by
        rcases List.mem_append.mp hcl with hcl | hcl
        · cases (hpre _ hcl).1
        · exact hcl
      obtain ⟨h0, h1, h2⟩ := main_preproc_only_removes env st in_file in_filename name mode
        ho2 hcl2 hc
      exact ⟨h0, List.mem_append.mpr (Or.inr h1), h2⟩
    · rw [heq, emit_trace] at he
      rcases List.mem_append.mp he with he | he
      · exact (setup_not_late e (hpre e he).1).2.2.2.2
      · rcases main_preproc_only_cases env st in_file in_filename with
          ⟨f, hf, -, h⟩ | ⟨-, ⟨-, h⟩ | ⟨pp, hpp, ⟨-, h⟩ | ⟨-, -, h⟩ | ⟨-, -, h⟩⟩⟩
        · rw [hnone] at hf
          cases hf
        all_goals rw [h] at he
        all_goals simp only [List.mem_append] at he
        · rcases he with he | he
          · exact (preproc_only_opened_props st e he).2.2.2.2.2.1
          · simp at he
            rcases he with rfl | rfl <;> rfl
        · rcases he with he | he
          · exact (preproc_only_opened_props st e he).2.2.2.2.2.1
          · simp at he
            subst he
            rfl
        · rcases he with (((he | he) | he) | he) | he
          · exact (preproc_only_opened_props st e he).2.2.2.2.2.1
          · exact (preproc_only_body_props st pp in_file in_filename e he).2.2.2.2.2.1
          · simp at he
            subst he
            rfl
          · simp [hnone] at he
          · simp at he
            subst he
            rfl
        · rcases he with (he | he) | he
          · exact (preproc_only_opened_props st e he).2.2.2.2.2.1
          · exact (preproc_only_body_props st pp in_file in_filename e he).2.2.2.2.2.1
          · simp at he
            subst he
            rfl

/-- Witness of C8: `yasm -f elf a.asm` when the `output` hook reports an
error, and `yasm -e -o out.txt a.asm` when the preprocessor reports one. -/
theorem C8_failed_output_removed_witness :
    (parse_cmdline sample_env_output_error [.oformat "elf", .file "a.asm"] State.initial 0
      = .done { State.initial with
                cur_objfmt := some sample_elf, in_filename := some "a.asm" } 0 [] ∧
     Event.open_obj "a.o" "wb" true
      ∈ (main sample_env_output_error [.oformat "elf", .file "a.asm"]).trace ∧
     Event.remove "a.o"
      ∈ (main sample_env_output_error [.oformat "elf", .file "a.asm"]).trace ∧
     (main sample_env_output_error [.oformat "elf", .file "a.asm"]).outcome
      = .returned EXIT_FAILURE) ∧
    (parse_cmdline sample_env_preproc_error
        [.preproc_only, .objfile "out.txt", .file "a.asm"] State.initial 0
      = .done { State.initial with preproc_only := 1, obj_filename := some "out.txt",
                                   in_filename := some "a.asm" } 0 [] ∧
     Event.open_obj "out.txt" "wt" true ∈ (main sample_env_preproc_error
        [.preproc_only, .objfile "out.txt", .file "a.asm"]).trace ∧
     Event.remove "out.txt" ∈ (main sample_env_preproc_error
        [.preproc_only, .objfile "out.txt", .file "a.asm"]).trace ∧
     (main sample_env_preproc_error
        [.preproc_only, .objfile "out.txt", .file "a.asm"]).outcome
      = .returned EXIT_FAILURE) :=
  ⟨⟨rfl, by decide,
    ((C8_failed_output_removed sample_env_output_error [.oformat "elf", .file "a.asm"]
      { State.initial with cur_objfmt := some sample_elf, in_filename := some "a.asm" }
      0 [] rfl).1 rfl "a.o" "wb" (by decide) (by decide)).1,
    ((C8_failed_output_removed sample_env_output_error [.oformat "elf", .file "a.asm"]
      { State.initial with cur_objfmt := some sample_elf, in_filename := some "a.asm" }
      0 [] rfl).1 rfl "a.o" "wb" (by decide) (by decide)).2⟩,
   ⟨rfl, by decide,
    ((C8_failed_output_removed sample_env_preproc_error
      [.preproc_only, .objfile "out.txt", .file "a.asm"]
      { State.initial with preproc_only := 1, obj_filename := some "out.txt",
                           in_filename := some "a.asm" }
      0 [] rfl).2.1 (by decide) "out.txt" "wt" (by decide) (by decide) (by decide)).2.1,
    ((C8_failed_output_removed sample_env_preproc_error
      [.preproc_only, .objfile "out.txt", .file "a.asm"]
      { State.initial with preproc_only := 1, obj_filename := some "out.txt",
                           in_filename := some "a.asm" }
      0 [] rfl).2.1 (by decide) "out.txt" "wt" (by decide) (by decide) (by decide)).2.2⟩⟩

/-- C9, the code at the failing input `yasm -e -o out.txt a.asm` in an
installation whose `nasm` preprocessor module cannot be loaded: `main` opens
`out.txt` for writing, then fails to load the default preprocessor and returns
`EXIT_FAILURE` without ever calling `remove` (or closing the file). -/
theorem C9_preproc_only_fatal_leaves_output :
    (main sample_env_no_nasm_pp [.preproc_only, .objfile "out.txt", .file "a.asm"])
      = ⟨.returned EXIT_FAILURE,
         [.fopen_in "a.asm" true,
          .call "yasm_std_linemgr.initialize", .call "yasm_std_linemgr.set",
          .call "yasm_intnum_initialize", .call "yasm_floatnum_initialize",
          .call "yasm_symrec_initialize",
          .open_obj "out.txt" "wt" true,
          .print_error (.could_not_load_default "preprocessor"),
          .cleanup false]⟩ ∧
    Event.open_obj "out.txt" "wt" true
      ∈ (main sample_env_no_nasm_pp [.preproc_only, .objfile "out.txt", .file "a.asm"]).trace ∧
    (∀ e ∈ (main sample_env_no_nasm_pp
        [.preproc_only, .objfile "out.txt", .file "a.asm"]).trace, e.is_remove = false) := by
  refine ⟨by decide, by decide, by decide⟩

/-- C10, the code at the failing input `yasm -I inc -P pre.inc a.asm`: when
`apply_preproc_saved_options` returns, `includepaths` is empty and its element
was released once, but `includefiles` still holds `pre.inc` and its element
was never released (both release loops walk `includepaths`). Each queued
parameter was passed to its hook once. -/
theorem C10_includefiles_not_drained :
    parse_cmdline sample_env [.I "inc", .P "pre.inc", .file "a.asm"] State.initial 0
      = .done { State.initial with includepaths := ["inc"], includefiles := ["pre.inc"],
                                   in_filename := some "a.asm" } 0 [] ∧
    (apply_preproc_saved_options sample_nasm_pp
        { State.initial with includepaths := ["inc"], includefiles := ["pre.inc"],
                             in_filename := some "a.asm" }).1.includepaths = [] ∧
    (apply_preproc_saved_options sample_nasm_pp
        { State.initial with includepaths := ["inc"], includefiles := ["pre.inc"],
                             in_filename := some "a.asm" }).1.includefiles = ["pre.inc"] ∧
    (apply_preproc_saved_options sample_nasm_pp
        { State.initial with includepaths := ["inc"], includefiles := ["pre.inc"],
                             in_filename := some "a.asm" }).2
      = [.add_include_path "inc", .xfree_param "inc", .add_include_file "pre.inc"] ∧
    Event.xfree_param "pre.inc" ∉ (main sample_env
        [.I "inc", .P "pre.inc", .file "a.asm"]).trace := by
  refine ⟨rfl, rfl, rfl, rfl, by decide⟩

theorem strrchr_eq_none (l : List Char) (c : Char) : strrchr l c = none ↔ c ∉ l := by
  induction l with
  | nil => simp [strrchr]
  | cons x xs ih =>
    unfold strrchr
    cases h : strrchr xs c with
    | none =>
      have hx : c ∉ xs := ih.mp h
      by_cases hxc : x = c
      · simp [hxc]
      · simp [hxc, hx, Ne.symm hxc]
    | some i =>
      have hx : ¬ c ∉ xs := fun hn => by
        rw [ih.mpr hn] at h
        cases h
      simp only [not_not] at hx
      simp [hx]

theorem strrchr_append (pre suf : List Char) (c : Char) (h : c ∉ suf) :
    strrchr (pre ++ c :: suf) c = some pre.length := by
  induction pre with
  | nil =>
    simp only [List.nil_append, strrchr, (strrchr_eq_none suf c).mpr h, List.length_nil]
    simp
  | cons x xs ih =>
    rw [List.cons_append, strrchr, ih]
    rfl

theorem strrchr_some (l : List Char) (c : Char) (i : Nat) (h : strrchr l c = some i) :
    ∃ pre suf, l = pre ++ c :: suf ∧ c ∉ suf ∧ pre.length = i := by
  induction l generalizing i with
  | nil => simp [strrchr] at h
  | cons x xs ih =>
    unfold strrchr at h
    cases hs : strrchr xs c with
    | none =>
      simp only [hs] at h
      split at h
      · rename_i hxc
        injection h with h
        subst h hxc
        exact ⟨[], xs, rfl, (strrchr_eq_none xs x).mp hs, rfl⟩
      · cases h
    | some j =>
      simp only [hs] at h
      injection h with h
      subst h
      obtain ⟨pre, suf, h1, h2, h3⟩ := ih j hs
      exact ⟨x :: pre, suf, by rw [h1]; rfl, h2, by simp [h3]⟩

/-- The four branches of `replace_extension`, by where `strrchr` finds the last
dot and whether `ext` is null. -/
theorem replace_extension_cases (orig : String) (ext : Option String) (deflt : String) :
    replace_extension orig ext deflt =
      match strrchr orig.data '.', ext with
      | some i, some e =>
        if orig.data.drop (i + 1) = e.data then
          (deflt, [.print_error (.already_ends_in e deflt)])
        else (⟨orig.data.take (i + 1) ++ e.data⟩, [])
      | some i, none => (⟨orig.data.take i⟩, [])
      | none, none => (deflt, [.print_error (.already_no_extension deflt)])
      | none, some e => (⟨orig.data ++ ['.'] ++ e.data⟩, []) := by
  cases hs : strrchr orig.data '.' with
  | none =>
    cases ext with
    | none => simp [replace_extension, hs]
    | some e =>
      have ht : List.take (orig.data.length + 1) (orig.data ++ ['.']) = orig.data ++ ['.'] :=
        List.take_of_length_le (by simp)
      simp only [replace_extension, hs, ht]
  | some i =>
    cases ext with
    | none => simp [replace_extension, hs]
    | some e =>
      by_cases hc : List.drop (i + 1) orig.data = e.data
      · simp [replace_extension, hs, hc]
      · simp [replace_extension, hs, hc]

/-- C11. `replace_extension(orig, ext, def)` returns (a copy of) `def` and
prints a warning when (a) `orig` ends in a dot followed by `ext`, `ext` being
non-null and the text after the last dot of `orig`, or (b) `orig` contains no
dot and `ext` is null. (Strings are values here; whether the buffer holds
`def` is the matter of C15.) -/
theorem C11_default_name_with_warning (orig deflt : String) :
    (∀ (e : String) (pre : List Char), orig.data = pre ++ '.' :: e.data → '.' ∉ e.data →
      replace_extension orig (some e) deflt
        = (deflt, [.print_error (.already_ends_in e deflt)])) ∧
    ('.' ∉ orig.data →
      replace_extension orig none deflt
        = (deflt, [.print_error (.already_no_extension deflt)])) := by
  refine ⟨fun e pre horig hdot => ?_, fun hdot => ?_⟩
  · have hs : strrchr orig.data '.' = some pre.length := by
      rw [horig]
      exact strrchr_append pre e.data '.' hdot
    have hd : List.drop (pre.length + 1) orig.data = e.data := by
      rw [horig]
      simp
    rw [replace_extension_cases, hs]
    simp only [hd, if_true]
  · rw [replace_extension_cases, (strrchr_eq_none orig.data '.').mpr hdot]

/-- Witness of C11: `a.o` with extension `o`, and `a` with a null extension. -/
theorem C11_default_name_with_warning_witness :
    ("a.o" : String).data = ['a'] ++ '.' :: ("o" : String).data ∧
    '.' ∉ ("o" : String).data ∧
    replace_extension "a.o" (some "o") "yasm.out"
      = ("yasm.out", [.print_error (.already_ends_in "o" "yasm.out")]) ∧
    '.' ∉ ("a" : String).data ∧
    replace_extension "a" none "yasm.out"
      = ("yasm.out", [.print_error (.already_no_extension "yasm.out")]) :=
  ⟨rfl, by decide,
   (C11_default_name_with_warning "a.o" "yasm.out").1 "o" ['a'] rfl (by decide),
   by decide,
   (C11_default_name_with_warning "a" "yasm.out").2 (by decide)⟩

/-- C12. For a non-null `ext`: if `orig` contains a dot and the text after
its last dot differs from `ext`, `replace_extension(orig, ext, def)` returns
`orig` up to and including its last dot, followed by `ext`; if `orig` contains
no dot, it returns `orig` followed by a dot and `ext`. No warning is printed in
either case. -/
theorem C12_extension_replaced_or_appended (orig e deflt : String) :
    (∀ (pre suf : List Char), orig.data = pre ++ '.' :: suf → '.' ∉ suf → suf ≠ e.data →
      replace_extension orig (some e) deflt = (⟨pre ++ '.' :: e.data⟩, [])) ∧
    ('.' ∉ orig.data →
      replace_extension orig (some e) deflt = (⟨orig.data ++ '.' :: e.data⟩, [])) := by
  refine ⟨fun pre suf horig hdot hne => ?_, fun hdot => ?_⟩
  · have hs : strrchr orig.data '.' = some pre.length := by
      rw [horig]
      exact strrchr_append pre suf '.' hdot
    have hd : List.drop (pre.length + 1) orig.data = suf := by
      rw [horig]
      simp
    have ht : List.take (pre.length + 1) orig.data = pre ++ ['.'] := by
      rw [horig]
      simp [List.take_append_eq_append_take]
    rw [replace_extension_cases, hs]
    simp only [hd, ht, if_neg hne]
    simp
  · rw [replace_extension_cases, (strrchr_eq_none orig.data '.').mpr hdot]
    simp

/-- Witness of C12: `src/a.asm` and `a`, with extension `o`. -/
theorem C12_extension_replaced_or_appended_witness :
    ("src/a.asm" : String).data = ("src/a" : String).data ++ '.' :: ("asm" : String).data ∧
    '.' ∉ ("asm" : String).data ∧
    ("asm" : String).data ≠ ("o" : String).data ∧
    replace_extension "src/a.asm" (some "o") "yasm.out" = ("src/a.o", []) ∧
    '.' ∉ ("a" : String).data ∧
    replace_extension "a" (some "o") "yasm.out" = ("a.o", []) :=
  ⟨rfl, by decide, by decide,
   (C12_extension_replaced_or_appended "src/a.asm" "o" "yasm.out").1
      ("src/a" : String).data ("asm" : String).data rfl (by decide) (by decide),
   by decide,
   (C12_extension_replaced_or_appended "a" "o" "yasm.out").2 (by decide)⟩

theorem countP_output_all_eq_zero {l : List Event}
    (h : ∀ e ∈ l, e.is_errwarn_output_all = false) :
    l.countP Event.is_errwarn_output_all = 0 := by
  rw [List.countP_eq_zero]
  intro e he
  simp [h e he]

theorem setup_not_output_all (e : Event) (h : e.is_setup = true) :
    e.is_errwarn_output_all = false ∧ e.is_preproc_init = false := by
  cases e <;> simp [Event.is_setup] at h <;>
    simp [Event.is_errwarn_output_all, Event.is_preproc_init]

theorem preproc_only_body_output_all (st : State) (pp : Preproc) (in_file : Bool)
    (in_filename : String) :
    (preproc_only_body st pp in_file in_filename).countP Event.is_errwarn_output_all = 0 ∧
    Event.preproc_init pp in_filename ∈ preproc_only_body st pp in_file in_filename := by
  refine ⟨countP_output_all_eq_zero fun e he => ?_, ?_⟩
  · unfold preproc_only_body at he
    simp only [List.mem_append] at he
    rcases he with (((he | he) | he) | he) | he
    · rcases apply_preproc_saved_options_events pp st e he with ⟨p, rfl⟩ | ⟨p, rfl⟩ | ⟨p, rfl⟩ <;>
        rfl
    · simp at he
      subst he
      rfl
    · obtain ⟨p, -, rfl⟩ := List.mem_map.mp he
      rfl
    · split at he
      · simp at he
        subst he
        rfl
      · cases he
    · split at he
      · simp at he
        subst he
        rfl
      · cases he
  · unfold preproc_only_body
    simp

theorem preproc_only_opened_output_all (st : State) :
    (preproc_only_opened st).countP Event.is_errwarn_output_all = 0 ∧
    ∀ e ∈ preproc_only_opened st, e.is_preproc_init = false := by
  unfold preproc_only_opened
  cases st.obj_filename <;> simp [Event.is_errwarn_output_all, Event.is_preproc_init]

/-- How often `main_preproc_only` calls `yasm_errwarn_output_all`. -/
theorem main_preproc_only_output_all (env : Env) (st : State) (in_file : Bool)
    (in_filename : String) :
    ((∀ e ∈ (main_preproc_only env st in_file in_filename).trace, e.is_preproc_init = false) ∧
      (main_preproc_only env st in_file in_filename).trace.countP
        Event.is_errwarn_output_all = 0) ∨
    ((∃ e ∈ (main_preproc_only env st in_file in_filename).trace, e.is_preproc_init = true) ∧
      yasm_get_num_errors env.diag_after_preproc st.warning_error > 0 ∧
      (main_preproc_only env st in_file in_filename).trace.countP
        Event.is_errwarn_output_all = 1) ∨
    ((∃ e ∈ (main_preproc_only env st in_file in_filename).trace, e.is_preproc_init = true) ∧
      yasm_get_num_errors env.diag_after_preproc st.warning_error = 0 ∧
      (main_preproc_only env st in_file in_filename).trace.countP
        Event.is_errwarn_output_all = 0) := by
  obtain ⟨ho1, ho2⟩ := preproc_only_opened_output_all st
  rcases main_preproc_only_cases env st in_file in_filename with
    ⟨f, -, -, h⟩ | ⟨-, ⟨-, h⟩ | ⟨pp, hpp, ⟨-, h⟩ | ⟨-, hc, h⟩ | ⟨-, hc, h⟩⟩⟩
  · left
    rw [h]
    simp [Event.is_errwarn_output_all, Event.is_preproc_init]
  · left
    rw [h]
    refine ⟨?_, ?_⟩
    · intro e he
      rcases List.mem_append.mp he with he | he
      · exact ho2 e he
      · simp at he
        rcases he with rfl | rfl <;> rfl
    · simp [List.countP_append, ho1, Event.is_errwarn_output_all]
  · left
    rw [h]
    refine ⟨?_, ?_⟩
    · intro e he
      rcases List.mem_append.mp he with he | he
      · exact ho2 e he
      · simp at he
        subst he
        rfl
    · simp [List.countP_append, ho1, Event.is_errwarn_output_all]
  · right; left
    obtain ⟨hb1, hb2⟩ := preproc_only_body_output_all st pp in_file in_filename
    rw [h]
    refine ⟨⟨Event.preproc_init pp in_filename, ?_, rfl⟩, hc, ?_⟩
    · simp only [List.mem_append]
      exact Or.inl (Or.inl (Or.inl (Or.inr hb2)))
    · cases hf : st.obj_filename <;>
        simp [List.countP_append, ho1, hb1, Event.is_errwarn_output_all]
  · right; right
    obtain ⟨hb1, hb2⟩ := preproc_only_body_output_all st pp in_file in_filename
    rw [h]
    refine ⟨⟨Event.preproc_init pp in_filename, ?_, rfl⟩, hc, ?_⟩
    · simp only [List.mem_append]
      exact Or.inl (Or.inr hb2)
    · simp [List.countP_append, ho1, hb1, Event.is_errwarn_output_all]

/-- How often `main_pipeline` calls `yasm_errwarn_output_all`: once, except
when `open_obj` fails. -/
theorem main_pipeline_output_all (env : Env) (st : State) (in_file : Bool)
    (in_filename : String) (arch : Arch) (optimizer : Optimizer) (objfmt : Objfmt)
    (dbgfmt : Dbgfmt) (obj_filename : String) (psr : Parser) (pp : Preproc) :
    (∃ e ∈ (main_pipeline env st in_file in_filename arch optimizer objfmt dbgfmt
        obj_filename psr pp).trace, e.is_do_parse = true) ∧
    (((main_pipeline env st in_file in_filename arch optimizer objfmt dbgfmt
        obj_filename psr pp).trace.countP Event.is_errwarn_output_all = 1) ∨
     ((∃ e ∈ (main_pipeline env st in_file in_filename arch optimizer objfmt dbgfmt
        obj_filename psr pp).trace, e.is_open_obj_failure = true) ∧
      (main_pipeline env st in_file in_filename arch optimizer objfmt dbgfmt
        obj_filename psr pp).trace.countP Event.is_errwarn_output_all = 0)) := by
  rcases main_pipeline_cases env st in_file in_filename arch optimizer objfmt dbgfmt
      obj_filename psr pp with ⟨-, h⟩ | ⟨-, -, h⟩ | ⟨-, -, -, -, h⟩ | ⟨-, -, -, obj, -, h⟩ |
      ⟨-, -, -, obj, -, h⟩
  all_goals rw [h]
  all_goals refine ⟨⟨.do_parse pp psr.keyword arch.keyword objfmt.keyword in_filename,
    by simp, rfl⟩, ?_⟩
  · left
    cases in_file <;> simp [List.countP_cons, Event.is_errwarn_output_all]
  · left
    cases in_file <;> simp [List.countP_cons, Event.is_errwarn_output_all]
  · right
    refine ⟨⟨.open_obj obj_filename "wb" false, by simp, rfl⟩, ?_⟩
    cases in_file <;> simp [List.countP_cons, Event.is_errwarn_output_all]
  · left
    cases in_file <;> cases obj <;> simp [List.countP_cons, Event.is_errwarn_output_all]
  · left
    cases in_file <;> cases obj <;> simp [List.countP_cons, Event.is_errwarn_output_all]

/-- C13, as amended. In a run of `main` whose command-line processing left the
variables `st`: `yasm_errwarn_output_all` is called at most once; it is called
exactly once in every full-assembly run that gets to `do_parse`, on the
success path and on the error-count failure paths alike, unless `open_obj`
fails; exactly once in a preprocess-only run that initialized the
preprocessor and ends with a positive error count; and not at all in a run
that ends before `do_parse` and before the preprocessor is initialized (a
FATAL configuration error, or the machine list). -/
theorem C13_errwarn_output_all_calls (env : Env) (argv : List Arg) (st : State)
    (errors : Nat) (evs : List Event)
    (hcmd : parse_cmdline env argv State.initial 0 = .done st errors evs) :
    (main env argv).errwarn_output_all_calls ≤ 1 ∧
    (st.preproc_only = 0 → (∃ e ∈ (main env argv).trace, e.is_do_parse = true) →
      (∀ e ∈ (main env argv).trace, e.is_open_obj_failure = false) →
      (main env argv).errwarn_output_all_calls = 1) ∧
    (st.preproc_only ≠ 0 → (∃ e ∈ (main env argv).trace, e.is_preproc_init = true) →
      yasm_get_num_errors env.diag_after_preproc st.warning_error > 0 →
      (main env argv).errwarn_output_all_calls = 1) ∧
    ((∀ e ∈ (main env argv).trace, e.is_do_parse = false ∧ e.is_preproc_init = false) →
      (main env argv).errwarn_output_all_calls = 0) := by
  unfold Run.errwarn_output_all_calls
  rcases main_structure env argv st errors evs hcmd with hA | ⟨hfull, hB⟩ | ⟨hp, hC⟩
  · have h0 : (main env argv).trace.countP Event.is_errwarn_output_all = 0 :=
      countP_output_all_eq_zero fun e he => (setup_not_output_all e (hA.2 e he).1).1
    rw [h0]
    refine ⟨Nat.zero_le _, ?_, ?_, fun _ => rfl⟩
    · rintro - ⟨e, he, h⟩
      rw [(setup_not_late e (hA.2 e he).1).1] at h
      cases h
    · rintro - ⟨e, he, h⟩
      rw [(setup_not_output_all e (hA.2 e he).1).2] at h
      cases h
  · obtain ⟨in_file, in_filename, ievs, arch, optimizer, objfmt, dbgfmt, psr, pp0, pre, -, -,
      hpre, heq⟩ := hB
    have h0 : pre.countP Event.is_errwarn_output_all = 0 :=
      countP_output_all_eq_zero fun e he => (setup_not_output_all e (hpre e he).1).1
    obtain ⟨⟨d, hd, hdp⟩, hcount⟩ := main_pipeline_output_all env st in_file in_filename arch
      optimizer objfmt dbgfmt (main_obj_filename st.obj_filename in_file in_filename objfmt).1
      psr pp0
    rw [heq, emit_trace, List.countP_append, h0, Nat.zero_add]
    refine ⟨?_, ?_, fun hp => absurd hfull hp, ?_⟩
    · rcases hcount with h | ⟨-, h⟩ <;> rw [h]
      exact Nat.zero_le _
    · intro _ _ hno
      rcases hcount with h | ⟨⟨e, he, hf⟩, -⟩
      · exact h
      · rw [hno e (List.mem_append.mpr (Or.inr he))] at hf
        cases hf
    · intro hno
      rw [(hno d (List.mem_append.mpr (Or.inr hd))).1] at hdp
      cases hdp
  · obtain ⟨in_file, in_filename, ievs, pre, -, hpre, heq⟩ := hC
    have h0 : pre.countP Event.is_errwarn_output_all = 0 :=
      countP_output_all_eq_zero fun e he => (setup_not_output_all e (hpre e he).1).1
    rw [heq, emit_trace, List.countP_append, h0, Nat.zero_add]
    rcases main_preproc_only_output_all env st in_file in_filename with
      ⟨hno, hc⟩ | ⟨⟨d, hd, hdp⟩, hpos, hc⟩ | ⟨⟨d, hd, hdp⟩, hzero, hc⟩
    · rw [hc]
      refine ⟨Nat.zero_le _, fun hfull => absurd hfull hp, ?_, fun _ => rfl⟩
      rintro - ⟨e, he, h⟩ -
      rcases List.mem_append.mp he with he | he
      · rw [(setup_not_output_all e (hpre e he).1).2] at h
        cases h
      · rw [hno e he] at h
        cases h
    · rw [hc]
      refine ⟨Nat.le_refl _, fun hfull => absurd hfull hp, fun _ _ _ => rfl, ?_⟩
      intro hno
      rw [(hno d (List.mem_append.mpr (Or.inr hd))).2] at hdp
      cases hdp
    · rw [hc]
      refine ⟨Nat.zero_le _, fun hfull => absurd hfull hp, ?_, ?_⟩
      · intro _ _ hpos
        omega
      · exact fun _ => rfl

/-- Witness of C13 (amended): `yasm -f elf a.asm` (success), `yasm a.asm` when
`do_parse` reports an error, and `yasm -e -o out.txt a.asm` when the
preprocessor reports an error. -/
theorem C13_errwarn_output_all_calls_witness :
    (parse_cmdline sample_env [.oformat "elf", .file "a.asm"] State.initial 0
      = .done { State.initial with
                cur_objfmt := some sample_elf, in_filename := some "a.asm" } 0 [] ∧
     (main sample_env [.oformat "elf", .file "a.asm"]).outcome = .returned EXIT_SUCCESS ∧
     (main sample_env [.oformat "elf", .file "a.asm"]).errwarn_output_all_calls = 1) ∧
    (parse_cmdline sample_env_parse_error [.file "a.asm"] State.initial 0
      = .done { State.initial with in_filename := some "a.asm" } 0 [] ∧
     (main sample_env_parse_error [.file "a.asm"]).outcome = .returned EXIT_FAILURE ∧
     (main sample_env_parse_error [.file "a.asm"]).errwarn_output_all_calls = 1) ∧
    (parse_cmdline sample_env_preproc_error
        [.preproc_only, .objfile "out.txt", .file "a.asm"] State.initial 0
      = .done { State.initial with preproc_only := 1, obj_filename := some "out.txt",
                                   in_filename := some "a.asm" } 0 [] ∧
     (main sample_env_preproc_error
        [.preproc_only, .objfile "out.txt", .file "a.asm"]).errwarn_output_all_calls = 1) :=
  ⟨⟨rfl, by decide,
    (C13_errwarn_output_all_calls sample_env [.oformat "elf", .file "a.asm"]
      { State.initial with cur_objfmt := some sample_elf, in_filename := some "a.asm" }
      0 [] rfl).2.1 rfl
      ⟨Event.do_parse sample_nasm_pp "nasm" "x86" "elf" "a.asm", by decide, rfl⟩
      (by decide)⟩,
   ⟨rfl, by decide,
    (C13_errwarn_output_all_calls sample_env_parse_error [.file "a.asm"]
      { State.initial with in_filename := some "a.asm" } 0 [] rfl).2.1 rfl
      ⟨Event.do_parse sample_nasm_pp "nasm" "x86" "bin" "a.asm", by decide, rfl⟩
      (by decide)⟩,
   ⟨rfl,
    (C13_errwarn_output_all_calls sample_env_preproc_error
      [.preproc_only, .objfile "out.txt", .file "a.asm"]
      { State.initial with preproc_only := 1, obj_filename := some "out.txt",
                           in_filename := some "a.asm" }
      0 [] rfl).2.2.1 (by decide)
      ⟨Event.preproc_init sample_nasm_pp "a.asm", by decide, rfl⟩ (by decide)⟩⟩

/-- Counterexample to C13 as stated: `yasm -g dwarf2 a.asm`. The run gets past
command-line processing without a help, version or listing request and
reaches module validation, where the debug format is turned down (FATAL);
`main` returns `EXIT_FAILURE` and `yasm_errwarn_output_all` was never called. -/
theorem C13_counterexample :
    parse_cmdline sample_env [.dformat "dwarf2", .file "a.asm"] State.initial 0
      = .done { State.initial with
                cur_dbgfmt := some sample_dwarf2, in_filename := some "a.asm" } 0 [] ∧
    Event.print_error (.not_valid "dwarf2" "debug format" "object format" "bin")
      ∈ (main sample_env [.dformat "dwarf2", .file "a.asm"]).trace ∧
    (main sample_env [.dformat "dwarf2", .file "a.asm"]).outcome = .returned EXIT_FAILURE ∧
    (main sample_env [.dformat "dwarf2", .file "a.asm"]).errwarn_output_all_calls = 0 ∧
    (main sample_env [.dformat "dwarf2", .file "a.asm"]).errwarn_output_all_calls ≠ 1 :=
  ⟨rfl, by decide, by decide, by decide, by decide⟩

theorem replace_extension_fits_without_warning (orig : String) (ext : Option String)
    (deflt : String) (h : (replace_extension orig ext deflt).2 = []) :
    (replace_extension orig ext deflt).1.data.length + 1 ≤ replace_extension_size orig ext := by
  rw [replace_extension_cases] at h ⊢
  unfold replace_extension_size
  cases hs : strrchr orig.data '.' with
  | none =>
    cases ext with
    | none => simp [hs] at h
    | some e =>
      simp only [List.length_append, List.length_cons, List.length_nil]
      omega
  | some i =>
    cases ext with
    | none =>
      simp only [List.length_take]
      omega
    | some e =>
      by_cases hc : List.drop (i + 1) orig.data = e.data
      · simp [hs, hc] at h
      · simp only [hc, if_false, List.length_append, List.length_take]
        omega

theorem replace_extension_eq_orig (orig : String) (ext : Option String)
    (h : (replace_extension orig ext "yasm.out").1 = orig) :
    orig = "yasm.out" ∧ ext = some "out" := by
  rw [replace_extension_cases] at h
  cases hs : strrchr orig.data '.' with
  | none =>
    have hdot := (strrchr_eq_none orig.data '.').mp hs
    cases ext with
    | none =>
      simp only [hs] at h
      rw [← h] at hdot
      exact absurd (by decide) hdot
    | some e =>
      simp only [hs] at h
      have := congrArg (fun s : String => s.data.length) h
      simp at this
  | some i =>
    obtain ⟨pre, suf, horig, hsuf, hlen⟩ := strrchr_some orig.data '.' i hs
    cases ext with
    | none =>
      simp only [hs] at h
      have := congrArg (fun s : String => s.data.length) h
      simp only [List.length_take] at this
      rw [horig] at this
      simp at this
      omega
    | some e =>
      simp only [hs] at h
      by_cases hc : List.drop (i + 1) orig.data = e.data
      · rw [if_pos hc] at h
        simp only at h
        subst h
        have hi : i = 4 := by
          have : strrchr ("yasm.out" : String).data '.' = some 4 := by decide
          rw [this] at hs
          injection hs with hs
          exact hs.symm
        subst hi
        refine ⟨rfl, ?_⟩
        have he : e.data = ("out" : String).data := by
          rw [← hc]
          decide
        have : e = "out" := String.ext he
        rw [this]
      · rw [if_neg hc] at h
        simp only at h
        have h2 := congrArg String.data h
        simp only at h2
        have h3 : List.take (i + 1) orig.data ++ e.data
            = List.take (i + 1) orig.data ++ List.drop (i + 1) orig.data := by
          rw [List.take_append_drop]
          exact h2
        exact absurd (List.append_cancel_left h3).symm hc

/-- C15, the code at the failing input `yasm -f elf a.o` (object format
extension `o`): `replace_extension("a.o", "o", "yasm.out")` allocates
`strlen("a.o") + strlen("o") + 2 = 6` bytes and returns the copy of
`yasm.out`, which needs 9 with its terminator. -/
theorem C15_default_name_overflows_buffer :
    replace_extension "a.o" (some "o") "yasm.out"
      = ("yasm.out", [.print_error (.already_ends_in "o" "yasm.out")]) ∧
    replace_extension_size "a.o" (some "o") = 6 ∧
    (replace_extension "a.o" (some "o") "yasm.out").1.data.length + 1 = 9 ∧
    ¬ ((replace_extension "a.o" (some "o") "yasm.out").1.data.length + 1
        ≤ replace_extension_size "a.o" (some "o")) ∧
    Event.open_obj "yasm.out" "wb" true
      ∈ (main sample_env [.oformat "elf", .file "a.o"]).trace := by
  refine ⟨by decide, by decide, by decide, by decide, by decide⟩

/-- C16, the code at the failing input `yasm -f outfmt yasm.out` (object
format extension `out`): `replace_extension("yasm.out", "out", "yasm.out")`
returns `yasm.out`, the name of the source file, and `main` opens that file
for writing after having read it. -/
theorem C16_default_name_is_source_name :
    replace_extension "yasm.out" (some "out") "yasm.out"
      = ("yasm.out", [.print_error (.already_ends_in "out" "yasm.out")]) ∧
    Event.fopen_in "yasm.out" true
      ∈ (main sample_env_outfmt [.oformat "outfmt", .file "yasm.out"]).trace ∧
    Event.open_obj "yasm.out" "wb" true
      ∈ (main sample_env_outfmt [.oformat "outfmt", .file "yasm.out"]).trace := by
  refine ⟨by decide, by decide, by decide⟩

/-- C14, the code at the failing input `yasm -m bogus a.asm`: `main` opens
`a.asm`, the architecture turns the machine `bogus` down, and `main` returns
`EXIT_FAILURE` (line 408) without `fclose(in)`. With `-m help` it returns
`EXIT_SUCCESS` (line 402), again without closing the input. -/
theorem C14_input_left_open :
    main sample_env [.machine "bogus", .file "a.asm"]
      = ⟨.returned EXIT_FAILURE,
         [.fopen_in "a.asm" true,
          .call "yasm_std_linemgr.initialize", .call "yasm_std_linemgr.set",
          .call "yasm_intnum_initialize", .call "yasm_floatnum_initialize",
          .call "yasm_symrec_initialize",
          .arch_init "x86" "bogus",
          .print_error (.not_valid "bogus" "machine" "architecture" "x86")]⟩ ∧
    Event.fopen_in "a.asm" true ∈ (main sample_env [.machine "bogus", .file "a.asm"]).trace ∧
    Event.fclose_in ∉ (main sample_env [.machine "bogus", .file "a.asm"]).trace ∧
    (main sample_env [.machine "help", .file "a.asm"]).outcome = .returned EXIT_SUCCESS ∧
    Event.fopen_in "a.asm" true ∈ (main sample_env [.machine "help", .file "a.asm"]).trace ∧
    Event.fclose_in ∉ (main sample_env [.machine "help", .file "a.asm"]).trace := by
  refine ⟨by decide, by decide, by decide, by decide, by decide, by decide⟩

end Yasm
